import Mathlib

/-!
# Maintenance system: ticket service and live-update hub

A shallow embedding of `services/api`:

* `domain`      : the records of `internal/domain` (users, tickets, comments, ...);
* `repository`  : the repository interfaces of `internal/repository/interfaces.go`,
                  as behaviours over an abstract database state;
* `service`     : `internal/service/ticket_service.go`, statement by statement, over a
                  world that carries the database, the clock and the trace of the calls
                  the service makes on its collaborators; then `user_service.go` and
                  `auth_service.go`;
* `middleware`, `main`, `handler` : `internal/middleware/rbac.go`, the route table of
                  `cmd/api/main.go`, and the handlers of `internal/handler` that the
                  properties below are about;
* `golang`, `uuid`, `filepath`, `jwt`, `bcrypt`, `json`, `gin`, `http` : the library
                  functions that code calls, as far as it uses them;
* `websocket`   : the broadcast hub (`internal/websocket`), whose code is not among the
                  sources and is modelled from the written design.
-/

set_option autoImplicit false

/-! ## internal/domain -/

namespace domain

/-- The type `uuid.UUID`: an opaque identifier. -/
abbrev UUID := Nat

/-- The type `time.Time`: an instant, as a number of clock units. -/
abbrev Time := Nat

/-- The type `UserRole` (`type UserRole string`). -/
abbrev UserRole := String

def RoleUser : UserRole := "USER"
def RoleTechnician : UserRole := "TECHNICIAN"
def RoleAdmin : UserRole := "ADMIN"

/-- The type `UserStatus` (`type UserStatus string`). -/
abbrev UserStatus := String

def StatusActive : UserStatus := "active"
def StatusInactive : UserStatus := "inactive"

/-- The struct `User`.  The two gorm relation slices `CreatedTickets` and
`AssignedTickets` (both `json:"-"`, never filled by the code embedded here) are left
out: they would make `User` and `Ticket` mutually recursive. -/
structure User where
  ID : UUID
  Email : String
  Password : String
  Name : String
  Role : UserRole
  Phone : String
  Department : String
  Avatar : String
  Status : UserStatus
  CreatedAt : Time
  UpdatedAt : Time
  deriving DecidableEq

/-- The type `TicketStatus` (`type TicketStatus string`). -/
abbrev TicketStatus := String

def StatusOpen : TicketStatus := "OPEN"
def StatusInProgress : TicketStatus := "IN_PROGRESS"
def StatusPending : TicketStatus := "PENDING"
def StatusResolved : TicketStatus := "RESOLVED"
def StatusClosed : TicketStatus := "CLOSED"

/-- The type `TicketPriority` (`type TicketPriority string`). -/
abbrev TicketPriority := String

def PriorityLow : TicketPriority := "LOW"
def PriorityMedium : TicketPriority := "MEDIUM"
def PriorityHigh : TicketPriority := "HIGH"
def PriorityCritical : TicketPriority := "CRITICAL"

/-- The type `TicketCategory` (`type TicketCategory string`). -/
abbrev TicketCategory := String

def CategoryElectrical : TicketCategory := "ELECTRICAL"
def CategoryPlumbing : TicketCategory := "PLUMBING"
def CategoryHVAC : TicketCategory := "HVAC"
def CategoryIT : TicketCategory := "IT"
def CategoryGeneral : TicketCategory := "GENERAL"
def CategoryOther : TicketCategory := "OTHER"

/-- The struct `Comment`. -/
structure Comment where
  ID : UUID
  Content : String
  TicketID : UUID
  UserID : UUID
  CreatedAt : Time
  User : Option User
  deriving DecidableEq

/-- The struct `TicketLog`. -/
structure TicketLog where
  ID : UUID
  TicketID : UUID
  Action : String
  OldValue : String
  NewValue : String
  UserID : UUID
  CreatedAt : Time
  User : Option User
  deriving DecidableEq

/-- The struct `Attachment` (its field `Type` is `Type_` here, `Type` being reserved). -/
structure Attachment where
  ID : UUID
  Filename : String
  URL : String
  Type_ : String
  Size : Int
  TicketID : UUID
  CreatedAt : Time
  deriving DecidableEq

/-- The struct `Ticket`; a Go pointer field is an `Option`. -/
structure Ticket where
  ID : UUID
  Title : String
  Description : String
  Status : TicketStatus
  Priority : TicketPriority
  Category : TicketCategory
  Location : String
  CreatedByID : UUID
  AssignedToID : Option UUID
  DueDate : Option Time
  ResolvedAt : Option Time
  CreatedAt : Time
  UpdatedAt : Time
  CreatedBy : Option User
  AssignedTo : Option User
  Comments : List Comment
  Attachments : List Attachment
  Logs : List TicketLog
  deriving DecidableEq

end domain

/-! ## internal/repository (interfaces.go) -/

namespace repository

open domain

/-- A Go `error` value that is not nil, by its message. -/
abbrev Err := String

/-- The struct `TicketFilter`. -/
structure TicketFilter where
  Status : String
  Priority : String
  Category : String
  AssignedToID : Option UUID
  CreatedByID : Option UUID
  Search : String
  Page : Int
  Limit : Int
  deriving DecidableEq

/-- The interface `TicketRepository`, as a behaviour over a database state `σ`.
A method that takes a `*domain.Ticket` may write through the pointer (gorm fills
the generated columns), so it also returns the ticket as it is after the call; the
`error` result is `none` for nil.  `FindByID` returns either a ticket or an error. -/
structure TicketRepository (σ : Type) where
  Create : Ticket → σ → (Option Err × Ticket) × σ
  FindByID : UUID → σ → Except Err Ticket × σ
  FindAll : TicketFilter → σ → Except Err (List Ticket × Int) × σ
  Update : Ticket → σ → (Option Err × Ticket) × σ
  Delete : UUID → σ → Option Err × σ
  GetStats : σ → Except Err (List (String × Int)) × σ

/-- The interface `CommentRepository`. -/
structure CommentRepository (σ : Type) where
  Create : Comment → σ → (Option Err × Comment) × σ
  FindByTicketID : UUID → σ → Except Err (List Comment) × σ
  Delete : UUID → σ → Option Err × σ

/-- The interface `AttachmentRepository`. -/
structure AttachmentRepository (σ : Type) where
  Create : Attachment → σ → (Option Err × Attachment) × σ
  FindByTicketID : UUID → σ → Except Err (List Attachment) × σ
  Delete : UUID → σ → Option Err × σ

/-- The interface `UserRepository`. -/
structure UserRepository (σ : Type) where
  Create : User → σ → (Option Err × User) × σ
  FindByID : UUID → σ → Except Err User × σ
  FindByEmail : String → σ → Except Err User × σ
  FindAll : Int → Int → σ → Except Err (List User × Int) × σ
  Update : User → σ → (Option Err × User) × σ
  Delete : UUID → σ → Option Err × σ

end repository

/-! ## internal/service (ticket_service.go) -/

namespace service

open domain repository

/-- The field `hub *websocket.Hub` of the service, when it is not nil: the address of
the hub.  The service only tests the pointer against nil and calls `Broadcast` on it. -/
structure HubPtr where
  addr : Nat
  deriving DecidableEq

/-- The second argument of `Hub.Broadcast` (an `interface{}`): the service passes
either a `*domain.Ticket` or a `uuid.UUID`. -/
inductive Payload where
  | ticket (t : Ticket)
  | id (u : UUID)
  deriving DecidableEq

/-- A dynamic value of an `updates map[string]interface{}`.  The service only asks
whether a value is a `string`; every other dynamic type behaves like these. -/
inductive GoValue where
  | nil
  | bool (b : Bool)
  | number (n : Int)
  | string (s : String)
  deriving DecidableEq

/-- The type `map[string]interface{}`: the first binding of a key is its value. -/
abbrev Updates := List (String × GoValue)

/-- The type assertion `updates[key].(string)`: the string and `ok`. -/
def Updates.getString (updates : Updates) (key : String) : Option String :=
  match updates.lookup key with
  | some (.string s) => some s
  | _ => none

/-- One call the service makes on a collaborator, with what the call returned
(a call of `Broadcast` returns nothing). -/
inductive Call where
  | ticketCreate (t : Ticket) (err : Option Err)
  | ticketFindByID (id : UUID) (res : Except Err Ticket)
  | ticketFindAll (filter : TicketFilter) (res : Except Err (List Ticket × Int))
  | ticketUpdate (t : Ticket) (err : Option Err)
  | ticketDelete (id : UUID) (err : Option Err)
  | ticketGetStats (res : Except Err (List (String × Int)))
  | userFindByID (id : UUID) (res : Except Err User)
  | commentCreate (c : Comment) (err : Option Err)
  | commentFindByTicketID (id : UUID) (res : Except Err (List Comment))
  | broadcast (hub : HubPtr) (eventType : String) (payload : Payload)

/-- What the service runs in: the database behind the repositories, the clock
(`clock n` is what the n-th call of `time.Now()` returns, `tick` counts the calls made)
and the calls made so far, oldest first. -/
structure World (σ : Type) where
  db : σ
  clock : Nat → Time
  tick : Nat
  trace : List Call

/-- The call `time.Now()`. -/
def timeNow {σ : Type} (w : World σ) : Time × World σ :=
  (w.clock w.tick, { w with tick := w.tick + 1 })

/-- The struct `ticketService`; `hub` is `none` for a nil pointer. -/
structure ticketService (σ : Type) where
  repo : TicketRepository σ
  commentRepo : CommentRepository σ
  userRepo : UserRepository σ
  hub : Option HubPtr

/-- The constructor `NewTicketService`. -/
def NewTicketService {σ : Type} (repo : TicketRepository σ)
    (commentRepo : CommentRepository σ) (userRepo : UserRepository σ)
    (hub : Option HubPtr) : ticketService σ :=
  { repo := repo, commentRepo := commentRepo, userRepo := userRepo, hub := hub }

variable {σ : Type}

/-- The call `s.repo.Create(ticket)`, recorded. -/
def repoCreate (s : ticketService σ) (ticket : Ticket) (w : World σ) :
    (Option Err × Ticket) × World σ :=
  let r := s.repo.Create ticket w.db
  (r.1, { w with db := r.2, trace := w.trace ++ [Call.ticketCreate ticket r.1.1] })

/-- The call `s.repo.FindByID(id)`, recorded. -/
def repoFindByID (s : ticketService σ) (id : UUID) (w : World σ) :
    Except Err Ticket × World σ :=
  let r := s.repo.FindByID id w.db
  (r.1, { w with db := r.2, trace := w.trace ++ [Call.ticketFindByID id r.1] })

/-- The call `s.repo.FindAll(filter)`, recorded. -/
def repoFindAll (s : ticketService σ) (filter : TicketFilter) (w : World σ) :
    Except Err (List Ticket × Int) × World σ :=
  let r := s.repo.FindAll filter w.db
  (r.1, { w with db := r.2, trace := w.trace ++ [Call.ticketFindAll filter r.1] })

/-- The call `s.repo.Update(ticket)`, recorded. -/
def repoUpdate (s : ticketService σ) (ticket : Ticket) (w : World σ) :
    (Option Err × Ticket) × World σ :=
  let r := s.repo.Update ticket w.db
  (r.1, { w with db := r.2, trace := w.trace ++ [Call.ticketUpdate ticket r.1.1] })

/-- The call `s.repo.Delete(id)`, recorded. -/
def repoDelete (s : ticketService σ) (id : UUID) (w : World σ) :
    Option Err × World σ :=
  let r := s.repo.Delete id w.db
  (r.1, { w with db := r.2, trace := w.trace ++ [Call.ticketDelete id r.1] })

/-- The call `s.repo.GetStats()`, recorded. -/
def repoGetStats (s : ticketService σ) (w : World σ) :
    Except Err (List (String × Int)) × World σ :=
  let r := s.repo.GetStats w.db
  (r.1, { w with db := r.2, trace := w.trace ++ [Call.ticketGetStats r.1] })

/-- The call `s.userRepo.FindByID(id)`, recorded. -/
def userRepoFindByID (s : ticketService σ) (id : UUID) (w : World σ) :
    Except Err User × World σ :=
  let r := s.userRepo.FindByID id w.db
  (r.1, { w with db := r.2, trace := w.trace ++ [Call.userFindByID id r.1] })

/-- The call `s.commentRepo.Create(comment)`, recorded. -/
def commentRepoCreate (s : ticketService σ) (comment : Comment) (w : World σ) :
    (Option Err × Comment) × World σ :=
  let r := s.commentRepo.Create comment w.db
  (r.1, { w with db := r.2, trace := w.trace ++ [Call.commentCreate comment r.1.1] })

/-- The call `s.commentRepo.FindByTicketID(ticketID)`, recorded. -/
def commentRepoFindByTicketID (s : ticketService σ) (ticketID : UUID) (w : World σ) :
    Except Err (List Comment) × World σ :=
  let r := s.commentRepo.FindByTicketID ticketID w.db
  (r.1, { w with db := r.2, trace := w.trace ++ [Call.commentFindByTicketID ticketID r.1] })

/-- The call `hub.Broadcast(eventType, payload)` on a hub that is not nil: it returns
nothing to the service; the call is recorded. -/
def Broadcast (hub : HubPtr) (eventType : String) (payload : Payload) (w : World σ) :
    World σ :=
  { w with trace := w.trace ++ [Call.broadcast hub eventType payload] }

/-- The statement `if s.hub != nil { s.hub.Broadcast(eventType, payload) }`. -/
def notify (s : ticketService σ) (eventType : String) (payload : Payload)
    (w : World σ) : World σ :=
  match s.hub with
  | some hub => Broadcast hub eventType payload w
  | none => w

/-- The method `ticketService.Create`: the returned error and the ticket as the
caller sees it through its pointer afterwards. -/
def ticketService.Create (s : ticketService σ) (ticket : Ticket) (w : World σ) :
    (Option Err × Ticket) × World σ :=
  let ticket := { ticket with Status := StatusOpen }
  let (now, w) := timeNow w
  let ticket := { ticket with CreatedAt := now }
  let (now, w) := timeNow w
  let ticket := { ticket with UpdatedAt := now }
  let ((err, ticket), w) := repoCreate s ticket w
  match err with
  | some err => ((some err, ticket), w)
  | none =>
    -- Realtime notification
    let w := notify s "ticket:created" (Payload.ticket ticket) w
    ((none, ticket), w)

/-- The method `ticketService.GetByID`. -/
def ticketService.GetByID (s : ticketService σ) (id : UUID) (w : World σ) :
    Except Err Ticket × World σ :=
  repoFindByID s id w

/-- The method `ticketService.GetAll`. -/
def ticketService.GetAll (s : ticketService σ) (filter : TicketFilter) (w : World σ) :
    Except Err (List Ticket × Int) × World σ :=
  repoFindAll s filter w

/-- The block `if title, ok := updates["title"].(string); ok { ... }` of `Update`. -/
def applyTitle (updates : Updates) (ticket : Ticket) : Ticket :=
  match updates.getString "title" with
  | some title => { ticket with Title := title }
  | none => ticket

/-- The block `if desc, ok := updates["description"].(string); ok { ... }` of `Update`. -/
def applyDescription (updates : Updates) (ticket : Ticket) : Ticket :=
  match updates.getString "description" with
  | some desc => { ticket with Description := desc }
  | none => ticket

/-- The block `if status, ok := updates["status"].(string); ok { ... }` of `Update`. -/
def applyStatus (updates : Updates) (ticket : Ticket) (w : World σ) :
    Ticket × World σ :=
  match updates.getString "status" with
  | some status =>
    let ticket := { ticket with Status := status }
    if ticket.Status = StatusResolved then
      let (now, w) := timeNow w
      ({ ticket with ResolvedAt := some now }, w)
    else (ticket, w)
  | none => (ticket, w)

/-- The block `if priority, ok := updates["priority"].(string); ok { ... }` of
`Update`. -/
def applyPriority (updates : Updates) (ticket : Ticket) : Ticket :=
  match updates.getString "priority" with
  | some priority => { ticket with Priority := priority }
  | none => ticket

/-- The method `ticketService.Update` (`editorID` is not used by the code). -/
def ticketService.Update (s : ticketService σ) (id : UUID) (updates : Updates)
    (_editorID : UUID) (w : World σ) : Except Err Ticket × World σ :=
  let (found, w) := repoFindByID s id w
  match found with
  | .error err => (.error err, w)
  | .ok ticket =>
    -- Apply updates
    let ticket := applyTitle updates ticket
    let ticket := applyDescription updates ticket
    let (ticket, w) := applyStatus updates ticket w
    let ticket := applyPriority updates ticket
    let (now, w) := timeNow w
    let ticket := { ticket with UpdatedAt := now }
    let ((err, ticket), w) := repoUpdate s ticket w
    match err with
    | some err => (.error err, w)
    | none =>
      -- Realtime notification
      let w := notify s "ticket:updated" (Payload.ticket ticket) w
      (.ok ticket, w)

/-- The method `ticketService.Delete`. -/
def ticketService.Delete (s : ticketService σ) (id : UUID) (w : World σ) :
    Option Err × World σ :=
  let (err, w) := repoDelete s id w
  match err with
  | some err => (some err, w)
  | none =>
    let w := notify s "ticket:deleted" (Payload.id id) w
    (none, w)

/-- The method `ticketService.AssignTechnician` (`assignerID` is not used by the
code). -/
def ticketService.AssignTechnician (s : ticketService σ) (ticketID techID _assignerID : UUID)
    (w : World σ) : Option Err × World σ :=
  let (found, w) := repoFindByID s ticketID w
  match found with
  | .error err => (some err, w)
  | .ok ticket =>
    let (tech, w) := userRepoFindByID s techID w
    match tech with
    | .error _ => (some "technician not found", w)
    | .ok tech =>
      if tech.Role ≠ RoleTechnician ∧ tech.Role ≠ RoleAdmin then
        (some "assigned user is not a technician", w)
      else
        let ticket := { ticket with AssignedToID := some techID }
        let ticket := { ticket with Status := StatusInProgress } -- Auto update status
        let (now, w) := timeNow w
        let ticket := { ticket with UpdatedAt := now }
        let ((err, ticket), w) := repoUpdate s ticket w
        match err with
        | some err => (some err, w)
        | none =>
          let w := notify s "ticket:updated" (Payload.ticket ticket) w
          (none, w)

/-- The method `ticketService.AddComment`; the broadcast of a comment event is
commented out in the source. -/
def ticketService.AddComment (s : ticketService σ) (ticketID userID : UUID)
    (content : String) (w : World σ) : Except Err Comment × World σ :=
  let (now, w) := timeNow w
  let comment : Comment :=
    { ID := 0, Content := content, TicketID := ticketID, UserID := userID,
      CreatedAt := now, User := none }
  let ((err, comment), w) := commentRepoCreate s comment w
  match err with
  | some err => (.error err, w)
  | none => (.ok comment, w)

/-- The method `ticketService.GetComments`. -/
def ticketService.GetComments (s : ticketService σ) (ticketID : UUID) (w : World σ) :
    Except Err (List Comment) × World σ :=
  commentRepoFindByTicketID s ticketID w

/-- The method `ticketService.GetStats`. -/
def ticketService.GetStats (s : ticketService σ) (w : World σ) :
    Except Err (List (String × Int)) × World σ :=
  repoGetStats s w

/-- One call of a method of the interface `TicketService`. -/
inductive Request where
  | Create (ticket : Ticket)
  | GetByID (id : UUID)
  | GetAll (filter : TicketFilter)
  | Update (id : UUID) (updates : Updates) (editorID : UUID)
  | Delete (id : UUID)
  | AssignTechnician (ticketID techID assignerID : UUID)
  | AddComment (ticketID userID : UUID) (content : String)
  | GetComments (ticketID : UUID)
  | GetStats

/-- The world after one call of a method of the interface `TicketService`. -/
def ticketService.call (s : ticketService σ) (req : Request) (w : World σ) : World σ :=
  match req with
  | .Create ticket => (s.Create ticket w).2
  | .GetByID id => (s.GetByID id w).2
  | .GetAll filter => (s.GetAll filter w).2
  | .Update id updates editorID => (s.Update id updates editorID w).2
  | .Delete id => (s.Delete id w).2
  | .AssignTechnician ticketID techID assignerID =>
    (s.AssignTechnician ticketID techID assignerID w).2
  | .AddComment ticketID userID content => (s.AddComment ticketID userID content w).2
  | .GetComments ticketID => (s.GetComments ticketID w).2
  | .GetStats => (s.GetStats w).2

/-! ### Observations on the trace -/

/-- The calls made between the world `w` and the later world `w'`. -/
def newCalls (w w' : World σ) : List Call :=
  w'.trace.drop w.trace.length

/-- Whether a call is a call of `Hub.Broadcast`. -/
def Call.isBroadcast : Call → Bool
  | .broadcast _ _ _ => true
  | _ => false

/-- Whether a call is a write on the ticket repository (`Create`, `Update` or
`Delete`) that returned a nil error. -/
def Call.isSuccessfulWrite : Call → Bool
  | .ticketCreate _ none => true
  | .ticketUpdate _ none => true
  | .ticketDelete _ none => true
  | _ => false

/-- The broadcasts among some calls, in order: hub, event type and payload. -/
def broadcastsOf : List Call → List (HubPtr × String × Payload)
  | [] => []
  | .broadcast hub eventType payload :: rest => (hub, eventType, payload) :: broadcastsOf rest
  | _ :: rest => broadcastsOf rest

/-- The repository calls among some calls, in order (everything but a broadcast). -/
def repoCallsOf (calls : List Call) : List Call :=
  calls.filter (fun c => !c.isBroadcast)

/-- What the caller and the repositories can tell of one run of a method from the world
`w`: the result it returned, the database and the number of clock readings afterwards,
and the repository calls it made, in order. -/
def observed {α : Type} (w : World σ) (r : α × World σ) : α × σ × Nat × List Call :=
  (r.1, r.2.db, r.2.tick, repoCallsOf (newCalls w r.2))

/-- Whether some call is a successful write on the ticket repository. -/
def wroteOK (calls : List Call) : Bool :=
  calls.any Call.isSuccessfulWrite

/-- Whether every broadcast among the calls comes after a successful repository
write; `seen` tells whether such a write has already been made. -/
def broadcastsFollowWrite (seen : Bool) : List Call → Bool
  | [] => true
  | c :: rest =>
    (!c.isBroadcast || seen) && broadcastsFollowWrite (seen || c.isSuccessfulWrite) rest

/-- The calls the statement `if s.hub != nil { s.hub.Broadcast(eventType, payload) }`
makes: one broadcast when the hub is not nil, none otherwise. -/
def notifyCalls (hub : Option HubPtr) (eventType : String) (payload : Payload) : List Call :=
  match hub with
  | some hub => [Call.broadcast hub eventType payload]
  | none => []

/-- The two shapes the calls of a mutating method can have.  `failed`: the method
returned an error after the calls `pre`, none of them a broadcast or a successful write.
`done`: after such calls `pre` came one successful write and then the notification
with `payload`. -/
inductive MutationCalls (hub : Option HubPtr) (eventType : String) :
    Option Payload → List Call → Prop where
  | failed (pre : List Call) (hb : broadcastsOf pre = []) (hw : wroteOK pre = false) :
      MutationCalls hub eventType none pre
  | done (pre : List Call) (write : Call) (payload : Payload)
      (hb : broadcastsOf pre = []) (hw : wroteOK pre = false)
      (hwrite : write.isSuccessfulWrite = true) :
      MutationCalls hub eventType (some payload)
        (pre ++ write :: notifyCalls hub eventType payload)

/-! ### A small in-memory repository, to run the service on -/

/-- An in-memory ticket table: `Create` gives the ticket the next identifier and
stores it, `FindByID` fails with gorm's "record not found" when no row matches. -/
def memTicketRepo : TicketRepository (List Ticket) where
  Create := fun t db =>
    let t := { t with ID := db.length + 1 }
    ((none, t), db ++ [t])
  FindByID := fun id db =>
    match db.find? (fun t => t.ID == id) with
    | some t => (.ok t, db)
    | none => (.error "record not found", db)
  FindAll := fun _ db => (.ok (db, db.length), db)
  Update := fun t db => ((none, t), db.map (fun u => if u.ID == t.ID then t else u))
  Delete := fun id db => (none, db.filter (fun t => t.ID != id))
  GetStats := fun db => (.ok [("total", db.length)], db)

/-- An in-memory comment repository that stores nothing. -/
def memCommentRepo : CommentRepository (List Ticket) where
  Create := fun c db => ((none, c), db)
  FindByTicketID := fun _ db => (.ok [], db)
  Delete := fun _ db => (none, db)

/-- A user with the given identifier and role. -/
def mkUser (id : UUID) (role : UserRole) : User :=
  { ID := id, Email := "", Password := "", Name := "", Role := role, Phone := "",
    Department := "", Avatar := "", Status := StatusActive, CreatedAt := 0, UpdatedAt := 0 }

/-- The rows of the fixed user table: a technician (7), an administrator (8) and a plain
user (9). -/
def memUsers : List User :=
  [mkUser 7 RoleTechnician, mkUser 8 RoleAdmin, mkUser 9 RoleUser]

/-- A user table with a technician (7), an administrator (8) and a plain user (9).  The
table is fixed: a write is accepted and stores nothing.  `FindAll` does what
`userRepository.FindAll` asks of the database: `Offset((page - 1) * limit)`, then
`Limit(limit)`, and the count of all rows. -/
def memUserRepo : UserRepository (List Ticket) where
  Create := fun u db => ((none, u), db)
  FindByID := fun id db =>
    if id = 7 then (.ok (mkUser 7 RoleTechnician), db)
    else if id = 8 then (.ok (mkUser 8 RoleAdmin), db)
    else if id = 9 then (.ok (mkUser 9 RoleUser), db)
    else (.error "record not found", db)
  FindByEmail := fun _ db => (.error "record not found", db)
  FindAll := fun page limit db =>
    (.ok ((memUsers.drop ((page - 1) * limit).toNat).take limit.toNat, memUsers.length), db)
  Update := fun u db => ((none, u), db)
  Delete := fun _ db => (none, db)

/-- A ticket as the handler builds it from a request: only these fields are set. -/
def mkTicket (title description : String) (createdBy : UUID) : Ticket :=
  { ID := 0, Title := title, Description := description, Status := "",
    Priority := PriorityLow, Category := CategoryIT, Location := "", CreatedByID := createdBy,
    AssignedToID := none, DueDate := none, ResolvedAt := none, CreatedAt := 0, UpdatedAt := 0,
    CreatedBy := none, AssignedTo := none, Comments := [], Attachments := [], Logs := [] }

/-- The in-memory service with a hub at address 1. -/
def memService : ticketService (List Ticket) :=
  NewTicketService memTicketRepo memCommentRepo memUserRepo (some ⟨1⟩)

/-- A ticket repository whose database is down: every method fails. -/
def downTicketRepo : TicketRepository (List Ticket) where
  Create := fun t db => ((some "connection refused", t), db)
  FindByID := fun _ db => (.error "connection refused", db)
  FindAll := fun _ db => (.error "connection refused", db)
  Update := fun t db => ((some "connection refused", t), db)
  Delete := fun _ db => (some "connection refused", db)
  GetStats := fun db => (.error "connection refused", db)

/-- The service over the database that is down, with a hub at address 1. -/
def downService : ticketService (List Ticket) :=
  NewTicketService downTicketRepo memCommentRepo memUserRepo (some ⟨1⟩)

/-- A world with the given tickets stored, the clock reading 100, 101, ... and no call
made yet. -/
def memWorld (db : List Ticket) : World (List Ticket) :=
  { db := db, clock := fun n => 100 + n, tick := 0, trace := [] }

/-- Whether a call is a call of `Update` on the ticket repository. -/
def Call.isTicketUpdate : Call → Bool
  | .ticketUpdate _ _ => true
  | _ => false

/-- The tickets that some calls hand to the ticket repository to be written, by
`Create` or by `Update`, in order. -/
def writtenTickets : List Call → List Ticket
  | [] => []
  | .ticketCreate t _ :: rest => t :: writtenTickets rest
  | .ticketUpdate t _ :: rest => t :: writtenTickets rest
  | _ :: rest => writtenTickets rest

/-- Whether a status is one of the five declared values of `TicketStatus`. -/
def validStatus (status : TicketStatus) : Bool :=
  status == StatusOpen || status == StatusInProgress || status == StatusPending ||
    status == StatusResolved || status == StatusClosed

/-- A stored ticket that was resolved at the time 50. -/
def resolvedLeak : Ticket :=
  { mkTicket "Leak" "Pipe leaks in room 2" 3 with
    ID := 1, Status := StatusResolved, ResolvedAt := some 50 }

/-- The in-memory service constructed with a nil hub. -/
def memServiceNoHub : ticketService (List Ticket) :=
  NewTicketService memTicketRepo memCommentRepo memUserRepo none

end service

/-! ## Go integers and strconv -/

namespace golang

/-- A value of type `int` (64 bits) from a mathematical integer: two's complement
wrap-around. -/
def wrapInt64 (x : Int) : Int :=
  (x + 2 ^ 63) % 2 ^ 64 - 2 ^ 63

/-- The operator `/` on `int`: `none` is the run-time panic "integer divide by zero";
otherwise the quotient truncated toward zero. -/
def intDiv (a b : Int) : Option Int :=
  if b = 0 then none else some (wrapInt64 (Int.tdiv a b))

/-- The digits of `strconv.ParseInt` in base 10: the value when every character is a
decimal digit, `none` at the first other character. -/
def digitsValue (acc : Nat) : List Char → Option Nat
  | [] => some acc
  | ch :: rest =>
    if ch.isDigit then digitsValue (acc * 10 + (ch.toNat - '0'.toNat)) rest else none

/-- The function `strconv.Atoi`: the value and whether the error is nil.  A syntax error
(empty text, a character that is no digit after the optional sign) gives 0, a value out
of the range of `int` gives the nearest bound, both with an error. -/
def Atoi (s : String) : Int × Bool :=
  let (neg, digits) :=
    match s.toList with
    | '-' :: rest => (true, rest)
    | '+' :: rest => (false, rest)
    | cs => (false, cs)
  if digits = [] then (0, false)
  else
    match digitsValue 0 digits with
    | none => (0, false)
    | some n =>
      if neg then
        if n > 2 ^ 63 then (-(2 ^ 63), false) else (-(n : Int), true)
      else
        if n > 2 ^ 63 - 1 then (2 ^ 63 - 1, false) else ((n : Int), true)

end golang

/-! ## internal/repository (ticket_repo.go), the pagination of FindAll -/

namespace repository

/-- The block `// Pagination` of `ticketRepository.FindAll`: the offset and the limit it
gives the query. -/
def ticketRepository.pagination (filter : TicketFilter) : Int × Int :=
  let filter := if filter.Limit ≤ 0 then { filter with Limit := 10 } else filter
  let filter := if filter.Page ≤ 0 then { filter with Page := 1 } else filter
  let offset := (filter.Page - 1) * filter.Limit
  (offset, filter.Limit)

end repository

/-! ## internal/service (user_service.go) -/

namespace service

open domain repository

/-- The struct `userService`. -/
structure userService (σ : Type) where
  userRepo : UserRepository σ

/-- The method `userService.GetAll`. -/
def userService.GetAll {σ : Type} (s : userService σ) (page limit : Int) (db : σ) :
    Except Err (List User × Int) × σ :=
  let limit := if limit ≤ 0 then 10 else limit
  let page := if page ≤ 0 then 1 else page
  s.userRepo.FindAll page limit db

/-- The page size `userService.GetAll` asks the repository for. -/
def userService.appliedLimit (limit : Int) : Int :=
  if limit ≤ 0 then 10 else limit

/-- The in-memory ticket table with the pagination of `ticketRepository.FindAll`: the
rows from the offset on, at most `limit` of them, and the count of all rows. -/
def pagedTicketRepo : TicketRepository (List Ticket) :=
  { memTicketRepo with
    FindAll := fun filter db =>
      (.ok ((db.drop (ticketRepository.pagination filter).1.toNat).take
        (ticketRepository.pagination filter).2.toNat, db.length), db) }

/-- The in-memory service over the paginating ticket table. -/
def pagedService : ticketService (List Ticket) :=
  NewTicketService pagedTicketRepo memCommentRepo memUserRepo (some ⟨1⟩)

end service

/-! ## Library functions the handlers call: uuid, path/filepath, fmt -/

namespace uuid

open domain

/-- The method `UUID.String()`.  Identifiers are opaque numbers in this embedding, so
the text form is the decimal numeral, not the 36 characters of the library. -/
def UUID.String (u : UUID) : String :=
  toString u

/-- The function `uuid.Parse`: the identifier a text denotes, `none` for the error. -/
def Parse (s : String) : Option UUID :=
  if s.toList = [] then none else golang.digitsValue 0 s.toList

end uuid

namespace filepath

/-- The loop of `filepath.Ext`, from the last character backwards: stop at a path
separator, return the suffix from the first dot met. -/
def Ext.scan : List Char → List Char → List Char
  | [], _ => []
  | ch :: before, suffix =>
    if ch = '/' then []
    else if ch = '.' then '.' :: suffix
    else Ext.scan before (ch :: suffix)

/-- The function `filepath.Ext`: the suffix beginning at the final dot in the final
element of the path, empty if there is no dot. -/
def Ext (path : String) : String :=
  String.mk (Ext.scan path.toList.reverse [])

/-- The function `filepath.Join` for a directory and a file name without separators
(the cleaning of the result is left out: the handler uses the same joined path to create
and to remove the file). -/
def Join (dir name : String) : String :=
  dir ++ "/" ++ name

end filepath

/-! ## internal/config -/

namespace config

/-- The struct `Config`, its fields under `// JWT` (the other fields are not read by the
code embedded here). -/
structure Config where
  JWTSecret : String
  JWTExpireMinutes : Int
  JWTRefreshDays : Int
  deriving DecidableEq

end config

/-! ## github.com/golang-jwt/jwt/v5, as the auth service uses it -/

namespace jwt

open service

/-- A compact token text.  `signed alg claims key` is a well-formed token whose header
names the algorithm `alg`, whose claims object is `claims` and whose signature was made
with `key`; the signature is taken to verify under that key and no other.  Anything else
is `malformed`. -/
inductive TokenString where
  | malformed (text : String)
  | signed (alg : String) (claims : List (String × GoValue)) (key : String)
  deriving DecidableEq

/-- The struct `jwt.RegisteredClaims`; a `*NumericDate` is an optional number of
seconds. -/
structure RegisteredClaims where
  Issuer : String
  Subject : String
  Audience : List String
  ExpiresAt : Option Int
  NotBefore : Option Int
  IssuedAt : Option Int
  ID : String
  deriving DecidableEq

/-- Decoding one string field of the claims object: absent or null leaves the field
empty, a string fills it, any other JSON value is a decoding error (`none`). -/
def stringClaim (claims : List (String × GoValue)) (key : String) : Option String :=
  match claims.lookup key with
  | none => some ""
  | some .nil => some ""
  | some (.string s) => some s
  | some _ => none

/-- Decoding one `NumericDate` field of the claims object: absent or null leaves it
nil, a number fills it, any other JSON value is a decoding error (`none`). -/
def dateClaim (claims : List (String × GoValue)) (key : String) : Option (Option Int) :=
  match claims.lookup key with
  | none => some none
  | some .nil => some none
  | some (.number n) => some (some n)
  | some _ => none

/-- Decoding the claims object into `RegisteredClaims`; keys the struct does not know
are ignored (`aud` is decoded in its string form). -/
def decodeRegisteredClaims (claims : List (String × GoValue)) : Option RegisteredClaims :=
  match stringClaim claims "iss", stringClaim claims "sub", stringClaim claims "aud",
    dateClaim claims "exp", dateClaim claims "nbf", dateClaim claims "iat",
    stringClaim claims "jti" with
  | some iss, some sub, some aud, some exp, some nbf, some iat, some jti =>
    some { Issuer := iss, Subject := sub, Audience := if aud = "" then [] else [aud],
           ExpiresAt := exp, NotBefore := nbf, IssuedAt := iat, ID := jti }
  | _, _, _, _, _, _, _ => none

/-- Whether the signature of a token with header algorithm `alg`, made with `signedWith`,
verifies under the `[]byte` key `key`: only an HMAC method takes such a key. -/
def verifies (alg signedWith key : String) : Bool :=
  (alg == "HS256" || alg == "HS384" || alg == "HS512") && signedWith == key

/-- The default validation of `RegisteredClaims` at the time `now`: `exp`, when
present, must lie after `now`; `nbf`, when present, must not; `iat` is not checked. -/
def validAt (claims : RegisteredClaims) (now : Int) : Bool :=
  (match claims.ExpiresAt with
    | some exp => decide (now < exp)
    | none => true) &&
  (match claims.NotBefore with
    | some nbf => decide (nbf ≤ now)
    | none => true)

/-- The function `jwt.ParseWithClaims(tokenString, &RegisteredClaims{}, keyFunc)` with
a key function that returns the `[]byte` key `key`, at the time `now`: the claims when
the error is nil and `token.Valid` holds, `none` otherwise. -/
def ParseWithClaims (tokenString : TokenString) (key : String) (now : Int) :
    Option RegisteredClaims :=
  match tokenString with
  | .malformed _ => none
  | .signed alg claims signedWith =>
    match decodeRegisteredClaims claims with
    | none => none
    | some registered =>
      if verifies alg signedWith key && validAt registered now then some registered
      else none

/-- The calls `jwt.NewWithClaims(jwt.SigningMethodHS256, claims)` and
`token.SignedString([]byte(key))`. -/
def SignedString (claims : List (String × GoValue)) (key : String) : TokenString :=
  .signed "HS256" claims key

end jwt

/-! ## internal/service (auth_service.go) -/

namespace service

open domain repository

/-- The struct `authService`. -/
structure authService (σ : Type) where
  userRepo : UserRepository σ
  cfg : config.Config

/-- The constructor `NewAuthService`. -/
def NewAuthService {σ : Type} (userRepo : UserRepository σ) (cfg : config.Config) :
    authService σ :=
  { userRepo := userRepo, cfg := cfg }

/-- The error value `ErrUserNotFound`. -/
def ErrUserNotFound : Err := "user not found"

/-- The method `authService.generateAccessToken`: a `jwt.MapClaims` with `sub`,
`email`, `role`, `exp` and `iat`, signed with the secret (times in seconds). -/
def authService.generateAccessToken {σ : Type} (s : authService σ) (user : User)
    (w : World σ) : Except Err jwt.TokenString × World σ :=
  let (now, w) := timeNow w
  let exp : Int := now + s.cfg.JWTExpireMinutes * 60
  let (now, w) := timeNow w
  let iat : Int := now
  let claims : List (String × GoValue) :=
    [("sub", .string (uuid.UUID.String user.ID)), ("email", .string user.Email),
     ("role", .string user.Role), ("exp", .number exp), ("iat", .number iat)]
  (.ok (jwt.SignedString claims s.cfg.JWTSecret), w)

/-- The method `authService.generateRefreshToken`: a `jwt.RegisteredClaims` with
`Subject`, `ExpiresAt` and `IssuedAt`, signed with the same secret (a day is taken as
86400 seconds). -/
def authService.generateRefreshToken {σ : Type} (s : authService σ) (user : User)
    (w : World σ) : Except Err jwt.TokenString × World σ :=
  let (now, w) := timeNow w
  let exp : Int := now + s.cfg.JWTRefreshDays * 86400
  let (now, w) := timeNow w
  let iat : Int := now
  let claims : List (String × GoValue) :=
    [("sub", .string (uuid.UUID.String user.ID)), ("exp", .number exp), ("iat", .number iat)]
  (.ok (jwt.SignedString claims s.cfg.JWTSecret), w)

/-- The method `authService.RefreshToken`. -/
def authService.RefreshToken {σ : Type} (s : authService σ) (refreshToken : jwt.TokenString)
    (w : World σ) : Except Err jwt.TokenString × World σ :=
  let (now, w) := timeNow w
  match jwt.ParseWithClaims refreshToken s.cfg.JWTSecret now with
  | none => (.error "invalid refresh token", w)
  | some claims =>
    match uuid.Parse claims.Subject with
    | none => (.error "invalid UUID", w)
    | some userID =>
      let (found, db) := s.userRepo.FindByID userID w.db
      let w := { w with db := db }
      match found with
      | .error _ => (.error ErrUserNotFound, w)
      | .ok user => s.generateAccessToken user w

/-- The auth service over the fixed user table, with the secret "s3cret", access tokens
of 15 minutes and refresh tokens of 7 days. -/
def memAuthService : authService (List Ticket) :=
  NewAuthService memUserRepo { JWTSecret := "s3cret", JWTExpireMinutes := 15, JWTRefreshDays := 7 }

end service

/-! ## golang.org/x/crypto/bcrypt, as the auth service uses it -/

namespace bcrypt

open repository

/-- The constant `bcrypt.DefaultCost`. -/
def DefaultCost : Int := 10

/-- The error value `bcrypt.ErrPasswordTooLong`. -/
def ErrPasswordTooLong : Err := "bcrypt: password length exceeds 72 bytes"

/-- The error value `bcrypt.ErrMismatchedHashAndPassword`. -/
def ErrMismatchedHashAndPassword : Err :=
  "crypto/bcrypt: hashedPassword is not the hash of the given password"

/-- The two functions of the package that the auth service calls; the cipher is not
part of this repository, so the service is run over any behaviour of them.
`GenerateFromPassword password cost` is the hash or the error of one call (the salt it
draws is part of the behaviour); `CompareHashAndPassword hashedPassword password` is the
error, `none` for nil. -/
structure Package where
  GenerateFromPassword : String → Int → Except Err String
  CompareHashAndPassword : String → String → Option Err

end bcrypt

/-! ## internal/service (auth_service.go): Register and Login -/

namespace service

open domain repository

/-- The error value `ErrInvalidCredentials`. -/
def ErrInvalidCredentials : Err := "invalid email or password"

/-- The error value `ErrUserExists`. -/
def ErrUserExists : Err := "user already exists"

/-- The method `authService.Register` over the package `crypt`: `.error e` is the Go
result `nil, e`.  The fields the struct literal does not name have their zero value. -/
def authService.Register {σ : Type} (s : authService σ) (crypt : bcrypt.Package)
    (name email password : String) (w : World σ) : Except Err User × World σ :=
  -- Check if user exists
  let (existingUser, db) := s.userRepo.FindByEmail email w.db
  let w := { w with db := db }
  match existingUser with
  | .ok _ => (.error ErrUserExists, w)
  | .error _ =>
    -- Hash password
    match crypt.GenerateFromPassword password bcrypt.DefaultCost with
    | .error err => (.error err, w)
    | .ok hashedPassword =>
      let user : User :=
        { ID := 0, Email := email, Password := hashedPassword, Name := name, Role := RoleUser,
          Phone := "", Department := "", Avatar := "", Status := StatusActive,
          CreatedAt := 0, UpdatedAt := 0 }
      let ((err, user), db) := s.userRepo.Create user w.db
      let w := { w with db := db }
      match err with
      | some err => (.error err, w)
      | none => (.ok user, w)

/-- The method `authService.Login` over the package `crypt`: `.error e` is the Go result
`nil, "", "", e`, and `.ok (user, accessToken, refreshToken)` the result with a nil
error. -/
def authService.Login {σ : Type} (s : authService σ) (crypt : bcrypt.Package)
    (email password : String) (w : World σ) :
    Except Err (User × jwt.TokenString × jwt.TokenString) × World σ :=
  let (found, db) := s.userRepo.FindByEmail email w.db
  let w := { w with db := db }
  match found with
  | .error _ => (.error ErrInvalidCredentials, w)
  | .ok user =>
    match crypt.CompareHashAndPassword user.Password password with
    | some _ => (.error ErrInvalidCredentials, w)
    | none =>
      -- Generate tokens
      let (accessToken, w) := s.generateAccessToken user w
      match accessToken with
      | .error err => (.error err, w)
      | .ok accessToken =>
        let (refreshToken, w) := s.generateRefreshToken user w
        match refreshToken with
        | .error err => (.error err, w)
        | .ok refreshToken => (.ok (user, accessToken, refreshToken), w)

/-- One call on a `UserRepository`, with its arguments. -/
inductive UserCall where
  | Create (user : User)
  | FindByID (id : UUID)
  | FindByEmail (email : String)
  | FindAll (page limit : Int)
  | Update (user : User)
  | Delete (id : UUID)
  deriving DecidableEq

/-- A user repository that behaves as `repo` does and keeps, next to the database, the
list of the calls made on it, oldest first. -/
def recorded {σ : Type} (repo : UserRepository σ) : UserRepository (σ × List UserCall) where
  Create := fun user st =>
    ((repo.Create user st.1).1, ((repo.Create user st.1).2, st.2 ++ [.Create user]))
  FindByID := fun id st =>
    ((repo.FindByID id st.1).1, ((repo.FindByID id st.1).2, st.2 ++ [.FindByID id]))
  FindByEmail := fun email st =>
    ((repo.FindByEmail email st.1).1,
      ((repo.FindByEmail email st.1).2, st.2 ++ [.FindByEmail email]))
  FindAll := fun page limit st =>
    ((repo.FindAll page limit st.1).1,
      ((repo.FindAll page limit st.1).2, st.2 ++ [.FindAll page limit]))
  Update := fun user st =>
    ((repo.Update user st.1).1, ((repo.Update user st.1).2, st.2 ++ [.Update user]))
  Delete := fun id st =>
    ((repo.Delete id st.1).1, ((repo.Delete id st.1).2, st.2 ++ [.Delete id]))

/-- The auth service `s` with its repository recorded. -/
def authService.recorded {σ : Type} (s : authService σ) : authService (σ × List UserCall) :=
  { userRepo := service.recorded s.userRepo, cfg := s.cfg }

/-- The world `w` for a recorded repository, no call made yet. -/
def World.recording {σ : Type} (w : World σ) : World (σ × List UserCall) :=
  { db := (w.db, []), clock := w.clock, tick := w.tick, trace := w.trace }

/-- A stand-in for bcrypt to run the service on, with no cipher: it refuses a password
of more than 72 bytes, as `GenerateFromPassword` does, and its hash of a password is
the version and cost marker followed by the password reversed. -/
def memBcrypt : bcrypt.Package where
  GenerateFromPassword := fun password _ =>
    if password.utf8ByteSize > 72 then .error bcrypt.ErrPasswordTooLong
    else .ok ("$2a$10$" ++ String.mk password.toList.reverse)
  CompareHashAndPassword := fun hashedPassword password =>
    if hashedPassword = "$2a$10$" ++ String.mk password.toList.reverse then none
    else some bcrypt.ErrMismatchedHashAndPassword

/-- A user table with one account, `ann@example.com`, whose stored password is the
`memBcrypt` hash of "secret1".  `Create` gives the new row the id 2 and accepts it. -/
def annRepo : UserRepository (List User) where
  Create := fun u db => ((none, { u with ID := 2 }), db ++ [{ u with ID := 2 }])
  FindByID := fun id db =>
    match db.find? (fun u => u.ID == id) with
    | some u => (.ok u, db)
    | none => (.error "record not found", db)
  FindByEmail := fun email db =>
    match db.find? (fun u => u.Email == email) with
    | some u => (.ok u, db)
    | none => (.error "record not found", db)
  FindAll := fun _ _ db => (.ok (db, db.length), db)
  Update := fun u db => ((none, u), db.map (fun v => if v.ID == u.ID then u else v))
  Delete := fun id db => (none, db.filter (fun u => u.ID != id))

/-- The one stored account of `annRepo`. -/
def ann : User :=
  { mkUser 1 RoleTechnician with
    Email := "ann@example.com", Name := "Ann", Password := "$2a$10$1terces" }

/-- The auth service over `annRepo`. -/
def annService : authService (List User) :=
  NewAuthService annRepo { JWTSecret := "s3cret", JWTExpireMinutes := 15, JWTRefreshDays := 7 }

/-- A world over the user table `db`, with the clock at 100. -/
def annWorld (db : List User) : World (List User) :=
  { db := db, clock := fun n => 100 + n, tick := 0, trace := [] }

/-- The table of `annRepo` behind a connection that fails on reads: `FindByEmail` and
`FindByID` return the error of the connection whatever the table holds, and `Create`
reaches the table, whose unique index on the email refuses a second row with an email
it holds. -/
def flakyRepo : UserRepository (List User) :=
  { annRepo with
    FindByID := fun _ db => (.error "read tcp: i/o timeout", db)
    FindByEmail := fun _ db => (.error "read tcp: i/o timeout", db)
    Create := fun u db =>
      if db.any (fun v => v.Email == u.Email) then
        ((some "duplicate key value violates unique constraint", u), db)
      else ((none, { u with ID := 2 }), db ++ [{ u with ID := 2 }]) }

/-- The auth service over `flakyRepo`. -/
def flakyService : authService (List User) :=
  NewAuthService flakyRepo { JWTSecret := "s3cret", JWTExpireMinutes := 15, JWTRefreshDays := 7 }

end service

/-! ## encoding/json: what `json.Marshal` makes of the records of internal/domain -/

namespace json

/-- A JSON text, by its structure; the members of an object are in the order in which
they are written. -/
inductive Value where
  | null
  | bool (b : Bool)
  | number (n : Int)
  | string (s : String)
  | array (items : List Value)
  | object (members : List (String × Value))

/-- A field of type `string` (or of a named string type) tagged `omitempty`: left out
when empty. -/
def omitemptyString (key value : String) : List (String × Value) :=
  if value = "" then [] else [(key, .string value)]

/-- A pointer field tagged `omitempty`: left out when nil. -/
def omitemptyPointer {α : Type} (key : String) (encode : α → Value) :
    Option α → List (String × Value)
  | none => []
  | some a => [(key, encode a)]

/-- A slice field tagged `omitempty`: left out when it has no element. -/
def omitemptySlice {α : Type} (key : String) (encode : α → Value) (items : List α) :
    List (String × Value) :=
  if items.isEmpty then [] else [(key, .array (items.map encode))]

/-- A `uuid.UUID` is encoded as the string of its text. -/
def ofUUID (id : domain.UUID) : Value :=
  .string (uuid.UUID.String id)

/-- A `time.Time` is encoded as the string of its text (an instant being a number here,
the text is that of the number). -/
def ofTime (t : domain.Time) : Value :=
  .string (toString t)

end json

namespace domain

open json

/-- The encoding of a `User` by its `json` tags, field by field in the order of the
struct: `Password`, `CreatedTickets` and `AssignedTickets` are tagged `json:"-"` and
are not written. -/
def User.MarshalJSON (u : User) : Value :=
  .object
    ([("id", json.ofUUID u.ID), ("email", .string u.Email), ("name", .string u.Name),
      ("role", .string u.Role)] ++
      omitemptyString "phone" u.Phone ++
      omitemptyString "department" u.Department ++
      omitemptyString "avatar" u.Avatar ++
      [("status", .string u.Status), ("createdAt", json.ofTime u.CreatedAt),
       ("updatedAt", json.ofTime u.UpdatedAt)])

/-- The encoding of a `Comment` by its `json` tags. -/
def Comment.MarshalJSON (c : Comment) : Value :=
  .object
    ([("id", json.ofUUID c.ID), ("content", .string c.Content),
      ("ticketId", json.ofUUID c.TicketID), ("userId", json.ofUUID c.UserID),
      ("createdAt", json.ofTime c.CreatedAt)] ++
      omitemptyPointer "user" User.MarshalJSON c.User)

/-- The encoding of a `TicketLog` by its `json` tags. -/
def TicketLog.MarshalJSON (l : TicketLog) : Value :=
  .object
    ([("id", json.ofUUID l.ID), ("ticketId", json.ofUUID l.TicketID),
      ("action", .string l.Action)] ++
      omitemptyString "oldValue" l.OldValue ++
      omitemptyString "newValue" l.NewValue ++
      [("userId", json.ofUUID l.UserID), ("createdAt", json.ofTime l.CreatedAt)] ++
      omitemptyPointer "user" User.MarshalJSON l.User)

/-- The encoding of an `Attachment` by its `json` tags. -/
def Attachment.MarshalJSON (a : Attachment) : Value :=
  .object
    [("id", json.ofUUID a.ID), ("filename", .string a.Filename), ("url", .string a.URL),
     ("type", .string a.Type_), ("size", .number a.Size),
     ("ticketId", json.ofUUID a.TicketID), ("createdAt", json.ofTime a.CreatedAt)]

/-- The encoding of a `Ticket` by its `json` tags. -/
def Ticket.MarshalJSON (t : Ticket) : Value :=
  .object
    ([("id", json.ofUUID t.ID), ("title", .string t.Title),
      ("description", .string t.Description), ("status", .string t.Status),
      ("priority", .string t.Priority), ("category", .string t.Category)] ++
      omitemptyString "location" t.Location ++
      [("createdById", json.ofUUID t.CreatedByID)] ++
      omitemptyPointer "assignedToId" json.ofUUID t.AssignedToID ++
      omitemptyPointer "dueDate" json.ofTime t.DueDate ++
      omitemptyPointer "resolvedAt" json.ofTime t.ResolvedAt ++
      [("createdAt", json.ofTime t.CreatedAt), ("updatedAt", json.ofTime t.UpdatedAt)] ++
      omitemptyPointer "createdBy" User.MarshalJSON t.CreatedBy ++
      omitemptyPointer "assignedTo" User.MarshalJSON t.AssignedTo ++
      omitemptySlice "comments" Comment.MarshalJSON t.Comments ++
      omitemptySlice "attachments" Attachment.MarshalJSON t.Attachments ++
      omitemptySlice "logs" TicketLog.MarshalJSON t.Logs)

/-- The user `u` with the password `password u` in place of its own. -/
def User.withPassword (password : User → String) (u : User) : User :=
  { u with Password := password u }

/-- The ticket `t` with `User.withPassword password` applied to every user loaded into
it: `CreatedBy`, `AssignedTo`, and the `User` of each comment and of each log entry. -/
def Ticket.withPasswords (password : User → String) (t : Ticket) : Ticket :=
  { t with
    CreatedBy := t.CreatedBy.map (User.withPassword password)
    AssignedTo := t.AssignedTo.map (User.withPassword password)
    Comments := t.Comments.map
      (fun c => { c with User := c.User.map (User.withPassword password) })
    Logs := t.Logs.map
      (fun l => { l with User := l.User.map (User.withPassword password) }) }

end domain

namespace service

open domain

/-- The encoding of the second argument of `Broadcast`: a `*domain.Ticket` as the
ticket, a `uuid.UUID` as its text. -/
def Payload.MarshalJSON : Payload → json.Value
  | .ticket t => Ticket.MarshalJSON t
  | .id u => json.ofUUID u

end service

/-! ## gin (the parts of `gin.Context` and of the engine the middleware uses) -/

namespace gin

open service

/-- The type `gin.Context`, as far as the embedded code uses it: the keys set with
`c.Set`, the position in the handler chain (`index` handlers have been started), whether
the chain was aborted, the status and JSON body written, whether a Go panic unwound the
handler, and the names of the route handlers that ran. -/
structure Context where
  Keys : List (String × GoValue)
  index : Nat
  aborted : Bool
  status : Option Nat
  body : List (String × String)
  panicked : Bool
  reached : List String
  deriving DecidableEq

/-- The method `c.Get(key)`: the value and `exists` (`none` when the key is not set). -/
def Context.Get (c : Context) (key : String) : Option GoValue :=
  c.Keys.lookup key

/-- The method `c.Abort()`. -/
def Context.Abort (c : Context) : Context :=
  { c with aborted := true }

/-- The method `c.JSON(code, obj)` for a `gin.H` with string values. -/
def Context.JSON (c : Context) (code : Nat) (obj : List (String × String)) : Context :=
  { c with status := some code, body := obj }

/-- The method `c.AbortWithStatusJSON(code, obj)`: `Abort` then `JSON`. -/
def Context.AbortWithStatusJSON (c : Context) (code : Nat) (obj : List (String × String)) :
    Context :=
  (c.Abort).JSON code obj

/-- The method `c.IsAborted()`. -/
def Context.IsAborted (c : Context) : Bool :=
  c.aborted

/-- A Go runtime panic in a handler (a failed type assertion): the handler stops there
and no later handler of the chain runs. -/
def Context.panic (c : Context) : Context :=
  { c with panicked := true }

/-- The type `gin.HandlerFunc`; the first argument is what `c.Next()` does when the
handler calls it. -/
abbrev HandlerFunc := (Context → Context) → Context → Context

/-- The method `c.Next()` and the loop of the engine: the handlers of the chain from
position `i` on are run in order; one is skipped when the chain was aborted, when a
panic unwound it, or when a nested `c.Next()` has already started it. -/
def Next : List HandlerFunc → Nat → Context → Context
  | [], _, c => c
  | h :: rest, i, c =>
    if c.aborted || c.panicked || decide (i < c.index) then Next rest (i + 1) c
    else Next rest (i + 1) (h (Next rest (i + 1)) { c with index := i + 1 })

/-- A request context before any handler has run. -/
def Context.new (keys : List (String × GoValue)) : Context :=
  { Keys := keys, index := 0, aborted := false, status := none, body := [],
    panicked := false, reached := [] }

/-- Whether the handler `h`, run on `c`, lets the request through to the next handler
of the chain: the next handler is one that records that it ran. -/
def admits (h : HandlerFunc) (c : Context) : Bool :=
  (h (fun c => { c with reached := c.reached ++ ["next"] }) c).reached ==
    c.reached ++ ["next"]

end gin

/-! ## net/http status codes -/

namespace http

def StatusUnauthorized : Nat := 401
def StatusForbidden : Nat := 403
def StatusInternalServerError : Nat := 500
def StatusBadRequest : Nat := 400
def StatusOK : Nat := 200
def StatusCreated : Nat := 201
def StatusConflict : Nat := 409

end http

/-! ## internal/middleware (rbac.go) -/

namespace middleware

open domain service gin

/-- The loop `for _, r := range roles { if role == r { c.Next(); return } }` of
`RequireRole`, and the `AbortWithStatusJSON` that follows it when no role matched. -/
def RequireRole.range (role : UserRole) (next : Context → Context) (c : Context) :
    List UserRole → Context
  | [] => c.AbortWithStatusJSON http.StatusForbidden [("error", "Insufficient permissions")]
  | r :: rest => if role = r then next c else RequireRole.range role next c rest

/-- The middleware `RequireRole(roles...)`.  The type assertion `userRole.(string)` has
no `ok` result: it panics on a value that is not a string. -/
def RequireRole (roles : List UserRole) : HandlerFunc := fun next c =>
  match c.Get "userRole" with
  | none => c.AbortWithStatusJSON http.StatusUnauthorized [("error", "Unauthorized")]
  | some userRole =>
    match userRole with
    | .string role => RequireRole.range role next c roles
    | _ => c.panic

/-- The middleware `RequireAdmin()`. -/
def RequireAdmin : HandlerFunc :=
  RequireRole [RoleAdmin]

/-- The middleware `RequireTechnician()`. -/
def RequireTechnician : HandlerFunc :=
  RequireRole [RoleTechnician, RoleAdmin]

end middleware

/-! ## cmd/api (main.go): the route table -/

namespace gin

/-- The function `joinPaths` of gin on the paths `main` gives it: an empty relative path
keeps the base path; otherwise `path.Join`, which for a relative path that starts with
a slash and a base path that is the root or has no trailing slash is the concatenation
(the root alone is dropped). -/
def joinPaths (absolutePath relativePath : String) : String :=
  if relativePath = "" then absolutePath
  else if absolutePath = "/" then relativePath
  else absolutePath ++ relativePath

/-- The type `gin.RouterGroup` over handlers of type `η`: the base path and the
middleware every route registered on the group gets in front of its own handlers. -/
structure RouterGroup (η : Type) where
  basePath : String
  Handlers : List η

/-- One entry of the route table: method, full path and the handler chain, in the order
the engine runs it. -/
structure RouteInfo (η : Type) where
  Method : String
  Path : String
  Handlers : List η
  deriving DecidableEq

/-- The function `gin.Default()`: the root group with the `Logger` and `Recovery`
middleware attached. -/
def Default {η : Type} (logger recovery : η) : RouterGroup η :=
  { basePath := "/", Handlers := [logger, recovery] }

/-- The method `group.Use(middleware...)`: the group with the middleware appended. -/
def RouterGroup.Use {η : Type} (group : RouterGroup η) (middleware : List η) :
    RouterGroup η :=
  { group with Handlers := group.Handlers ++ middleware }

/-- The method `group.Group(relativePath)`: a new group that starts with a copy of the
handlers the parent has at this point. -/
def RouterGroup.Group {η : Type} (group : RouterGroup η) (relativePath : String) :
    RouterGroup η :=
  { basePath := joinPaths group.basePath relativePath, Handlers := group.Handlers }

/-- The method `group.handle(httpMethod, relativePath, handlers)` behind `GET`, `POST`,
`PATCH` and `DELETE`: the route with the handlers of the group in front of its own. -/
def RouterGroup.handle {η : Type} (group : RouterGroup η) (httpMethod relativePath : String)
    (handlers : List η) : RouteInfo η :=
  { Method := httpMethod, Path := joinPaths group.basePath relativePath,
    Handlers := group.Handlers ++ handlers }

end gin

namespace main

open domain service gin

/-- The handlers `main` puts into the route table, by name.  `Logger` and `Recovery`
come with `gin.Default()`; `CORSMiddleware(cfg)` and `AuthMiddleware(cfg)` are functions
of the middleware package whose files are not among the sources; an `endpoint` is a
method value of a handler struct or one of the two closures of `main`. -/
inductive Handler where
  | Logger
  | Recovery
  | CORSMiddleware
  | AuthMiddleware
  | RequireAdmin
  | RequireTechnician
  | endpoint (name : String)
  deriving DecidableEq

/-- The route table `main` builds, in the order of registration (`r.Static` registers
the `GET` and the `HEAD` route of the file server; the group `protected` of the source
is `protectedGroup` here, the name being reserved). -/
def routes : List (RouteInfo Handler) :=
  -- Setup Gin router
  let r := Default Handler.Logger Handler.Recovery
  -- Middleware
  let r := r.Use [.CORSMiddleware]
  -- API v1
  let api := r.Group "/api/v1"
  -- Auth routes (public)
  let auth := api.Group "/auth"
  -- Protected routes
  let protectedGroup := api.Group ""
  let protectedGroup := protectedGroup.Use [.AuthMiddleware]
  -- Ticket routes
  let tickets := protectedGroup.Group "/tickets"
  -- User routes (Admin only)
  let users := protectedGroup.Group "/users"
  let users := users.Use [.RequireAdmin]
  [ r.handle "GET" "/ws" [.endpoint "websocket.ServeWs"],
    r.handle "GET" "/health" [.endpoint "health"],
    r.handle "GET" "/uploads/*filepath" [.endpoint "static"],
    r.handle "HEAD" "/uploads/*filepath" [.endpoint "static"],
    auth.handle "POST" "/register" [.endpoint "authHandler.Register"],
    auth.handle "POST" "/login" [.endpoint "authHandler.Login"],
    auth.handle "POST" "/refresh" [.endpoint "authHandler.RefreshToken"],
    auth.handle "POST" "/logout" [.endpoint "authHandler.Logout"],
    auth.handle "GET" "/me" [.AuthMiddleware, .endpoint "authHandler.GetMe"],
    auth.handle "POST" "/change-password"
      [.AuthMiddleware, .endpoint "authHandler.ChangePassword"],
    auth.handle "DELETE" "/delete-account"
      [.AuthMiddleware, .endpoint "authHandler.DeleteAccount"],
    auth.handle "PATCH" "/profile" [.AuthMiddleware, .endpoint "authHandler.UpdateProfile"],
    tickets.handle "POST" "" [.endpoint "ticketHandler.Create"],
    tickets.handle "GET" "" [.endpoint "ticketHandler.GetAll"],
    tickets.handle "GET" "/stats" [.endpoint "ticketHandler.GetStats"],
    tickets.handle "GET" "/:id" [.endpoint "ticketHandler.GetByID"],
    tickets.handle "PATCH" "/:id" [.endpoint "ticketHandler.Update"],
    tickets.handle "DELETE" "/:id" [.endpoint "ticketHandler.Delete"],
    tickets.handle "POST" "/:id/assign" [.RequireTechnician, .endpoint "ticketHandler.Assign"],
    tickets.handle "POST" "/:id/comments" [.endpoint "ticketHandler.AddComment"],
    tickets.handle "GET" "/:id/comments" [.endpoint "ticketHandler.GetComments"],
    tickets.handle "GET" "/:id/logs" [.endpoint "ticketHandler.GetLogs"],
    tickets.handle "POST" "/:id/attachments" [.endpoint "attachmentHandler.Upload"],
    tickets.handle "GET" "/:id/attachments" [.endpoint "attachmentHandler.GetByTicketID"],
    tickets.handle "DELETE" "/:id/attachments/:attachmentId"
      [.endpoint "attachmentHandler.Delete"],
    users.handle "GET" "" [.endpoint "userHandler.GetAll"],
    users.handle "GET" "/:id" [.endpoint "userHandler.GetByID"],
    users.handle "PATCH" "/:id" [.endpoint "userHandler.Update"],
    users.handle "PATCH" "/:id/role" [.endpoint "userHandler.UpdateRole"],
    users.handle "DELETE" "/:id" [.endpoint "userHandler.Delete"] ]

/-- What a handler of the table does when the engine runs it.  `RequireAdmin` and
`RequireTechnician` are the middleware of rbac.go; an endpoint is recorded as reached;
the behaviour of the four handlers whose code is not among the sources is the parameter
`ext`. -/
def Handler.func (ext : Handler → HandlerFunc) : Handler → HandlerFunc
  | .RequireAdmin => middleware.RequireAdmin
  | .RequireTechnician => middleware.RequireTechnician
  | .endpoint name => fun _ c => { c with reached := c.reached ++ [name] }
  | h => ext h

/-- The engine serving a request on a handler chain: `c.Next()` from the first
handler. -/
def serve (ext : Handler → HandlerFunc) (chain : List Handler) (c : Context) : Context :=
  Next (chain.map (Handler.func ext)) 0 { c with index := 0 }

/-- Whether the path of a route lies under the path `base`. -/
def under (base : String) (route : RouteInfo Handler) : Bool :=
  base.toList.isPrefixOf route.Path.toList

/-- Whether the handler `h` stands in the chain ahead of its last handler, the
endpoint. -/
def ahead (h : Handler) (chain : List Handler) : Bool :=
  chain.dropLast.contains h

/-- The part of a chain that comes after `AuthMiddleware`. -/
def afterAuth (chain : List Handler) : List Handler :=
  (chain.dropWhile (fun h => h != Handler.AuthMiddleware)).drop 1

/-- A middleware that only calls `c.Next()`. -/
def passOn : HandlerFunc :=
  fun next c => next c

/-- Whether the endpoint of a route is a method of `userHandler` or is
`ticketHandler.Assign`. -/
def gated (route : RouteInfo Handler) : Bool :=
  match route.Handlers.getLast? with
  | some (.endpoint name) =>
    "userHandler.".toList.isPrefixOf name.toList || name == "ticketHandler.Assign"
  | _ => false

/-- The route GET /api/v1/users as `main` registers it. -/
def usersGetAll : RouteInfo Handler :=
  { Method := "GET", Path := "/api/v1/users",
    Handlers := [.Logger, .Recovery, .CORSMiddleware, .AuthMiddleware, .RequireAdmin,
      .endpoint "userHandler.GetAll"] }

/-- The route GET /ws as `main` registers it. -/
def wsRoute : RouteInfo Handler :=
  { Method := "GET", Path := "/ws",
    Handlers := [.Logger, .Recovery, .CORSMiddleware, .endpoint "websocket.ServeWs"] }

/-- The endpoints a request reaches on a route when `AuthMiddleware` has handed on the
context `c`: those recorded by the part of the chain that follows it. -/
def reachedAfterAuth (ext : Handler → HandlerFunc) (route : RouteInfo Handler)
    (c : Context) : List String :=
  (serve ext (afterAuth route.Handlers) c).reached

end main

/-! ## internal/handler (ticket_handler.go) -/

namespace handler

open domain repository service

/-- The struct `UpdateTicketRequest`, as `ShouldBindJSON` fills it: a field the body
does not give is the empty string (the struct has no `binding` tag, so nothing is
validated). -/
structure UpdateTicketRequest where
  Title : String
  Description : String
  Status : String
  Priority : String
  deriving DecidableEq

/-- The block of `TicketHandler.Update` that builds the `updates` map from the bound
request: a key is set exactly when its field is not empty. -/
def TicketHandler.updatesOf (req : UpdateTicketRequest) : Updates :=
  let updates : Updates := []
  let updates := if req.Title ≠ "" then updates ++ [("title", GoValue.string req.Title)]
    else updates
  let updates :=
    if req.Description ≠ "" then updates ++ [("description", GoValue.string req.Description)]
    else updates
  let updates := if req.Status ≠ "" then updates ++ [("status", GoValue.string req.Status)]
    else updates
  let updates :=
    if req.Priority ≠ "" then updates ++ [("priority", GoValue.string req.Priority)]
    else updates
  updates

/-- The query string of a request: `c.Query` and `c.DefaultQuery` look at the first
value of a key. -/
abbrev QueryValues := List (String × String)

/-- The method `c.DefaultQuery(key, defaultValue)`. -/
def DefaultQuery (q : QueryValues) (key defaultValue : String) : String :=
  match q.lookup key with
  | some value => value
  | none => defaultValue

/-- The method `c.Query(key)`. -/
def Query (q : QueryValues) (key : String) : String :=
  match q.lookup key with
  | some value => value
  | none => ""

/-- What `TicketHandler.GetAll` and `UserHandler.GetAll` answer: an error response, the
page with its `meta` object, or no response because the handler panicked. -/
inductive ListResponse (α : Type) where
  | error (status : Nat) (message : String)
  | ok (status : Nat) (data : List α) (total page limit totalPages : Int)
  | panic (message : String)

/-- The method `TicketHandler.GetAll` on the service `h.ticketService`. -/
def TicketHandler.GetAll {σ : Type} (ticketService : ticketService σ) (q : QueryValues)
    (w : World σ) : ListResponse Ticket × World σ :=
  let page := (golang.Atoi (DefaultQuery q "page" "1")).1
  let limit := (golang.Atoi (DefaultQuery q "limit" "10")).1
  let filter : TicketFilter :=
    { Status := Query q "status", Priority := Query q "priority",
      Category := Query q "category", AssignedToID := none, CreatedByID := none,
      Search := Query q "search", Page := page, Limit := limit }
  let (res, w) := ticketService.GetAll filter w
  match res with
  | .error _ => (.error http.StatusInternalServerError "Failed to fetch tickets", w)
  | .ok (tickets, total) =>
    match golang.intDiv (golang.wrapInt64 (golang.wrapInt64 (total + limit) - 1)) limit with
    | none => (.panic "runtime error: integer divide by zero", w)
    | some totalPages => (.ok http.StatusOK tickets total page limit totalPages, w)

/-- The method `UserHandler.GetAll` on the service `h.userService`. -/
def UserHandler.GetAll {σ : Type} (userService : userService σ) (q : QueryValues)
    (db : σ) : ListResponse User × σ :=
  let page := (golang.Atoi (DefaultQuery q "page" "1")).1
  let limit := (golang.Atoi (DefaultQuery q "limit" "10")).1
  let (res, db) := userService.GetAll page limit db
  match res with
  | .error _ => (.error http.StatusInternalServerError "Failed to fetch users", db)
  | .ok (users, total) =>
    match golang.intDiv (golang.wrapInt64 (golang.wrapInt64 (total + limit) - 1)) limit with
    | none => (.panic "runtime error: integer divide by zero", db)
    | some totalPages => (.ok http.StatusOK users total page limit totalPages, db)

/-- The `limit` and `totalPages` of a response, when it has them. -/
def ListResponse.meta {α : Type} : ListResponse α → Option (Int × Int)
  | .ok _ _ _ _ limit totalPages => some (limit, totalPages)
  | _ => none

/-- Whether the handler panicked instead of answering. -/
def ListResponse.panicked {α : Type} : ListResponse α → Bool
  | .panic _ => true
  | _ => false

/-- A world with three tickets stored. -/
def threeTickets : World (List Ticket) :=
  memWorld [{ mkTicket "Leak" "Pipe leaks in room 2" 3 with ID := 1 },
    { mkTicket "Light" "Lamp flickers in the hall" 3 with ID := 2 },
    { mkTicket "Door" "Door lock is stuck again" 4 with ID := 3 }]

/-- The filter `TicketHandler.GetAll` builds from a query that only gives `limit`. -/
def limitFilter (limit : Int) : TicketFilter :=
  { Status := "", Priority := "", Category := "", AssignedToID := none, CreatedByID := none,
    Search := "", Page := 1, Limit := limit }

/-! ### attachment_handler.go -/

/-- The struct `multipart.FileHeader` of the uploaded part, as far as `Upload` reads it:
`Type` is what `header.Header.Get("Content-Type")` gives. -/
structure FileHeader where
  Filename : String
  ContentType : String
  Size : Int
  deriving DecidableEq

/-- The request `Upload` serves: the path parameter `:id` and the form file "file"
(header and content), `none` when the form has no such file. -/
structure UploadRequest where
  id : String
  file : Option (FileHeader × String)

/-- What `Upload` answers: an error status with its message, or 201 with the record. -/
inductive UploadResponse where
  | error (status : Nat) (message : String)
  | created (status : Nat) (data : Attachment)
  deriving DecidableEq

/-- What `Upload` runs in: the database behind the attachment repository, the files on
disk by path, the clock and the source of fresh identifiers (as in `World`), and what
the operating system will answer to `os.Create`, to `io.Copy` and to `os.Remove`
(`none`: no error). -/
structure UploadWorld (σ : Type) where
  db : σ
  disk : List (String × String)
  clock : Nat → Time
  tick : Nat
  uuids : Nat → UUID
  drawn : Nat
  createErr : Option Err
  copyErr : Option Err
  removeErr : Option Err

/-- The call `uuid.New()`. -/
def uuidNew {σ : Type} (w : UploadWorld σ) : UUID × UploadWorld σ :=
  (w.uuids w.drawn, { w with drawn := w.drawn + 1 })

/-- The call `time.Now()` in an upload world. -/
def uploadNow {σ : Type} (w : UploadWorld σ) : Time × UploadWorld σ :=
  (w.clock w.tick, { w with tick := w.tick + 1 })

/-- The call `os.Create(filePath)`: on success the file exists and is empty. -/
def osCreate {σ : Type} (filePath : String) (w : UploadWorld σ) :
    Option Err × UploadWorld σ :=
  match w.createErr with
  | some err => (some err, w)
  | none => (none, { w with disk := (filePath, "") :: w.disk.filter (fun f => f.1 != filePath) })

/-- The call `io.Copy(dst, file)` for the file created at `filePath`: on success the
file holds the uploaded content; on an error it is left as it was created. -/
def ioCopy {σ : Type} (filePath content : String) (w : UploadWorld σ) :
    Option Err × UploadWorld σ :=
  match w.copyErr with
  | some err => (some err, w)
  | none =>
    (none, { w with disk := (filePath, content) :: w.disk.filter (fun f => f.1 != filePath) })

/-- The call `os.Remove(filePath)`: on success the path is gone; on an error the disk is
as it was.  `Upload` makes the call while `dst` is still open (`defer dst.Close()`),
which some operating systems refuse. -/
def osRemove {σ : Type} (filePath : String) (w : UploadWorld σ) :
    Option Err × UploadWorld σ :=
  match w.removeErr with
  | some err => (some err, w)
  | none => (none, { w with disk := w.disk.filter (fun f => f.1 != filePath) })

/-- The struct `AttachmentHandler`. -/
structure AttachmentHandler (σ : Type) where
  attachmentRepo : AttachmentRepository σ
  uploadDir : String

/-- The constructor `NewAttachmentHandler` (the directory is created if missing). -/
def NewAttachmentHandler {σ : Type} (attachmentRepo : AttachmentRepository σ) :
    AttachmentHandler σ :=
  { attachmentRepo := attachmentRepo, uploadDir := "./uploads" }

/-- The line `newFilename := fmt.Sprintf("%s_%d%s", uuid.New().String(),
time.Now().Unix(), ext)` of `Upload`, given the identifier and the time drawn. -/
def Upload.newFilename (header : FileHeader) (u : UUID) (now : Time) : String :=
  let ext := filepath.Ext header.Filename
  uuid.UUID.String u ++ "_" ++ toString now ++ ext

/-- The block `// Create attachment record` of `Upload`. -/
def Upload.record (header : FileHeader) (newFilename : String) (ticketID : UUID)
    (now : Time) : Attachment :=
  { ID := 0, Filename := header.Filename, URL := "/uploads/" ++ newFilename,
    Type_ := header.ContentType, Size := header.Size, TicketID := ticketID,
    CreatedAt := now }

/-- The method `AttachmentHandler.Upload`. -/
def AttachmentHandler.Upload {σ : Type} (h : AttachmentHandler σ) (req : UploadRequest)
    (w : UploadWorld σ) : UploadResponse × UploadWorld σ :=
  let ticketIDStr := req.id
  match uuid.Parse ticketIDStr with
  | none => (.error http.StatusBadRequest "Invalid ticket ID", w)
  | some ticketID =>
    match req.file with
    | none => (.error http.StatusBadRequest "No file uploaded", w)
    | some (header, file) =>
      -- Generate unique filename
      let (u, w) := uuidNew w
      let (now, w) := uploadNow w
      let newFilename := Upload.newFilename header u now
      let filePath := filepath.Join h.uploadDir newFilename
      -- Create the file
      let (err, w) := osCreate filePath w
      match err with
      | some _ => (.error http.StatusInternalServerError "Failed to save file", w)
      | none =>
        -- Copy uploaded file to destination
        let (err, w) := ioCopy filePath file w
        match err with
        | some _ => (.error http.StatusInternalServerError "Failed to save file", w)
        | none =>
          -- Create attachment record
          let (now, w) := uploadNow w
          let attachment := Upload.record header newFilename ticketID now
          let ((err, attachment), db) := h.attachmentRepo.Create attachment w.db
          let w := { w with db := db }
          match err with
          | some _ =>
            -- Clean up file if database insert fails
            let (_, w) := osRemove filePath w
            (.error http.StatusInternalServerError "Failed to save attachment record", w)
          | none => (.created http.StatusCreated attachment, w)

/-- An in-memory attachment table that stores what `Create` is given. -/
def memAttachmentRepo : AttachmentRepository (List Attachment) where
  Create := fun a db =>
    let a := { a with ID := db.length + 1 }
    ((none, a), db ++ [a])
  FindByTicketID := fun id db => (.ok (db.filter (fun a => a.TicketID == id)), db)
  Delete := fun id db => (none, db.filter (fun a => a.ID != id))

/-- An attachment repository whose database is down: every method fails and stores
nothing. -/
def downAttachmentRepo : AttachmentRepository (List Attachment) where
  Create := fun a db => ((some "connection refused", a), db)
  FindByTicketID := fun _ db => (.error "connection refused", db)
  Delete := fun _ db => (some "connection refused", db)

/-- An upload world with an empty table, one older file on disk, the clock reading 100,
101, ..., fresh identifiers 500, 501, ... and an operating system that reports no
error. -/
def uploadWorld : UploadWorld (List Attachment) :=
  { db := [], disk := [("./uploads/1_50.txt", "old")], clock := fun n => 100 + n, tick := 0,
    uuids := fun n => 500 + n, drawn := 0, createErr := none, copyErr := none,
    removeErr := none }

/-- The same upload world on an operating system that refuses to remove a file. -/
def stuckUploadWorld : UploadWorld (List Attachment) :=
  { uploadWorld with
    removeErr := some "remove ./uploads/500_100.pdf: The process cannot access the file" }

/-- The upload of `report.pdf` for ticket 12. -/
def uploadReport : UploadRequest :=
  { id := "12",
    file := some ({ Filename := "report.pdf", ContentType := "application/pdf", Size := 9 },
      "%PDF-1.4.") }

/-- The name `Upload` gives the stored file when it starts in the world `w`. -/
def Upload.storedName {σ : Type} (header : FileHeader) (w : UploadWorld σ) : String :=
  Upload.newFilename header (w.uuids w.drawn) (w.clock w.tick)

/-- The record `Upload` hands to `attachmentRepo.Create` when it starts in the world
`w`. -/
def Upload.inserted {σ : Type} (header : FileHeader) (ticketID : UUID) (w : UploadWorld σ) :
    Attachment :=
  Upload.record header (Upload.storedName header w) ticketID (w.clock (w.tick + 1))

end handler

/-! ## internal/handler (auth_handler.go) -/

namespace handler

open domain repository service

/-- The struct `RegisterRequest`; it has no field for a role. -/
structure RegisterRequest where
  Name : String
  Email : String
  Password : String
  deriving DecidableEq

/-- The struct `LoginRequest`. -/
structure LoginRequest where
  Email : String
  Password : String
  deriving DecidableEq

/-- What `AuthHandler.Register` and `AuthHandler.Login` answer: `error` is
`gin.H{"error": message}`; `registered` is `gin.H{"success": true, "message": message,
"data": user}` with the user as encoded; `loggedIn` is `gin.H{"success": true, "data":
gin.H{"user": user, "accessToken": accessToken}}` together with the `refresh_token`
cookie that was set. -/
inductive AuthResponse where
  | error (status : Nat) (message : String)
  | registered (status : Nat) (message : String) (data : json.Value)
  | loggedIn (status : Nat) (user : json.Value) (accessToken : jwt.TokenString)
      (refreshCookie : jwt.TokenString)

/-- The method `AuthHandler.Register`; `bound` is what `c.ShouldBindJSON(&req)` gives,
the request or the error of the binding.  The test `err == service.ErrUserExists` is
made on the message. -/
def AuthHandler.Register {σ : Type} (authService : authService σ) (crypt : bcrypt.Package)
    (bound : Except Err RegisterRequest) (w : World σ) : AuthResponse × World σ :=
  match bound with
  | .error err => (.error http.StatusBadRequest err, w)
  | .ok req =>
    let (res, w) := authService.Register crypt req.Name req.Email req.Password w
    match res with
    | .error err =>
      if err = ErrUserExists then (.error http.StatusConflict "User already exists", w)
      else (.error http.StatusInternalServerError "Failed to register user", w)
    | .ok user =>
      (.registered http.StatusCreated "User registered successfully" user.MarshalJSON, w)

/-- The method `AuthHandler.Login`; `bound` is what `c.ShouldBindJSON(&req)` gives. -/
def AuthHandler.Login {σ : Type} (authService : authService σ) (crypt : bcrypt.Package)
    (bound : Except Err LoginRequest) (w : World σ) : AuthResponse × World σ :=
  match bound with
  | .error err => (.error http.StatusBadRequest err, w)
  | .ok req =>
    let (res, w) := authService.Login crypt req.Email req.Password w
    match res with
    | .error _ => (.error http.StatusUnauthorized "Invalid credentials", w)
    | .ok (user, accessToken, refreshToken) =>
      -- Set refresh token as httpOnly cookie. Secure=false for localhost dev.
      (.loggedIn http.StatusOK user.MarshalJSON accessToken refreshToken, w)

end handler

/-! ## internal/websocket (the broadcast hub)

The code of this package is not among the sources; `main.go` and the ticket service
only show its interface (`NewHub`, `Run`, `Broadcast`, `ServeWs`).  The definitions below
follow the written design of the hub: one event loop that applies, one at a time, the
registrations, unregistrations and broadcasts submitted to it. -/

namespace websocket

/-- Modelled from the spec: the opaque identifier of a Connection (the hub package is
missing from the sources). -/
abbrev ConnId := Nat

/-- Modelled from the spec: an "arbitrary serializable value", the payload of an event
(the hub package is missing from the sources). -/
inductive JSON where
  | null
  | bool (b : Bool)
  | number (n : Int)
  | string (s : String)
  | array (items : List JSON)
  | object (fields : List (String × JSON))

/-- Modelled from the spec: the event envelope `{type, payload, timestamp}` once
encoded, "a structured object with fields type and payload"; this is the frame put on
the outbound queues (the hub package is missing from the sources). -/
structure Frame where
  type : String
  payload : JSON
  timestamp : Nat

/-- Modelled from the spec: the envelope codec, "encodes (eventType, payload) into one
immutable frame per Broadcast call"; `now` is the clock reading the envelope is stamped
with (the hub package is missing from the sources). -/
def encode (eventType : String) (payload : JSON) (now : Nat) : Frame :=
  { type := eventType, payload := payload, timestamp := now }

/-- Modelled from the spec: the state machine of a connection, `Connecting` (external
handshake), `Open` (registered, eligible for broadcast), `Closing`, `Closed` (terminal)
(the hub package is missing from the sources). -/
inductive ConnState where
  | Connecting
  | Open
  | Closing
  | Closed
  deriving DecidableEq

/-- Modelled from the spec: a Connection (the hub package is missing from the sources).
`queue` is its bounded FIFO outbound queue, oldest frame first; `closes` counts how
often the queue has been closed (closed means at least once); `written` holds the frames
its writer task has taken off the queue and written to the socket, oldest first. -/
structure Connection where
  state : ConnState
  queue : List Frame
  closes : Nat
  written : List Frame

/-- Modelled from the spec: whether the outbound queue of a connection is closed (the
hub package is missing from the sources). -/
def Connection.queueClosed (conn : Connection) : Bool :=
  conn.closes != 0

/-- Modelled from the spec: every frame that was ever put on the outbound queue of a
connection and not discarded, oldest first: those already written to the socket, then
those still queued (the hub package is missing from the sources). -/
def Connection.received (conn : Connection) : List Frame :=
  conn.written ++ conn.queue

/-- Modelled from the spec: a connection whose handshake has not yet succeeded: empty
queue, not closed (the hub package is missing from the sources). -/
def Connection.fresh : Connection :=
  { state := .Connecting, queue := [], closes := 0, written := [] }

/-- Modelled from the spec: the Hub, "a set of Connections, keyed by identifier"
(the hub package is missing from the sources).  `registry` is that set, `conns` gives
every connection by its identifier, `capacity` is the capacity of each outbound queue
(the design leaves its value open). -/
structure Hub where
  capacity : Nat
  registry : List ConnId
  conns : ConnId → Connection

/-- Modelled from the spec: `New() -> Hub`, "an idle hub with empty registry", which
`main.go` calls as `websocket.NewHub()` (the hub package is missing from the sources); no
connection has completed its handshake yet. -/
def NewHub (capacity : Nat) : Hub :=
  { capacity := capacity, registry := [], conns := fun _ => Connection.fresh }

/-- Modelled from the spec: the effect of `Register(conn)` inside the event loop (the
hub package is missing from the sources).  It is the transition `Connecting → Open`: the
connection joins the registry.  A connection that is already `Open` is already in the
set, and one that is `Closing` or `Closed` (terminal) stays out. -/
def register (c : ConnId) (h : Hub) : Hub :=
  if (h.conns c).state = .Connecting then
    { h with
      registry := h.registry ++ [c],
      conns := Function.update h.conns c { h.conns c with state := .Open } }
  else h

/-- Modelled from the spec: the effect of `Unregister(conn)` inside the event loop,
"removes the connection, closes its outbound queue", a no-op for a connection that is
not in the registry (the hub package is missing from the sources). -/
def unregister (c : ConnId) (h : Hub) : Hub :=
  if c ∈ h.registry then
    { h with
      registry := h.registry.filter (fun d => d != c),
      conns := Function.update h.conns c
        { h.conns c with state := .Closing, closes := (h.conns c).closes + 1 } }
  else h

/-- Modelled from the spec: whether the bounded outbound queue of a connection has room
for one more frame (the hub package is missing from the sources). -/
def Hub.hasRoom (h : Hub) (c : ConnId) : Bool :=
  decide ((h.conns c).queue.length < h.capacity)

/-- Modelled from the spec: `Send(bytes)` as the event loop uses it in a broadcast (the
hub package is missing from the sources): the frame is put on the queue when there is
room, and "if a connection's queue is full, the policy is to eject that connection
(treat it as errored and unregister it)". -/
def deliver (frame : Frame) (h : Hub) (c : ConnId) : Hub :=
  if h.hasRoom c then
    { h with
      conns := Function.update h.conns c
        { h.conns c with queue := (h.conns c).queue ++ [frame] } }
  else unregister c h

/-- Modelled from the spec: the effect of `Broadcast(eventType, payload)` inside the
event loop, "encodes the envelope once, then enqueues the encoded bytes onto every
currently-registered connection's outbound queue" (the hub package is missing from the
sources). -/
def broadcast (eventType : String) (payload : JSON) (now : Nat) (h : Hub) : Hub :=
  let frame := encode eventType payload now
  h.registry.foldl (deliver frame) h

/-- Modelled from the spec: one step of the writer task of a connection, "dequeues
frames from the outbound queue in FIFO order and writes them to the socket" (the hub
package is missing from the sources). -/
def drain (c : ConnId) (h : Hub) : Hub :=
  match (h.conns c).queue with
  | [] => h
  | frame :: rest =>
    { h with
      conns := Function.update h.conns c
        { h.conns c with queue := rest, written := (h.conns c).written ++ [frame] } }

/-- Modelled from the spec: the transition `Closing → Closed`, "terminal; queue
drained/discarded, socket released" (the hub package is missing from the sources). -/
def release (c : ConnId) (h : Hub) : Hub :=
  if (h.conns c).state = .Closing then
    { h with
      conns := Function.update h.conns c { h.conns c with state := .Closed, queue := [] } }
  else h

/-- Modelled from the spec: what reaches the hub and its connections, in the order the
event loop observes it (the hub package is missing from the sources).  `close` is a
connection closing from its own side (read or write error, explicit `Close()`). -/
inductive Op where
  | register (c : ConnId)
  | unregister (c : ConnId)
  | broadcast (eventType : String) (payload : JSON) (now : Nat)
  | close (c : ConnId)
  | drain (c : ConnId)
  | release (c : ConnId)

/-- Modelled from the spec: one turn of the event loop `Run()` (the hub package is
missing from the sources).  A connection that closes from its own side "triggers
unregistration and closure": the hub sees it as the unregistration it requests. -/
def step (h : Hub) (op : Op) : Hub :=
  match op with
  | .register c => register c h
  | .unregister c => unregister c h
  | .broadcast eventType payload now => broadcast eventType payload now h
  | .close c => unregister c h
  | .drain c => drain c h
  | .release c => release c h

/-- Modelled from the spec: the event loop `Run()` over the operations it observes, in
order (the hub package is missing from the sources). -/
def run (ops : List Op) (h : Hub) : Hub :=
  ops.foldl step h

/-- Modelled from the spec: the frames of the broadcasts among some operations, in the
order the broadcasts were issued (the hub package is missing from the sources). -/
def framesOf : List Op → List Frame
  | [] => []
  | .broadcast eventType payload now :: rest => encode eventType payload now :: framesOf rest
  | _ :: rest => framesOf rest

/-- A hub of capacity 1 in which A (0) and B (1) are registered and each still holds
the frame of one broadcast in its queue: both queues are full. -/
def bothSaturated : Hub :=
  run [.register 0, .register 1, .broadcast "ticket:created" (.string "t1") 10] (NewHub 1)

/-- Modelled from the spec: whether an operation is a broadcast (the hub package is
missing from the sources). -/
def Op.isBroadcast : Op → Bool
  | .broadcast _ _ _ => true
  | _ => false

/-- Modelled from the spec: the invariants of the hub state (the hub package is missing
from the sources): the registry is a set, it holds exactly the `Open` connections, the
queue of an `Open` connection is not closed, the queue of a `Closing` or `Closed` one
has been closed exactly once, a connection still `Connecting` has been sent nothing,
and no queue is longer than the capacity.  Every step of the event loop keeps them. -/
structure Hub.WellFormed (h : Hub) : Prop where
  nodup : h.registry.Nodup
  mem_iff : ∀ c, c ∈ h.registry ↔ (h.conns c).state = .Open
  open_closes : ∀ c, (h.conns c).state = .Open → (h.conns c).closes = 0
  closed_closes : ∀ c, (h.conns c).state = .Closing ∨ (h.conns c).state = .Closed →
    (h.conns c).closes = 1
  connecting : ∀ c, (h.conns c).state = .Connecting →
    (h.conns c).closes = 0 ∧ (h.conns c).queue = [] ∧ (h.conns c).written = []
  bounded : ∀ c, (h.conns c).queue.length ≤ h.capacity

end websocket

/-! # Theorems -/

namespace service

open domain repository

variable {σ : Type}

theorem newCalls_append (w w' : World σ) (calls : List Call)
    (h : w'.trace = w.trace ++ calls) : newCalls w w' = calls := by
  simp [newCalls, h]

theorem broadcastsOf_append (xs ys : List Call) :
    broadcastsOf (xs ++ ys) = broadcastsOf xs ++ broadcastsOf ys := by
  induction xs with
  | nil => rfl
  | cons c rest ih => cases c <;> simp [broadcastsOf, ih]

theorem wroteOK_append (xs ys : List Call) :
    wroteOK (xs ++ ys) = (wroteOK xs || wroteOK ys) := by
  simp [wroteOK]

theorem broadcastsFollowWrite_true (calls : List Call) :
    broadcastsFollowWrite true calls = true := by
  induction calls with
  | nil => rfl
  | cons c rest ih => simp [broadcastsFollowWrite, ih]

theorem broadcastsFollowWrite_quiet (seen : Bool) (calls : List Call)
    (h : broadcastsOf calls = []) : broadcastsFollowWrite seen calls = true := by
  induction calls generalizing seen with
  | nil => rfl
  | cons c rest ih =>
    cases c <;> simp only [broadcastsOf, reduceCtorEq] at h <;>
      simp [broadcastsFollowWrite, Call.isBroadcast, ih _ h]

theorem broadcastsFollowWrite_append (seen : Bool) (pre rest : List Call)
    (h : broadcastsOf pre = []) :
    broadcastsFollowWrite seen (pre ++ rest) =
      broadcastsFollowWrite (seen || wroteOK pre) rest := by
  induction pre generalizing seen with
  | nil => simp [wroteOK]
  | cons c pre ih =>
    cases c <;> simp only [broadcastsOf, reduceCtorEq] at h <;>
      simp [broadcastsFollowWrite, Call.isBroadcast, ih _ h, wroteOK, Bool.or_assoc]

theorem notify_trace (s : ticketService σ) (eventType : String) (payload : Payload)
    (w : World σ) :
    (notify s eventType payload w).trace = w.trace ++ notifyCalls s.hub eventType payload := by
  unfold notify notifyCalls
  cases s.hub <;> simp [Broadcast]

theorem applyStatus_db (updates : Updates) (ticket : Ticket) (w : World σ) :
    (applyStatus updates ticket w).2.db = w.db := by
  simp only [applyStatus, timeNow]
  split
  · split_ifs <;> rfl
  · rfl

theorem applyStatus_trace (updates : Updates) (ticket : Ticket) (w : World σ) :
    (applyStatus updates ticket w).2.trace = w.trace := by
  simp only [applyStatus, timeNow]
  split
  · split_ifs <;> rfl
  · rfl

/-- The calls of `Create`: the repository write, then the notification when the write
returned nil. -/
theorem Create_calls (s : ticketService σ) (ticket : Ticket) (w : World σ) :
    ∃ calls, (s.Create ticket w).2.trace = w.trace ++ calls ∧
      MutationCalls s.hub "ticket:created"
        (match (s.Create ticket w).1.1 with
          | none => some (Payload.ticket (s.Create ticket w).1.2)
          | some _ => none) calls := by
  simp only [ticketService.Create, repoCreate, timeNow]
  split
  · rename_i err h
    exact ⟨_, rfl, .failed _ rfl (by simp [wroteOK, h, Call.isSuccessfulWrite])⟩
  · rename_i h
    simp only [notify_trace, h, List.append_assoc, List.singleton_append]
    exact ⟨_, rfl, .done [] _ _ rfl rfl rfl⟩

/-- The calls of `Update`. -/
theorem Update_calls (s : ticketService σ) (id : UUID) (updates : Updates)
    (editorID : UUID) (w : World σ) :
    ∃ calls, (s.Update id updates editorID w).2.trace = w.trace ++ calls ∧
      MutationCalls s.hub "ticket:updated"
        (match (s.Update id updates editorID w).1 with
          | .ok t => some (Payload.ticket t)
          | .error _ => none) calls := by
  simp only [ticketService.Update, repoFindByID]
  split
  · rename_i err h
    exact ⟨_, rfl, .failed _ rfl (by simp [wroteOK, Call.isSuccessfulWrite])⟩
  · rename_i ticket h
    have quiet : ∀ (t : Ticket) (err : Err),
        wroteOK [Call.ticketFindByID id (Except.ok ticket), Call.ticketUpdate t (some err)]
          = false := fun _ _ => rfl
    simp only [timeNow, repoUpdate, applyStatus_trace, applyStatus_db]
    split
    · rename_i err he
      simp only [he, List.append_assoc, List.singleton_append]
      exact ⟨_, rfl, .failed _ rfl (quiet _ _)⟩
    · rename_i he
      simp only [notify_trace, he, List.append_assoc, List.singleton_append]
      exact ⟨_, rfl, .done [_] _ _ rfl rfl rfl⟩

/-- The calls of `Delete`. -/
theorem Delete_calls (s : ticketService σ) (id : UUID) (w : World σ) :
    ∃ calls, (s.Delete id w).2.trace = w.trace ++ calls ∧
      MutationCalls s.hub "ticket:deleted"
        (match (s.Delete id w).1 with
          | none => some (Payload.id id)
          | some _ => none) calls := by
  simp only [ticketService.Delete, repoDelete]
  split
  · rename_i err h
    exact ⟨_, rfl, .failed _ rfl (by simp [wroteOK, h, Call.isSuccessfulWrite])⟩
  · rename_i h
    simp only [notify_trace, h, List.append_assoc, List.singleton_append]
    exact ⟨_, rfl, .done [] _ _ rfl rfl rfl⟩

/-- The calls of `AssignTechnician`; on success the payload is the ticket as the
repository left it. -/
theorem AssignTechnician_calls (s : ticketService σ) (ticketID techID assignerID : UUID)
    (w : World σ) :
    ∃ calls, (s.AssignTechnician ticketID techID assignerID w).2.trace = w.trace ++ calls ∧
      ((∃ err, (s.AssignTechnician ticketID techID assignerID w).1 = some err ∧
          MutationCalls s.hub "ticket:updated" none calls) ∨
        ((s.AssignTechnician ticketID techID assignerID w).1 = none ∧
          ∃ t, MutationCalls s.hub "ticket:updated" (some (Payload.ticket t)) calls)) := by
  simp only [ticketService.AssignTechnician, repoFindByID, userRepoFindByID]
  split
  · rename_i err h
    exact ⟨_, rfl, .inl ⟨_, rfl, .failed _ rfl (by simp [wroteOK, Call.isSuccessfulWrite])⟩⟩
  · rename_i ticket h
    split
    · rename_i err hu
      simp only [List.append_assoc, List.singleton_append]
      exact ⟨_, rfl, .inl ⟨_, rfl, .failed _ rfl (by simp [wroteOK, Call.isSuccessfulWrite])⟩⟩
    · rename_i tech hu
      split_ifs
      · simp only [List.append_assoc, List.singleton_append]
        exact ⟨_, rfl, .inl ⟨_, rfl, .failed _ rfl (by simp [wroteOK, Call.isSuccessfulWrite])⟩⟩
      · simp only [timeNow, repoUpdate]
        split
        · rename_i err he
          simp only [he, List.append_assoc, List.singleton_append]
          exact ⟨_, rfl, .inl ⟨_, rfl, .failed _ rfl (by simp [wroteOK, Call.isSuccessfulWrite])⟩⟩
        · rename_i he
          simp only [notify_trace, he, List.append_assoc, List.singleton_append]
          exact ⟨_, rfl, .inr ⟨trivial, _, .done [_, _] _ _ rfl rfl rfl⟩⟩

theorem Call.isBroadcast_of_write {c : Call} (h : c.isSuccessfulWrite = true) :
    c.isBroadcast = false := by
  cases c <;> first | rfl | (simp [Call.isSuccessfulWrite] at h)

theorem MutationCalls.of_none {hub : Option HubPtr} {eventType : String}
    {calls : List Call} (h : MutationCalls hub eventType none calls) :
    broadcastsOf calls = [] ∧ wroteOK calls = false := by
  cases h with
  | failed _ hb hw => exact ⟨hb, hw⟩

theorem MutationCalls.of_some {hub : Option HubPtr} {eventType : String}
    {payload : Payload} {calls : List Call}
    (h : MutationCalls hub eventType (some payload) calls) :
    broadcastsOf calls = broadcastsOf (notifyCalls hub eventType payload) ∧
      wroteOK calls = true := by
  cases h with
  | done pre write _ hb hw hwrite =>
    constructor
    · rw [broadcastsOf_append, hb]
      have hnb := Call.isBroadcast_of_write hwrite
      cases write <;> first | rfl | (simp [Call.isBroadcast] at hnb)
    · simp [wroteOK_append, wroteOK, hwrite]

theorem MutationCalls.follow {hub : Option HubPtr} {eventType : String}
    {result : Option Payload} {calls : List Call}
    (h : MutationCalls hub eventType result calls) :
    broadcastsFollowWrite false calls = true := by
  cases h with
  | failed _ hb hw => exact broadcastsFollowWrite_quiet _ _ hb
  | done pre write payload hb hw hwrite =>
    rw [broadcastsFollowWrite_append _ _ _ hb]
    simp [broadcastsFollowWrite, Call.isBroadcast_of_write hwrite, hwrite,
      broadcastsFollowWrite_true]

theorem MutationCalls.eventType_mem {hub : Option HubPtr} {eventType : String}
    {result : Option Payload} {calls : List Call}
    (h : MutationCalls hub eventType result calls) :
    ∀ b ∈ broadcastsOf calls, b.2.1 = eventType := by
  cases result with
  | none => intro b hb; rw [h.of_none.1] at hb; cases hb
  | some payload =>
    intro b hb
    rw [h.of_some.1] at hb
    cases hub <;> simp [notifyCalls, broadcastsOf] at hb
    rw [hb]

/-- The calls of `AddComment`: one repository call, no broadcast. -/
theorem AddComment_calls (s : ticketService σ) (ticketID userID : UUID) (content : String)
    (w : World σ) :
    ∃ c, (s.AddComment ticketID userID content w).2.trace = w.trace ++ [c] ∧
      c.isBroadcast = false := by
  simp only [ticketService.AddComment, commentRepoCreate, timeNow]
  split <;> exact ⟨_, rfl, rfl⟩

theorem broadcastsOf_quiet_singleton {c : Call} (h : c.isBroadcast = false) :
    broadcastsOf [c] = [] := by
  cases c <;> first | rfl | (simp [Call.isBroadcast] at h)

/-- The calls of a method that only reads: no broadcast. -/
theorem read_calls (s : ticketService σ) (w : World σ) :
    (∀ id, broadcastsOf (newCalls w (s.GetByID id w).2) = []) ∧
    (∀ filter, broadcastsOf (newCalls w (s.GetAll filter w).2) = []) ∧
    (∀ ticketID, broadcastsOf (newCalls w (s.GetComments ticketID w).2) = []) ∧
    broadcastsOf (newCalls w (s.GetStats w).2) = [] := by
  refine ⟨fun id => ?_, fun filter => ?_, fun ticketID => ?_, ?_⟩
  · rw [newCalls_append w _ [_] rfl]; rfl
  · rw [newCalls_append w _ [_] rfl]; rfl
  · rw [newCalls_append w _ [_] rfl]; rfl
  · rw [newCalls_append w _ [_] rfl]; rfl

/-- C1. With a hub that is not nil and a repository write that succeeds, `Create`,
`Update` and `Delete` each return without error and issue exactly one broadcast:
"ticket:created" with the created ticket (the ticket the repository write left behind
the caller's pointer), "ticket:updated" with the ticket `Update` returns,
"ticket:deleted" with the identifier alone.  Whatever method of the service is called,
every broadcast it issues has one of these three event types, and `AddComment` issues
none. -/
theorem ticket_event_types (s : ticketService σ) (hub : HubPtr) (hhub : s.hub = some hub) :
    (∀ ticket w, wroteOK (newCalls w (s.Create ticket w).2) = true →
      (s.Create ticket w).1.1 = none ∧
      (s.Create ticket w).1.2 =
        (s.repo.Create { ticket with Status := StatusOpen, CreatedAt := w.clock w.tick,
                                     UpdatedAt := w.clock (w.tick + 1) } w.db).1.2 ∧
      broadcastsOf (newCalls w (s.Create ticket w).2) =
        [(hub, "ticket:created", Payload.ticket (s.Create ticket w).1.2)]) ∧
    (∀ id updates editorID w,
      wroteOK (newCalls w (s.Update id updates editorID w).2) = true →
      ∃ t, (s.Update id updates editorID w).1 = .ok t ∧
        broadcastsOf (newCalls w (s.Update id updates editorID w).2) =
          [(hub, "ticket:updated", Payload.ticket t)]) ∧
    (∀ id w, wroteOK (newCalls w (s.Delete id w).2) = true →
      (s.Delete id w).1 = none ∧
      broadcastsOf (newCalls w (s.Delete id w).2) =
        [(hub, "ticket:deleted", Payload.id id)]) ∧
    (∀ req w, ∀ b ∈ broadcastsOf (newCalls w (s.call req w)),
      b.2.1 = "ticket:created" ∨ b.2.1 = "ticket:updated" ∨ b.2.1 = "ticket:deleted") ∧
    (∀ ticketID userID content w,
      broadcastsOf (newCalls w (s.AddComment ticketID userID content w).2) = []) := by
  have hadd : ∀ ticketID userID content (w : World σ),
      broadcastsOf (newCalls w (s.AddComment ticketID userID content w).2) = [] := by
    intro ticketID userID content w
    obtain ⟨c, hc, hq⟩ := AddComment_calls s ticketID userID content w
    rw [newCalls_append w _ _ hc]
    exact broadcastsOf_quiet_singleton hq
  refine ⟨?_, ?_, ?_, ?_, hadd⟩
  · intro ticket w hw
    obtain ⟨calls, htrace, hshape⟩ := Create_calls s ticket w
    rw [newCalls_append w _ _ htrace] at hw ⊢
    refine ⟨?_, ?_, ?_⟩
    · cases herr : (s.Create ticket w).1.1 with
      | none => rfl
      | some err => rw [herr] at hshape; rw [hshape.of_none.2] at hw; cases hw
    · simp only [ticketService.Create, repoCreate, timeNow]
      split <;> rfl
    · cases herr : (s.Create ticket w).1.1 with
      | none => rw [herr] at hshape; rw [hshape.of_some.1, hhub]; rfl
      | some err => rw [herr] at hshape; rw [hshape.of_none.2] at hw; cases hw
  · intro id updates editorID w hw
    obtain ⟨calls, htrace, hshape⟩ := Update_calls s id updates editorID w
    rw [newCalls_append w _ _ htrace] at hw ⊢
    cases hres : (s.Update id updates editorID w).1 with
    | ok t => rw [hres] at hshape; exact ⟨t, rfl, by rw [hshape.of_some.1, hhub]; rfl⟩
    | error err => rw [hres] at hshape; rw [hshape.of_none.2] at hw; cases hw
  · intro id w hw
    obtain ⟨calls, htrace, hshape⟩ := Delete_calls s id w
    rw [newCalls_append w _ _ htrace] at hw ⊢
    cases herr : (s.Delete id w).1 with
    | none => rw [herr] at hshape; exact ⟨rfl, by rw [hshape.of_some.1, hhub]; rfl⟩
    | some err => rw [herr] at hshape; rw [hshape.of_none.2] at hw; cases hw
  · intro req w b hb
    cases req with
    | Create ticket =>
      obtain ⟨calls, htrace, hshape⟩ := Create_calls s ticket w
      rw [ticketService.call, newCalls_append w _ _ htrace] at hb
      exact .inl (hshape.eventType_mem b hb)
    | Update id updates editorID =>
      obtain ⟨calls, htrace, hshape⟩ := Update_calls s id updates editorID w
      rw [ticketService.call, newCalls_append w _ _ htrace] at hb
      exact .inr (.inl (hshape.eventType_mem b hb))
    | Delete id =>
      obtain ⟨calls, htrace, hshape⟩ := Delete_calls s id w
      rw [ticketService.call, newCalls_append w _ _ htrace] at hb
      exact .inr (.inr (hshape.eventType_mem b hb))
    | AssignTechnician ticketID techID assignerID =>
      obtain ⟨calls, htrace, hshape⟩ := AssignTechnician_calls s ticketID techID assignerID w
      rw [ticketService.call, newCalls_append w _ _ htrace] at hb
      rcases hshape with ⟨_, _, hshape⟩ | ⟨_, _, hshape⟩
      · exact .inr (.inl (hshape.eventType_mem b hb))
      · exact .inr (.inl (hshape.eventType_mem b hb))
    | AddComment ticketID userID content =>
      rw [ticketService.call, hadd] at hb; cases hb
    | GetByID id => rw [ticketService.call, (read_calls s w).1] at hb; cases hb
    | GetAll filter => rw [ticketService.call, (read_calls s w).2.1] at hb; cases hb
    | GetComments ticketID => rw [ticketService.call, (read_calls s w).2.2.1] at hb; cases hb
    | GetStats => rw [ticketService.call, (read_calls s w).2.2.2] at hb; cases hb

/-- C1 on the in-memory service: creating a ticket in an empty table, then updating
and deleting the stored ticket 1, each gives the one broadcast of its kind. -/
theorem ticket_event_types_witness :
    ((memService.Create (mkTicket "Leak" "Pipe leaks in room 2" 3) (memWorld [])).1.1 = none ∧
      (memService.Create (mkTicket "Leak" "Pipe leaks in room 2" 3) (memWorld [])).1.2 =
        (memTicketRepo.Create
          { mkTicket "Leak" "Pipe leaks in room 2" 3 with
            Status := StatusOpen, CreatedAt := 100, UpdatedAt := 101 } []).1.2 ∧
      broadcastsOf (newCalls (memWorld [])
          (memService.Create (mkTicket "Leak" "Pipe leaks in room 2" 3) (memWorld [])).2) =
        [(⟨1⟩, "ticket:created", Payload.ticket
          (memService.Create (mkTicket "Leak" "Pipe leaks in room 2" 3) (memWorld [])).1.2)]) ∧
    (∃ t, (memService.Update 1 [("status", GoValue.string "RESOLVED")] 3
          (memWorld [{ mkTicket "Leak" "Pipe leaks in room 2" 3 with ID := 1 }])).1 = .ok t ∧
      broadcastsOf (newCalls (memWorld [{ mkTicket "Leak" "Pipe leaks in room 2" 3 with ID := 1 }])
          (memService.Update 1 [("status", GoValue.string "RESOLVED")] 3
            (memWorld [{ mkTicket "Leak" "Pipe leaks in room 2" 3 with ID := 1 }])).2) =
        [(⟨1⟩, "ticket:updated", Payload.ticket t)]) ∧
    ((memService.Delete 1
          (memWorld [{ mkTicket "Leak" "Pipe leaks in room 2" 3 with ID := 1 }])).1 = none ∧
      broadcastsOf (newCalls (memWorld [{ mkTicket "Leak" "Pipe leaks in room 2" 3 with ID := 1 }])
          (memService.Delete 1
            (memWorld [{ mkTicket "Leak" "Pipe leaks in room 2" 3 with ID := 1 }])).2) =
        [(⟨1⟩, "ticket:deleted", Payload.id 1)]) :=
  ⟨(ticket_event_types memService ⟨1⟩ rfl).1 _ _ (by decide),
    (ticket_event_types memService ⟨1⟩ rfl).2.1 _ _ _ _ (by decide),
    (ticket_event_types memService ⟨1⟩ rfl).2.2.1 _ _ (by decide)⟩

/-- C2. For `Create`, `Update`, `Delete` and `AssignTechnician`: the calls of the
operation extend the trace, every broadcast among them comes after a repository write
that returned nil, and when the operation returns an error it issues no broadcast. -/
theorem broadcast_only_after_write (s : ticketService σ) :
    (∀ ticket w,
      (s.Create ticket w).2.trace = w.trace ++ newCalls w (s.Create ticket w).2 ∧
      broadcastsFollowWrite false (newCalls w (s.Create ticket w).2) = true ∧
      ((s.Create ticket w).1.1 ≠ none →
        broadcastsOf (newCalls w (s.Create ticket w).2) = [])) ∧
    (∀ id updates editorID w,
      (s.Update id updates editorID w).2.trace =
        w.trace ++ newCalls w (s.Update id updates editorID w).2 ∧
      broadcastsFollowWrite false (newCalls w (s.Update id updates editorID w).2) = true ∧
      (∀ err, (s.Update id updates editorID w).1 = .error err →
        broadcastsOf (newCalls w (s.Update id updates editorID w).2) = [])) ∧
    (∀ id w,
      (s.Delete id w).2.trace = w.trace ++ newCalls w (s.Delete id w).2 ∧
      broadcastsFollowWrite false (newCalls w (s.Delete id w).2) = true ∧
      ((s.Delete id w).1 ≠ none → broadcastsOf (newCalls w (s.Delete id w).2) = [])) ∧
    (∀ ticketID techID assignerID w,
      (s.AssignTechnician ticketID techID assignerID w).2.trace =
        w.trace ++ newCalls w (s.AssignTechnician ticketID techID assignerID w).2 ∧
      broadcastsFollowWrite false
        (newCalls w (s.AssignTechnician ticketID techID assignerID w).2) = true ∧
      ((s.AssignTechnician ticketID techID assignerID w).1 ≠ none →
        broadcastsOf (newCalls w (s.AssignTechnician ticketID techID assignerID w).2) = [])) := by
  refine ⟨?_, ?_, ?_, ?_⟩
  · intro ticket w
    obtain ⟨calls, htrace, hshape⟩ := Create_calls s ticket w
    rw [newCalls_append w _ _ htrace]
    refine ⟨htrace, hshape.follow, fun herr => ?_⟩
    cases h : (s.Create ticket w).1.1 with
    | none => exact absurd h herr
    | some err => rw [h] at hshape; exact hshape.of_none.1
  · intro id updates editorID w
    obtain ⟨calls, htrace, hshape⟩ := Update_calls s id updates editorID w
    rw [newCalls_append w _ _ htrace]
    refine ⟨htrace, hshape.follow, fun err herr => ?_⟩
    rw [herr] at hshape
    exact hshape.of_none.1
  · intro id w
    obtain ⟨calls, htrace, hshape⟩ := Delete_calls s id w
    rw [newCalls_append w _ _ htrace]
    refine ⟨htrace, hshape.follow, fun herr => ?_⟩
    cases h : (s.Delete id w).1 with
    | none => exact absurd h herr
    | some err => rw [h] at hshape; exact hshape.of_none.1
  · intro ticketID techID assignerID w
    obtain ⟨calls, htrace, hshape⟩ := AssignTechnician_calls s ticketID techID assignerID w
    rw [newCalls_append w _ _ htrace]
    rcases hshape with ⟨err, _, hshape⟩ | ⟨hnone, t, hshape⟩
    · exact ⟨htrace, hshape.follow, fun _ => hshape.of_none.1⟩
    · exact ⟨htrace, hshape.follow, fun herr => absurd hnone herr⟩

/-- C2 on concrete runs: with the database down `Create` and `Delete` fail, with an
empty table `Update` fails at the lookup, and assigning the plain user 9 fails at the
role check; none of them broadcasts. -/
theorem broadcast_only_after_write_witness :
    broadcastsOf (newCalls (memWorld [])
      (downService.Create (mkTicket "Leak" "Pipe leaks in room 2" 3) (memWorld [])).2) = [] ∧
    broadcastsOf (newCalls (memWorld []) (memService.Update 1 [] 3 (memWorld [])).2) = [] ∧
    broadcastsOf (newCalls (memWorld []) (downService.Delete 1 (memWorld [])).2) = [] ∧
    broadcastsOf (newCalls (memWorld [{ mkTicket "Leak" "Pipe leaks in room 2" 3 with ID := 1 }])
      (memService.AssignTechnician 1 9 8
        (memWorld [{ mkTicket "Leak" "Pipe leaks in room 2" 3 with ID := 1 }])).2) = [] :=
  ⟨((broadcast_only_after_write downService).1 _ _).2.2 (by decide),
    ((broadcast_only_after_write memService).2.1 _ _ _ _).2.2 "record not found" rfl,
    ((broadcast_only_after_write downService).2.2.1 _ _).2.2 (by decide),
    ((broadcast_only_after_write memService).2.2.2 _ _ _ _).2.2 (by decide)⟩

/-- C10. Broadcasting is fire-and-forget.  For every repository behaviour, every world
and every input, `Create`, `Update`, `Delete` and `AssignTechnician` return the same
result, leave the same database and clock, and make the same repository calls, in the
same order, whether the service was constructed with a hub or with a nil pointer. -/
theorem hub_does_not_change_result (repo : TicketRepository σ)
    (commentRepo : CommentRepository σ) (userRepo : UserRepository σ) (hub : HubPtr) :
    (∀ ticket w,
      observed w ((NewTicketService repo commentRepo userRepo (some hub)).Create ticket w) =
        observed w ((NewTicketService repo commentRepo userRepo none).Create ticket w)) ∧
    (∀ id updates editorID w,
      observed w
          ((NewTicketService repo commentRepo userRepo (some hub)).Update id updates editorID w) =
        observed w
          ((NewTicketService repo commentRepo userRepo none).Update id updates editorID w)) ∧
    (∀ id w,
      observed w ((NewTicketService repo commentRepo userRepo (some hub)).Delete id w) =
        observed w ((NewTicketService repo commentRepo userRepo none).Delete id w)) ∧
    (∀ ticketID techID assignerID w,
      observed w ((NewTicketService repo commentRepo userRepo (some hub)).AssignTechnician
          ticketID techID assignerID w) =
        observed w ((NewTicketService repo commentRepo userRepo none).AssignTechnician
          ticketID techID assignerID w)) := by
  refine ⟨?_, ?_, ?_, ?_⟩
  · intro ticket w
    simp only [observed, NewTicketService, ticketService.Create, repoCreate, timeNow, notify,
      Broadcast, newCalls]
    split <;> simp_all [repoCallsOf, Call.isBroadcast]
  · intro id updates editorID w
    simp only [observed, NewTicketService, ticketService.Update, repoFindByID, repoUpdate,
      timeNow, notify, Broadcast, newCalls, applyStatus_trace, applyStatus_db]
    split
    · simp
    · split <;> simp_all [repoCallsOf, Call.isBroadcast]
  · intro id w
    simp only [observed, NewTicketService, ticketService.Delete, repoDelete, notify, Broadcast,
      newCalls]
    split <;> simp_all [repoCallsOf, Call.isBroadcast]
  · intro ticketID techID assignerID w
    simp only [observed, NewTicketService, ticketService.AssignTechnician, repoFindByID,
      userRepoFindByID, repoUpdate, timeNow, notify, Broadcast, newCalls]
    split
    · simp
    · split
      · simp
      · split_ifs
        · simp
        · split <;> simp_all [repoCallsOf, Call.isBroadcast]

end service

namespace websocket

theorem unregister_capacity (c : ConnId) (h : Hub) :
    (unregister c h).capacity = h.capacity := by
  unfold unregister; split <;> rfl

theorem unregister_registry (c : ConnId) (h : Hub) :
    (unregister c h).registry = h.registry.filter (fun d => d != c) := by
  unfold unregister
  split
  · rfl
  · rename_i hc
    symm
    rw [List.filter_eq_self]
    intro d hd
    simp only [bne_iff_ne, ne_eq]
    rintro rfl
    exact hc hd

theorem unregister_conns_ne (c d : ConnId) (h : Hub) (hdc : d ≠ c) :
    (unregister c h).conns d = h.conns d := by
  unfold unregister
  split
  · simp [Function.update_noteq hdc]
  · rfl

theorem deliver_capacity (frame : Frame) (h : Hub) (c : ConnId) :
    (deliver frame h c).capacity = h.capacity := by
  unfold deliver; split
  · rfl
  · exact unregister_capacity c h

theorem deliver_registry (frame : Frame) (h : Hub) (c : ConnId) :
    (deliver frame h c).registry = h.registry.filter (fun d => d != c || h.hasRoom c) := by
  unfold deliver
  split
  · rename_i hr
    simp [hr]
  · rename_i hr
    simp [unregister_registry, hr]

theorem deliver_conns_ne (frame : Frame) (h : Hub) (c d : ConnId) (hdc : d ≠ c) :
    (deliver frame h c).conns d = h.conns d := by
  unfold deliver
  split
  · simp [Function.update_noteq hdc]
  · exact unregister_conns_ne c d h hdc

theorem deliver_conns_self (frame : Frame) (h : Hub) (c : ConnId) :
    (deliver frame h c).conns c =
      if h.hasRoom c then { h.conns c with queue := (h.conns c).queue ++ [frame] }
      else if c ∈ h.registry then
        { h.conns c with state := .Closing, closes := (h.conns c).closes + 1 }
      else h.conns c := by
  unfold deliver unregister
  split
  · simp
  · split <;> simp

theorem hasRoom_congr {h h1 : Hub} {d : ConnId} (hcap : h1.capacity = h.capacity)
    (hconn : h1.conns d = h.conns d) : h1.hasRoom d = h.hasRoom d := by
  simp [Hub.hasRoom, hcap, hconn]

theorem deliver_conns_self_congr (frame : Frame) {h h1 : Hub} {d : ConnId}
    (hcap : h1.capacity = h.capacity) (hconn : h1.conns d = h.conns d)
    (hreg : d ∈ h1.registry ↔ d ∈ h.registry) :
    (deliver frame h1 d).conns d = (deliver frame h d).conns d := by
  rw [deliver_conns_self, deliver_conns_self, hasRoom_congr hcap hconn, hconn]
  by_cases h1r : d ∈ h1.registry
  · rw [if_pos h1r, if_pos (hreg.mp h1r)]
  · rw [if_neg h1r, if_neg (fun hr => h1r (hreg.mpr hr))]

/-- What a fan-out over the distinct connections `l` does to the hub: each of them gets
what `deliver` does to it on the hub as it was, the others are untouched. -/
theorem foldl_deliver (frame : Frame) (l : List ConnId) (h : Hub) (hl : l.Nodup) :
    (l.foldl (deliver frame) h).capacity = h.capacity ∧
    (l.foldl (deliver frame) h).registry =
      h.registry.filter (fun d => !(decide (d ∈ l)) || h.hasRoom d) ∧
    ∀ d, (l.foldl (deliver frame) h).conns d =
      if d ∈ l then (deliver frame h d).conns d else h.conns d := by
  induction l generalizing h with
  | nil => simp
  | cons c l ih =>
    obtain ⟨hc, hl'⟩ := List.nodup_cons.mp hl
    obtain ⟨ih1, ih2, ih3⟩ := ih (deliver frame h c) hl'
    have hcap := deliver_capacity frame h c
    refine ⟨by rw [List.foldl_cons, ih1, hcap], ?_, ?_⟩
    · rw [List.foldl_cons, ih2, deliver_registry, List.filter_filter]
      apply List.filter_congr
      intro d _
      by_cases hdc : d = c
      · subst hdc
        simp [hc]
      · have hroom := hasRoom_congr (d := d) hcap (deliver_conns_ne frame h c d hdc)
        simp [hdc, hroom]
    · intro d
      rw [List.foldl_cons, ih3]
      by_cases hdc : d = c
      · subst hdc
        simp [hc]
      · have hconn := deliver_conns_ne frame h c d hdc
        have hreg : d ∈ (deliver frame h c).registry ↔ d ∈ h.registry := by
          rw [deliver_registry]
          simp [hdc]
        by_cases hdl : d ∈ l
        · simp [hdl, deliver_conns_self_congr frame hcap hconn hreg]
        · simp [hdl, hdc, hconn]

/-- What a broadcast does to a hub whose registry has no duplicate: the connections
with a full queue leave the registry and have their queue closed, the other registered
ones get the one encoded frame at the end of their queue, nothing else changes. -/
theorem broadcast_eq (eventType : String) (payload : JSON) (now : Nat) (h : Hub)
    (hn : h.registry.Nodup) :
    (broadcast eventType payload now h).capacity = h.capacity ∧
    (broadcast eventType payload now h).registry = h.registry.filter (fun d => h.hasRoom d) ∧
    ∀ d, (broadcast eventType payload now h).conns d =
      if d ∈ h.registry then
        if h.hasRoom d then
          { h.conns d with queue := (h.conns d).queue ++ [encode eventType payload now] }
        else { h.conns d with state := .Closing, closes := (h.conns d).closes + 1 }
      else h.conns d := by
  obtain ⟨h1, h2, h3⟩ := foldl_deliver (encode eventType payload now) h.registry h hn
  refine ⟨h1, ?_, ?_⟩
  · rw [broadcast, h2]
    apply List.filter_congr
    intro d hd
    simp [hd]
  · intro d
    rw [broadcast, h3, deliver_conns_self]
    by_cases hd : d ∈ h.registry <;> simp [hd]

theorem wellFormed_NewHub (capacity : Nat) : (NewHub capacity).WellFormed where
  nodup := List.nodup_nil
  mem_iff := by intro c; simp [NewHub, Connection.fresh]
  open_closes := by intro c; simp [NewHub, Connection.fresh]
  closed_closes := by intro c; simp [NewHub, Connection.fresh]
  connecting := by intro c; simp [NewHub, Connection.fresh]
  bounded := by intro c; simp [NewHub, Connection.fresh]

theorem wellFormed_register (c : ConnId) {h : Hub} (wf : h.WellFormed) :
    (register c h).WellFormed := by
  unfold register
  split
  · rename_i hc
    have hcn : c ∉ h.registry := by
      rw [wf.mem_iff, hc]; simp
    refine ⟨?_, ?_, ?_, ?_, ?_, ?_⟩
    · exact List.Nodup.append wf.nodup (List.nodup_singleton c) (by simpa using hcn)
    · intro d
      by_cases hdc : d = c
      · subst hdc; simp
      · simp [Function.update_noteq hdc, hdc, wf.mem_iff]
    · intro d
      by_cases hdc : d = c
      · subst hdc; simp; exact (wf.connecting d hc).1
      · simp only [Function.update_noteq hdc]; exact wf.open_closes d
    · intro d
      by_cases hdc : d = c
      · subst hdc; simp
      · simp only [Function.update_noteq hdc]; exact wf.closed_closes d
    · intro d
      by_cases hdc : d = c
      · subst hdc; simp
      · simp only [Function.update_noteq hdc]; exact wf.connecting d
    · intro d
      by_cases hdc : d = c
      · subst hdc; simp; exact wf.bounded d
      · simp only [Function.update_noteq hdc]; exact wf.bounded d
  · exact wf

theorem wellFormed_unregister (c : ConnId) {h : Hub} (wf : h.WellFormed) :
    (unregister c h).WellFormed := by
  unfold unregister
  split
  · rename_i hc
    have hopen := (wf.mem_iff c).mp hc
    refine ⟨?_, ?_, ?_, ?_, ?_, ?_⟩
    · exact wf.nodup.filter _
    · intro d
      by_cases hdc : d = c
      · subst hdc; simp
      · simp [Function.update_noteq hdc, hdc, wf.mem_iff]
    · intro d
      by_cases hdc : d = c
      · subst hdc; simp
      · simp only [Function.update_noteq hdc]; exact wf.open_closes d
    · intro d
      by_cases hdc : d = c
      · subst hdc; simp; exact wf.open_closes d hopen
      · simp only [Function.update_noteq hdc]; exact wf.closed_closes d
    · intro d
      by_cases hdc : d = c
      · subst hdc; simp
      · simp only [Function.update_noteq hdc]; exact wf.connecting d
    · intro d
      by_cases hdc : d = c
      · subst hdc; simp; exact wf.bounded d
      · simp only [Function.update_noteq hdc]; exact wf.bounded d
  · exact wf

theorem wellFormed_broadcast (eventType : String) (payload : JSON) (now : Nat) {h : Hub}
    (wf : h.WellFormed) : (broadcast eventType payload now h).WellFormed := by
  obtain ⟨hcap, hreg, hconns⟩ := broadcast_eq eventType payload now h wf.nodup
  refine ⟨?_, ?_, ?_, ?_, ?_, ?_⟩
  · rw [hreg]; exact wf.nodup.filter _
  · intro d
    rw [hreg, hconns, List.mem_filter]
    by_cases hd : d ∈ h.registry
    · have hopen := (wf.mem_iff d).mp hd
      by_cases hr : h.hasRoom d <;> simp [hd, hr, hopen]
    · have hno : ¬ (h.conns d).state = .Open := fun ho => hd ((wf.mem_iff d).mpr ho)
      simp [hd, hno]
  · intro d
    rw [hconns]
    by_cases hd : d ∈ h.registry
    · by_cases hr : h.hasRoom d
      · simp only [hd, hr, if_true]; exact wf.open_closes d
      · simp [hd, hr]
    · simp only [hd, if_false]; exact wf.open_closes d
  · intro d
    rw [hconns]
    by_cases hd : d ∈ h.registry
    · have hopen := (wf.mem_iff d).mp hd
      by_cases hr : h.hasRoom d
      · simp only [hd, hr, if_true]; exact wf.closed_closes d
      · simp [hd, hr, wf.open_closes d hopen]
    · simp only [hd, if_false]; exact wf.closed_closes d
  · intro d
    rw [hconns]
    by_cases hd : d ∈ h.registry
    · have hopen := (wf.mem_iff d).mp hd
      by_cases hr : h.hasRoom d <;> simp [hd, hr, hopen]
    · simp only [hd, if_false]; exact wf.connecting d
  · intro d
    rw [hconns, hcap]
    by_cases hd : d ∈ h.registry
    · by_cases hr : h.hasRoom d
      · have hlt : (h.conns d).queue.length < h.capacity := by
          simpa [Hub.hasRoom] using hr
        simp only [hd, hr, if_true, List.length_append, List.length_singleton]
        omega
      · simp only [hd, hr, if_true, Bool.false_eq_true, if_false]; exact wf.bounded d
    · simp only [hd, if_false]; exact wf.bounded d

theorem wellFormed_drain (c : ConnId) {h : Hub} (wf : h.WellFormed) :
    (drain c h).WellFormed := by
  unfold drain
  split
  · exact wf
  · rename_i frame rest hq
    have hlen : rest.length ≤ h.capacity := by
      have := wf.bounded c
      rw [hq] at this
      simp only [List.length_cons] at this
      omega
    have hnc : (h.conns c).state ≠ .Connecting := by
      intro hc
      have := (wf.connecting c hc).2.1
      rw [hq] at this
      cases this
    refine ⟨wf.nodup, ?_, ?_, ?_, ?_, ?_⟩
    · intro d
      by_cases hdc : d = c
      · subst hdc; simp; exact wf.mem_iff d
      · simp only [Function.update_noteq hdc]; exact wf.mem_iff d
    · intro d
      by_cases hdc : d = c
      · subst hdc; simp; exact wf.open_closes d
      · simp only [Function.update_noteq hdc]; exact wf.open_closes d
    · intro d
      by_cases hdc : d = c
      · subst hdc; simp; exact wf.closed_closes d
      · simp only [Function.update_noteq hdc]; exact wf.closed_closes d
    · intro d
      by_cases hdc : d = c
      · subst hdc; simp; intro hc; exact absurd hc hnc
      · simp only [Function.update_noteq hdc]; exact wf.connecting d
    · intro d
      by_cases hdc : d = c
      · subst hdc; simp; exact hlen
      · simp only [Function.update_noteq hdc]; exact wf.bounded d

theorem wellFormed_release (c : ConnId) {h : Hub} (wf : h.WellFormed) :
    (release c h).WellFormed := by
  unfold release
  split
  · rename_i hc
    have hcn : c ∉ h.registry := by
      rw [wf.mem_iff, hc]; simp
    refine ⟨wf.nodup, ?_, ?_, ?_, ?_, ?_⟩
    · intro d
      by_cases hdc : d = c
      · subst hdc; simp [hcn]
      · simp only [Function.update_noteq hdc]; exact wf.mem_iff d
    · intro d
      by_cases hdc : d = c
      · subst hdc; simp
      · simp only [Function.update_noteq hdc]; exact wf.open_closes d
    · intro d
      by_cases hdc : d = c
      · subst hdc; simp; exact wf.closed_closes d (.inl hc)
      · simp only [Function.update_noteq hdc]; exact wf.closed_closes d
    · intro d
      by_cases hdc : d = c
      · subst hdc; simp
      · simp only [Function.update_noteq hdc]; exact wf.connecting d
    · intro d
      by_cases hdc : d = c
      · subst hdc; simp
      · simp only [Function.update_noteq hdc]; exact wf.bounded d
  · exact wf

theorem wellFormed_step (op : Op) {h : Hub} (wf : h.WellFormed) :
    (step h op).WellFormed := by
  cases op with
  | register c => exact wellFormed_register c wf
  | unregister c => exact wellFormed_unregister c wf
  | broadcast eventType payload now => exact wellFormed_broadcast eventType payload now wf
  | close c => exact wellFormed_unregister c wf
  | drain c => exact wellFormed_drain c wf
  | release c => exact wellFormed_release c wf

theorem wellFormed_run (ops : List Op) {h : Hub} (wf : h.WellFormed) :
    (run ops h).WellFormed := by
  induction ops generalizing h with
  | nil => exact wf
  | cons op ops ih => exact ih (wellFormed_step op wf)

/-- One step of the event loop, seen from a connection that is registered before and
after it: a broadcast appends its frame to what the connection has received, any other
step leaves that unchanged. -/
theorem step_received (op : Op) {h : Hub} (wf : h.WellFormed) (c : ConnId)
    (hc : c ∈ h.registry) (hc' : c ∈ (step h op).registry) :
    ((step h op).conns c).received = (h.conns c).received ++ framesOf [op] := by
  have hopen := (wf.mem_iff c).mp hc
  have hunreg : ∀ d, c ∈ (unregister d h).registry →
      ((unregister d h).conns c).received = (h.conns c).received ++ [] := by
    intro d hmem
    rw [unregister_registry] at hmem
    have hcd : c ≠ d := by simpa using (List.mem_filter.mp hmem).2
    rw [unregister_conns_ne d c h hcd, List.append_nil]
  cases op with
  | register d =>
    simp only [step, register, framesOf, List.append_nil]
    split
    · rename_i hd
      have hcd : c ≠ d := by rintro rfl; rw [hopen] at hd; cases hd
      simp [Function.update_noteq hcd]
    · rfl
  | unregister d => exact hunreg d hc'
  | close d => exact hunreg d hc'
  | broadcast eventType payload now =>
    obtain ⟨_, hreg, hconns⟩ := broadcast_eq eventType payload now h wf.nodup
    simp only [step] at hc' ⊢
    rw [hreg] at hc'
    have hroom : h.hasRoom c = true := (List.mem_filter.mp hc').2
    rw [hconns]
    simp [hc, hroom, framesOf, Connection.received]
  | drain d =>
    simp only [step, drain, framesOf, List.append_nil]
    split
    · rfl
    · rename_i frame rest hq
      by_cases hcd : c = d
      · subst hcd; simp [Connection.received, hq]
      · simp [Function.update_noteq hcd]
  | release d =>
    simp only [step, release, framesOf, List.append_nil]
    split
    · rename_i hd
      have hcd : c ≠ d := by rintro rfl; rw [hopen] at hd; cases hd
      simp [Function.update_noteq hcd]
    · rfl

theorem framesOf_cons (op : Op) (ops : List Op) :
    framesOf (op :: ops) = framesOf [op] ++ framesOf ops := by
  cases op <;> rfl

/-- A connection that stays registered over some operations receives the frames of
their broadcasts, in order. -/
theorem run_received (ops : List Op) {h : Hub} (wf : h.WellFormed) (c : ConnId)
    (hc : ∀ k, k ≤ ops.length → c ∈ (run (ops.take k) h).registry) :
    ((run ops h).conns c).received = (h.conns c).received ++ framesOf ops := by
  induction ops generalizing h with
  | nil => simp [run, framesOf]
  | cons op ops ih =>
    have h0 : c ∈ h.registry := hc 0 (Nat.zero_le _)
    have h1 : c ∈ (step h op).registry := by
      simpa [run] using hc 1 (by simp)
    have hrest : ∀ k, k ≤ ops.length → c ∈ (run (ops.take k) (step h op)).registry := by
      intro k hk
      simpa [run] using hc (k + 1) (by simpa using hk)
    have := ih (wellFormed_step op wf) hrest
    rw [framesOf_cons, ← List.append_assoc, ← step_received op wf c h0 h1]
    simpa [run] using this

/-- One step of the event loop, seen from a connection that has left the registry
(`Closing` or `Closed`): it stays out, its queue stays closed, and it receives
nothing more. -/
theorem step_closed (op : Op) {h : Hub} (wf : h.WellFormed) (c : ConnId)
    (hc : (h.conns c).state = .Closing ∨ (h.conns c).state = .Closed) :
    (((step h op).conns c).state = .Closing ∨ ((step h op).conns c).state = .Closed) ∧
      ((step h op).conns c).received <+: (h.conns c).received ∧
      ((step h op).conns c).queue <:+ (h.conns c).queue := by
  have hcn : c ∉ h.registry := by
    rw [wf.mem_iff]; rcases hc with hc | hc <;> rw [hc] <;> simp
  have hunreg : ∀ d, (unregister d h).conns c = h.conns c := by
    intro d
    by_cases hcd : c = d
    · subst hcd; simp [unregister, hcn]
    · exact unregister_conns_ne d c h hcd
  have same : ∀ h' : Hub, h'.conns c = h.conns c →
      ((h'.conns c).state = .Closing ∨ (h'.conns c).state = .Closed) ∧
        (h'.conns c).received <+: (h.conns c).received ∧
        (h'.conns c).queue <:+ (h.conns c).queue := by
    intro h' he
    rw [he]
    exact ⟨hc, List.prefix_refl _, List.suffix_refl _⟩
  cases op with
  | register d =>
    apply same
    simp only [step, register]
    split
    · rename_i hd
      have hcd : c ≠ d := by
        rintro rfl
        rcases hc with hc | hc <;> rw [hc] at hd <;> cases hd
      simp [Function.update_noteq hcd]
    · rfl
  | unregister d => exact same _ (hunreg d)
  | close d => exact same _ (hunreg d)
  | broadcast eventType payload now =>
    apply same
    obtain ⟨_, _, hconns⟩ := broadcast_eq eventType payload now h wf.nodup
    simp only [step]
    rw [hconns, if_neg hcn]
  | drain d =>
    simp only [step, drain]
    split
    · exact same _ rfl
    · rename_i frame rest hq
      by_cases hcd : c = d
      · subst hcd
        simp only [Function.update_same, Connection.received, hq]
        refine ⟨hc, ?_, List.suffix_cons _ _⟩
        simp
      · exact same _ (by simp [Function.update_noteq hcd])
  | release d =>
    simp only [step, release]
    split
    · by_cases hcd : c = d
      · subst hcd
        refine ⟨?_, ?_, ?_⟩
        · simp
        · simp [Connection.received]
        · simp
      · exact same _ (by simp [Function.update_noteq hcd])
    · exact same _ rfl

/-- A connection that has left the registry stays out over any operations and receives
nothing more. -/
theorem run_closed (ops : List Op) {h : Hub} (wf : h.WellFormed) (c : ConnId)
    (hc : (h.conns c).state = .Closing ∨ (h.conns c).state = .Closed) :
    (((run ops h).conns c).state = .Closing ∨ ((run ops h).conns c).state = .Closed) ∧
      ((run ops h).conns c).received <+: (h.conns c).received ∧
      ((run ops h).conns c).queue <:+ (h.conns c).queue := by
  induction ops generalizing h with
  | nil => exact ⟨hc, List.prefix_refl _, List.suffix_refl _⟩
  | cons op ops ih =>
    obtain ⟨s1, p1, q1⟩ := step_closed op wf c hc
    obtain ⟨s2, p2, q2⟩ := ih (wellFormed_step op wf) s1
    exact ⟨s2, p2.trans p1, q2.trans q1⟩

theorem foldl_deliver_capacity (frame : Frame) (l : List ConnId) (h : Hub) :
    (l.foldl (deliver frame) h).capacity = h.capacity := by
  induction l generalizing h with
  | nil => rfl
  | cons c l ih => rw [List.foldl_cons, ih, deliver_capacity]

theorem step_capacity (op : Op) (h : Hub) : (step h op).capacity = h.capacity := by
  cases op with
  | register c => simp only [step, register]; split <;> rfl
  | unregister c => exact unregister_capacity c h
  | broadcast eventType payload now =>
    exact foldl_deliver_capacity (encode eventType payload now) h.registry h
  | close c => exact unregister_capacity c h
  | drain c => simp only [step, drain]; split <;> rfl
  | release c => simp only [step, release]; split <;> rfl

theorem run_capacity (ops : List Op) (h : Hub) : (run ops h).capacity = h.capacity := by
  induction ops generalizing h with
  | nil => rfl
  | cons op ops ih => exact (ih (step h op)).trans (step_capacity op h)

theorem length_framesOf (ops : List Op) :
    (framesOf ops).length = ops.countP Op.isBroadcast := by
  induction ops with
  | nil => rfl
  | cons op ops ih => cases op <;> simp [framesOf, Op.isBroadcast, ih]

/-- C3. Hub ordering.  From any state the hub can reach, over any further operations:
a connection that is in the registry at every point of them (so neither unregistered
nor ejected) has received, at the end, what it had received before followed by exactly
the frames of the broadcasts among the operations, one per broadcast, in the order of
issue.  Two such connections therefore get the same frames in the same order. -/
theorem broadcast_order (capacity : Nat) (before ops : List Op) (c d : ConnId)
    (hc : ∀ k, k ≤ ops.length →
      c ∈ (run (ops.take k) (run before (NewHub capacity))).registry)
    (hd : ∀ k, k ≤ ops.length →
      d ∈ (run (ops.take k) (run before (NewHub capacity))).registry) :
    ((run ops (run before (NewHub capacity))).conns c).received =
      ((run before (NewHub capacity)).conns c).received ++ framesOf ops ∧
    ((run ops (run before (NewHub capacity))).conns d).received =
      ((run before (NewHub capacity)).conns d).received ++ framesOf ops ∧
    (framesOf ops).length = ops.countP Op.isBroadcast :=
  ⟨run_received ops (wellFormed_run before (wellFormed_NewHub capacity)) c hc,
    run_received ops (wellFormed_run before (wellFormed_NewHub capacity)) d hd,
    length_framesOf ops⟩

/-- C3 on scenario B: A (0) and B (1) are registered, two broadcasts with distinct
payloads follow back-to-back; both have received both frames, in the order of issue. -/
theorem broadcast_order_witness :
    ((run [.broadcast "ticket:created" (.string "t1") 10,
            .broadcast "ticket:updated" (.string "t2") 11]
        (run [.register 0, .register 1] (NewHub 4))).conns 0).received =
      ((run [.register 0, .register 1] (NewHub 4)).conns 0).received ++
        framesOf [.broadcast "ticket:created" (.string "t1") 10,
          .broadcast "ticket:updated" (.string "t2") 11] ∧
    ((run [.broadcast "ticket:created" (.string "t1") 10,
            .broadcast "ticket:updated" (.string "t2") 11]
        (run [.register 0, .register 1] (NewHub 4))).conns 1).received =
      ((run [.register 0, .register 1] (NewHub 4)).conns 1).received ++
        framesOf [.broadcast "ticket:created" (.string "t1") 10,
          .broadcast "ticket:updated" (.string "t2") 11] ∧
    (framesOf [.broadcast "ticket:created" (.string "t1") 10,
        .broadcast "ticket:updated" (.string "t2") 11]).length =
      [Op.broadcast "ticket:created" (.string "t1") 10,
        Op.broadcast "ticket:updated" (.string "t2") 11].countP Op.isBroadcast :=
  broadcast_order 4 [.register 0, .register 1]
    [.broadcast "ticket:created" (.string "t1") 10,
      .broadcast "ticket:updated" (.string "t2") 11] 0 1 (by decide) (by decide)

/-- C4. Hub backpressure.  In any state the hub can reach, a broadcast treats each
registered connection by its own queue alone: one whose queue is full is ejected (it
leaves the registry, its queue is closed and has not grown), one whose queue has room
stays registered and gets the frame at the end of its queue, however many others were
ejected by the same broadcast.  The broadcast always yields the next state (it cannot
block), and in no reachable state is a queue longer than the capacity. -/
theorem broadcast_backpressure (capacity : Nat) (before : List Op) (eventType : String)
    (payload : JSON) (now : Nat) :
    (∀ c, c ∈ (run before (NewHub capacity)).registry →
      capacity ≤ ((run before (NewHub capacity)).conns c).queue.length →
      c ∉ (step (run before (NewHub capacity)) (.broadcast eventType payload now)).registry ∧
      ((step (run before (NewHub capacity)) (.broadcast eventType payload now)).conns c).queueClosed
        = true ∧
      ((step (run before (NewHub capacity)) (.broadcast eventType payload now)).conns c).state
        = .Closing ∧
      ((step (run before (NewHub capacity)) (.broadcast eventType payload now)).conns c).queue
        = ((run before (NewHub capacity)).conns c).queue) ∧
    (∀ c, c ∈ (run before (NewHub capacity)).registry →
      ((run before (NewHub capacity)).conns c).queue.length < capacity →
      c ∈ (step (run before (NewHub capacity)) (.broadcast eventType payload now)).registry ∧
      ((step (run before (NewHub capacity)) (.broadcast eventType payload now)).conns c).queue
        = ((run before (NewHub capacity)).conns c).queue ++ [encode eventType payload now]) ∧
    (∀ c, ((run before (NewHub capacity)).conns c).queue.length ≤ capacity) := by
  have wf := wellFormed_run before (wellFormed_NewHub capacity)
  have hcap : (run before (NewHub capacity)).capacity = capacity := run_capacity before _
  obtain ⟨_, hreg, hconns⟩ :=
    broadcast_eq eventType payload now (run before (NewHub capacity)) wf.nodup
  refine ⟨?_, ?_, ?_⟩
  · intro c hc hfull
    have hroom : (run before (NewHub capacity)).hasRoom c = false := by
      simp only [Hub.hasRoom, hcap, decide_eq_false_iff_not]; omega
    have hcl := wf.open_closes c ((wf.mem_iff c).mp hc)
    simp only [step]
    rw [hreg, hconns]
    simp [hc, hroom, List.mem_filter, Connection.queueClosed, hcl]
  · intro c hc hlt
    have hroom : (run before (NewHub capacity)).hasRoom c = true := by
      simp only [Hub.hasRoom, hcap, decide_eq_true_eq]; exact hlt
    simp only [step]
    rw [hreg, hconns]
    simp [hc, hroom, List.mem_filter]
  · intro c
    have := wf.bounded c
    rwa [hcap] at this

/-- C4 on a run: with capacity 1, A (0) and B (1) registered, one broadcast delivered
and only B's writer having drained it, the next broadcast finds A's queue full and B's
empty: A is ejected, B gets the frame. -/
theorem broadcast_backpressure_witness :
    (0 ∉ (step (run [.register 0, .register 1, .broadcast "ticket:created" (.string "t1") 10,
        .drain 1] (NewHub 1)) (.broadcast "ticket:updated" (.string "t1") 11)).registry ∧
      ((step (run [.register 0, .register 1, .broadcast "ticket:created" (.string "t1") 10,
        .drain 1] (NewHub 1)) (.broadcast "ticket:updated" (.string "t1") 11)).conns 0).queueClosed
        = true ∧
      ((step (run [.register 0, .register 1, .broadcast "ticket:created" (.string "t1") 10,
        .drain 1] (NewHub 1)) (.broadcast "ticket:updated" (.string "t1") 11)).conns 0).state
        = .Closing ∧
      ((step (run [.register 0, .register 1, .broadcast "ticket:created" (.string "t1") 10,
        .drain 1] (NewHub 1)) (.broadcast "ticket:updated" (.string "t1") 11)).conns 0).queue
        = ((run [.register 0, .register 1, .broadcast "ticket:created" (.string "t1") 10,
        .drain 1] (NewHub 1)).conns 0).queue) ∧
    (1 ∈ (step (run [.register 0, .register 1, .broadcast "ticket:created" (.string "t1") 10,
        .drain 1] (NewHub 1)) (.broadcast "ticket:updated" (.string "t1") 11)).registry ∧
      ((step (run [.register 0, .register 1, .broadcast "ticket:created" (.string "t1") 10,
        .drain 1] (NewHub 1)) (.broadcast "ticket:updated" (.string "t1") 11)).conns 1).queue
        = ((run [.register 0, .register 1, .broadcast "ticket:created" (.string "t1") 10,
        .drain 1] (NewHub 1)).conns 1).queue ++ [encode "ticket:updated" (.string "t1") 11]) :=
  ⟨(broadcast_backpressure 1 [.register 0, .register 1,
      .broadcast "ticket:created" (.string "t1") 10, .drain 1]
      "ticket:updated" (.string "t1") 11).1 0 (by decide) (by decide),
    (broadcast_backpressure 1 [.register 0, .register 1,
      .broadcast "ticket:created" (.string "t1") 10, .drain 1]
      "ticket:updated" (.string "t1") 11).2.1 1 (by decide) (by decide)⟩

/-- C4 as stated fails where two registered connections are saturated at once: in
`bothSaturated` the broadcast reaches A (0), whose queue is full, and B (1), another
registered connection, does not receive the frame: its queue is full as well, so it is
ejected too and has received nothing new. -/
theorem broadcast_backpressure_counterexample :
    0 ∈ bothSaturated.registry ∧ 1 ∈ bothSaturated.registry ∧
    bothSaturated.capacity ≤ (bothSaturated.conns 0).queue.length ∧
    ((step bothSaturated (.broadcast "ticket:updated" (.string "t1") 11)).conns 1).received ≠
      (bothSaturated.conns 1).received ++ [encode "ticket:updated" (.string "t1") 11] ∧
    ((step bothSaturated (.broadcast "ticket:updated" (.string "t1") 11)).conns 1).received =
      (bothSaturated.conns 1).received ∧
    1 ∉ (step bothSaturated (.broadcast "ticket:updated" (.string "t1") 11)).registry := by
  refine ⟨by decide, by decide, by decide, ?_, rfl, by decide⟩
  intro h
  have hlen := congrArg List.length h
  revert hlen
  decide

/-- C5. A connection the event loop has unregistered receives nothing more.  From any
state the hub can reach with the connection registered, after its unregistration and
over any further operations: it is not in the registry, its queue is closed, what it
has received is an initial part of what it had received when it was unregistered, and
its queue holds no frame that was not already queued then. -/
theorem unregistered_receives_nothing (capacity : Nat) (before ops : List Op) (c : ConnId)
    (hc : c ∈ (run before (NewHub capacity)).registry) :
    c ∉ (run ops (step (run before (NewHub capacity)) (.unregister c))).registry ∧
    ((run ops (step (run before (NewHub capacity)) (.unregister c))).conns c).queueClosed = true ∧
    ((run ops (step (run before (NewHub capacity)) (.unregister c))).conns c).received <+:
      ((step (run before (NewHub capacity)) (.unregister c)).conns c).received ∧
    ((run ops (step (run before (NewHub capacity)) (.unregister c))).conns c).queue <:+
      ((step (run before (NewHub capacity)) (.unregister c)).conns c).queue := by
  have wf := wellFormed_run before (wellFormed_NewHub capacity)
  have wf1 := wellFormed_step (.unregister c) wf
  have hst : ((step (run before (NewHub capacity)) (.unregister c)).conns c).state = .Closing := by
    simp [step, unregister, hc]
  obtain ⟨hs, hp, hq⟩ := run_closed ops wf1 c (.inl hst)
  have wf2 := wellFormed_run ops wf1
  refine ⟨?_, ?_, hp, hq⟩
  · rw [wf2.mem_iff]
    rcases hs with hs | hs <;> rw [hs] <;> simp
  · simp [Connection.queueClosed, wf2.closed_closes c hs]

/-- C5 on scenario C: register A (0), unregister A, then broadcast "ticket:deleted"
with payload "t1": A is out of the registry, its queue is closed and empty. -/
theorem unregistered_receives_nothing_witness :
    (0 ∉ (run [.broadcast "ticket:deleted" (.string "t1") 7]
        (step (run [.register 0] (NewHub 4)) (.unregister 0))).registry ∧
      ((run [.broadcast "ticket:deleted" (.string "t1") 7]
        (step (run [.register 0] (NewHub 4)) (.unregister 0))).conns 0).queueClosed = true ∧
      ((run [.broadcast "ticket:deleted" (.string "t1") 7]
        (step (run [.register 0] (NewHub 4)) (.unregister 0))).conns 0).received <+:
        ((step (run [.register 0] (NewHub 4)) (.unregister 0)).conns 0).received ∧
      ((run [.broadcast "ticket:deleted" (.string "t1") 7]
        (step (run [.register 0] (NewHub 4)) (.unregister 0))).conns 0).queue <:+
        ((step (run [.register 0] (NewHub 4)) (.unregister 0)).conns 0).queue) ∧
    ((run [.broadcast "ticket:deleted" (.string "t1") 7]
      (step (run [.register 0] (NewHub 4)) (.unregister 0))).conns 0).queue = [] :=
  ⟨unregistered_receives_nothing 4 [.register 0]
      [.broadcast "ticket:deleted" (.string "t1") 7] 0 (by decide), rfl⟩

/-- C6. Registry invariant.  In every state the hub reaches from `NewHub` by any
sequence of registrations, unregistrations, broadcasts (with their ejections),
connection closes, writer steps and releases: a connection is in the registry exactly
when it is `Open`; an `Open` connection has a queue that is not closed, and a queue is
closed exactly when its connection is `Closing` or `Closed`; and `Open` is what makes
a connection eligible: a broadcast leaves every connection that is not `Open`
untouched and puts its frame on the queue of every `Open` one that has room. -/
theorem registry_iff_open (capacity : Nat) (ops : List Op) (c : ConnId) :
    (c ∈ (run ops (NewHub capacity)).registry ↔
      ((run ops (NewHub capacity)).conns c).state = .Open) ∧
    (((run ops (NewHub capacity)).conns c).state = .Open →
      ((run ops (NewHub capacity)).conns c).queueClosed = false) ∧
    (((run ops (NewHub capacity)).conns c).queueClosed = true ↔
      (((run ops (NewHub capacity)).conns c).state = .Closing ∨
        ((run ops (NewHub capacity)).conns c).state = .Closed)) ∧
    (∀ eventType payload now,
      (((run ops (NewHub capacity)).conns c).state ≠ .Open →
        (step (run ops (NewHub capacity)) (.broadcast eventType payload now)).conns c =
          (run ops (NewHub capacity)).conns c) ∧
      (((run ops (NewHub capacity)).conns c).state = .Open →
        ((run ops (NewHub capacity)).conns c).queue.length < capacity →
        ((step (run ops (NewHub capacity)) (.broadcast eventType payload now)).conns c).queue =
          ((run ops (NewHub capacity)).conns c).queue ++ [encode eventType payload now])) := by
  have wf := wellFormed_run ops (wellFormed_NewHub capacity)
  have hcap : (run ops (NewHub capacity)).capacity = capacity := run_capacity ops _
  refine ⟨wf.mem_iff c, ?_, ?_, ?_⟩
  · intro ho
    simp [Connection.queueClosed, wf.open_closes c ho]
  · constructor
    · intro hq
      cases hs : ((run ops (NewHub capacity)).conns c).state with
      | Connecting => simp [Connection.queueClosed, (wf.connecting c hs).1] at hq
      | Open => simp [Connection.queueClosed, wf.open_closes c hs] at hq
      | Closing => exact .inl rfl
      | Closed => exact .inr rfl
    · intro hs
      simp [Connection.queueClosed, wf.closed_closes c hs]
  · intro eventType payload now
    obtain ⟨_, _, hconns⟩ :=
      broadcast_eq eventType payload now (run ops (NewHub capacity)) wf.nodup
    constructor
    · intro hno
      have hcn : c ∉ (run ops (NewHub capacity)).registry := fun hm => hno ((wf.mem_iff c).mp hm)
      simp only [step]
      rw [hconns, if_neg hcn]
    · intro ho hlt
      have hroom : (run ops (NewHub capacity)).hasRoom c = true := by
        simp only [Hub.hasRoom, hcap, decide_eq_true_eq]; exact hlt
      simp only [step]
      rw [hconns]
      simp [(wf.mem_iff c).mpr ho, hroom]

/-- C6 on a run: after A (0) and B (1) register and A closes from its own side, B is
`Open` with an open queue and takes the next broadcast, A is not. -/
theorem registry_iff_open_witness :
    ((run [.register 0, .register 1, .close 0] (NewHub 2)).conns 1).queueClosed = false ∧
    (step (run [.register 0, .register 1, .close 0] (NewHub 2))
        (.broadcast "ticket:created" (.string "t1") 3)).conns 0 =
      (run [.register 0, .register 1, .close 0] (NewHub 2)).conns 0 ∧
    ((step (run [.register 0, .register 1, .close 0] (NewHub 2))
        (.broadcast "ticket:created" (.string "t1") 3)).conns 1).queue =
      ((run [.register 0, .register 1, .close 0] (NewHub 2)).conns 1).queue ++
        [encode "ticket:created" (.string "t1") 3] :=
  ⟨(registry_iff_open 2 [.register 0, .register 1, .close 0] 1).2.1 (by decide),
    ((registry_iff_open 2 [.register 0, .register 1, .close 0] 0).2.2.2
      "ticket:created" (.string "t1") 3).1 (by decide),
    ((registry_iff_open 2 [.register 0, .register 1, .close 0] 1).2.2.2
      "ticket:created" (.string "t1") 3).2 (by decide) (by decide)⟩

theorem unregister_unregister (c : ConnId) (h : Hub) :
    unregister c (unregister c h) = unregister c h := by
  have hout : c ∉ (unregister c h).registry := by
    rw [unregister_registry]
    simp
  conv_lhs => rw [unregister]
  rw [if_neg hout]

/-- C7. Unregister is idempotent.  In any hub state: unregistering a connection that
is not in the registry changes nothing (registry, queues and the count of queue closes
included), and unregistering twice gives the same state as unregistering once.  In
every state the hub can reach no queue has been closed more than once. -/
theorem unregister_idempotent (h : Hub) (c : ConnId) :
    (c ∉ h.registry → step h (.unregister c) = h) ∧
    step (step h (.unregister c)) (.unregister c) = step h (.unregister c) ∧
    (∀ capacity ops d, ((run ops (NewHub capacity)).conns d).closes ≤ 1) := by
  refine ⟨?_, unregister_unregister c h, ?_⟩
  · intro hc
    simp [step, unregister, hc]
  · intro capacity ops d
    have wf := wellFormed_run ops (wellFormed_NewHub capacity)
    cases hs : ((run ops (NewHub capacity)).conns d).state with
    | Connecting => rw [(wf.connecting d hs).1]; omega
    | Open => rw [wf.open_closes d hs]; omega
    | Closing => rw [wf.closed_closes d (.inl hs)]
    | Closed => rw [wf.closed_closes d (.inr hs)]

/-- C7 on a run: once A (0) has been registered and unregistered, a second
unregistration leaves the hub as it is. -/
theorem unregister_idempotent_witness :
    step (run [.register 0, .unregister 0] (NewHub 4)) (.unregister 0) =
      run [.register 0, .unregister 0] (NewHub 4) :=
  (unregister_idempotent (run [.register 0, .unregister 0] (NewHub 4)) 0).1 (by decide)

/-- C8. Envelope codec.  The frame of `Broadcast(eventType, payload)` has `type` equal
to the event type and `payload` equal to the payload; in any state the hub can reach,
a broadcast puts that one frame at the end of the queue of every registered connection
that has room, so all recipients get the identical frame.  With a capacity of at least
one, register A then `Broadcast("ticket:created", {id: "t1"})` leaves A with exactly
one frame, of type "ticket:created" and payload `{id: "t1"}`. -/
theorem broadcast_frame (capacity : Nat) (before : List Op) (eventType : String)
    (payload : JSON) (now : Nat) :
    (encode eventType payload now).type = eventType ∧
    (encode eventType payload now).payload = payload ∧
    (∀ c, c ∈ (run before (NewHub capacity)).registry →
      ((run before (NewHub capacity)).conns c).queue.length < capacity →
      ((step (run before (NewHub capacity)) (.broadcast eventType payload now)).conns c).received =
        ((run before (NewHub capacity)).conns c).received ++ [encode eventType payload now]) ∧
    (∀ A, 0 < capacity →
      ((run [.register A,
          .broadcast "ticket:created" (.object [("id", .string "t1")]) now]
        (NewHub capacity)).conns A).received =
        [{ type := "ticket:created", payload := .object [("id", .string "t1")],
           timestamp := now }]) := by
  have wf := wellFormed_run before (wellFormed_NewHub capacity)
  have hcap : (run before (NewHub capacity)).capacity = capacity := run_capacity before _
  refine ⟨rfl, rfl, ?_, ?_⟩
  · intro c hc hlt
    obtain ⟨_, _, hconns⟩ :=
      broadcast_eq eventType payload now (run before (NewHub capacity)) wf.nodup
    have hroom : (run before (NewHub capacity)).hasRoom c = true := by
      simp only [Hub.hasRoom, hcap, decide_eq_true_eq]; exact hlt
    simp only [step]
    rw [hconns]
    simp [hc, hroom, Connection.received]
  · intro A hpos
    simp [run, step, register, broadcast, deliver, Hub.hasRoom, NewHub, Connection.fresh,
      Connection.received, encode, hpos]

/-- C8 on scenario A with capacity 4 and connection 0, and on a hub with two registered
connections, which both get the one encoded frame. -/
theorem broadcast_frame_witness :
    ((run [.register 0, .broadcast "ticket:created" (.object [("id", .string "t1")]) 9]
        (NewHub 4)).conns 0).received =
      [{ type := "ticket:created", payload := .object [("id", .string "t1")],
         timestamp := 9 }] ∧
    ((step (run [.register 0, .register 1] (NewHub 4))
        (.broadcast "ticket:created" (.object [("id", .string "t1")]) 9)).conns 0).received =
      ((run [.register 0, .register 1] (NewHub 4)).conns 0).received ++
        [encode "ticket:created" (.object [("id", .string "t1")]) 9] ∧
    ((step (run [.register 0, .register 1] (NewHub 4))
        (.broadcast "ticket:created" (.object [("id", .string "t1")]) 9)).conns 1).received =
      ((run [.register 0, .register 1] (NewHub 4)).conns 1).received ++
        [encode "ticket:created" (.object [("id", .string "t1")]) 9] :=
  ⟨(broadcast_frame 4 [] "" .null 9).2.2.2 0 (by decide),
    (broadcast_frame 4 [.register 0, .register 1] "ticket:created"
      (.object [("id", .string "t1")]) 9).2.2.1 0 (by decide) (by decide),
    (broadcast_frame 4 [.register 0, .register 1] "ticket:created"
      (.object [("id", .string "t1")]) 9).2.2.1 1 (by decide) (by decide)⟩

end websocket

/-! ## AssignTechnician, case by case -/

namespace service

open domain repository

variable {σ : Type}

/-- `AssignTechnician` when the ticket lookup fails. -/
theorem AssignTechnician_ticket_error (s : ticketService σ) (ticketID techID assignerID : UUID)
    (w : World σ) (err : Err) (h : (s.repo.FindByID ticketID w.db).1 = .error err) :
    s.AssignTechnician ticketID techID assignerID w =
      (some err,
        { w with
          db := (s.repo.FindByID ticketID w.db).2,
          trace := w.trace ++ [Call.ticketFindByID ticketID (.error err)] }) := by
  simp only [ticketService.AssignTechnician, repoFindByID, h]

/-- `AssignTechnician` when the ticket is found and the user lookup fails. -/
theorem AssignTechnician_user_error (s : ticketService σ) (ticketID techID assignerID : UUID)
    (w : World σ) (ticket : Ticket) (err : Err)
    (h : (s.repo.FindByID ticketID w.db).1 = .ok ticket)
    (hu : (s.userRepo.FindByID techID (s.repo.FindByID ticketID w.db).2).1 = .error err) :
    s.AssignTechnician ticketID techID assignerID w =
      (some "technician not found",
        { w with
          db := (s.userRepo.FindByID techID (s.repo.FindByID ticketID w.db).2).2,
          trace := w.trace ++ [Call.ticketFindByID ticketID (.ok ticket),
            Call.userFindByID techID (.error err)] }) := by
  simp [ticketService.AssignTechnician, repoFindByID, userRepoFindByID, h, hu]

/-- `AssignTechnician` when ticket and user are found and the user is neither a
technician nor an administrator. -/
theorem AssignTechnician_not_technician (s : ticketService σ)
    (ticketID techID assignerID : UUID) (w : World σ) (ticket : Ticket) (tech : User)
    (h : (s.repo.FindByID ticketID w.db).1 = .ok ticket)
    (hu : (s.userRepo.FindByID techID (s.repo.FindByID ticketID w.db).2).1 = .ok tech)
    (hrole : tech.Role ≠ RoleTechnician ∧ tech.Role ≠ RoleAdmin) :
    s.AssignTechnician ticketID techID assignerID w =
      (some "assigned user is not a technician",
        { w with
          db := (s.userRepo.FindByID techID (s.repo.FindByID ticketID w.db).2).2,
          trace := w.trace ++ [Call.ticketFindByID ticketID (.ok ticket),
            Call.userFindByID techID (.ok tech)] }) := by
  simp [ticketService.AssignTechnician, repoFindByID, userRepoFindByID, h, hu, hrole]

theorem notify_eq (s : ticketService σ) (eventType : String) (payload : Payload)
    (w : World σ) :
    notify s eventType payload w =
      { w with trace := w.trace ++ notifyCalls s.hub eventType payload } := by
  unfold notify notifyCalls
  cases s.hub <;> simp [Broadcast]

/-- `AssignTechnician` when ticket and user are found and the user is a technician or
an administrator: the ticket handed to `Update`, and the notification when the write
returned nil. -/
theorem AssignTechnician_assigned (s : ticketService σ) (ticketID techID assignerID : UUID)
    (w : World σ) (ticket : Ticket) (tech : User)
    (h : (s.repo.FindByID ticketID w.db).1 = .ok ticket)
    (hu : (s.userRepo.FindByID techID (s.repo.FindByID ticketID w.db).2).1 = .ok tech)
    (hrole : ¬ (tech.Role ≠ RoleTechnician ∧ tech.Role ≠ RoleAdmin)) :
    s.AssignTechnician ticketID techID assignerID w =
      ((s.repo.Update
          { ticket with
            AssignedToID := some techID, Status := StatusInProgress,
            UpdatedAt := w.clock w.tick }
          (s.userRepo.FindByID techID (s.repo.FindByID ticketID w.db).2).2).1.1,
        { db := (s.repo.Update
            { ticket with
              AssignedToID := some techID, Status := StatusInProgress,
              UpdatedAt := w.clock w.tick }
            (s.userRepo.FindByID techID (s.repo.FindByID ticketID w.db).2).2).2,
          clock := w.clock,
          tick := w.tick + 1,
          trace := w.trace ++ ([Call.ticketFindByID ticketID (.ok ticket),
            Call.userFindByID techID (.ok tech),
            Call.ticketUpdate
              { ticket with
                AssignedToID := some techID, Status := StatusInProgress,
                UpdatedAt := w.clock w.tick }
              (s.repo.Update
                { ticket with
                  AssignedToID := some techID, Status := StatusInProgress,
                  UpdatedAt := w.clock w.tick }
                (s.userRepo.FindByID techID (s.repo.FindByID ticketID w.db).2).2).1.1] ++
            match (s.repo.Update
                { ticket with
                  AssignedToID := some techID, Status := StatusInProgress,
                  UpdatedAt := w.clock w.tick }
                (s.userRepo.FindByID techID (s.repo.FindByID ticketID w.db).2).2).1.1 with
            | none => notifyCalls s.hub "ticket:updated" (Payload.ticket (s.repo.Update
                { ticket with
                  AssignedToID := some techID, Status := StatusInProgress,
                  UpdatedAt := w.clock w.tick }
                (s.userRepo.FindByID techID (s.repo.FindByID ticketID w.db).2).2).1.2)
            | some _ => []) }) := by
  simp only [ticketService.AssignTechnician, repoFindByID, userRepoFindByID, h, hu, hrole,
    if_false, timeNow, repoUpdate, notify_eq]
  split <;> rename_i he <;> simp [he]

end service

namespace service

open domain repository

variable {σ : Type}

theorem applyTitle_Status (updates : Updates) (ticket : Ticket) :
    (applyTitle updates ticket).Status = ticket.Status := by
  unfold applyTitle; split <;> rfl

theorem applyDescription_Status (updates : Updates) (ticket : Ticket) :
    (applyDescription updates ticket).Status = ticket.Status := by
  unfold applyDescription; split <;> rfl

theorem applyPriority_Status (updates : Updates) (ticket : Ticket) :
    (applyPriority updates ticket).Status = ticket.Status := by
  unfold applyPriority; split <;> rfl

theorem applyStatus_Status (updates : Updates) (ticket : Ticket) (w : World σ) :
    (applyStatus updates ticket w).1.Status =
      match updates.getString "status" with
      | some status => status
      | none => ticket.Status := by
  simp only [applyStatus, timeNow]
  split
  · split_ifs <;> rfl
  · rfl

/-- The one ticket `Update` hands to the repository when the lookup succeeds: its
status is the string under "status" in the updates when there is one, the stored status
otherwise. -/
theorem Update_written (s : ticketService σ) (id : UUID) (updates : Updates)
    (editorID : UUID) (w : World σ) (stored : Ticket)
    (h : (s.repo.FindByID id w.db).1 = .ok stored) :
    ∃ calls, (s.Update id updates editorID w).2.trace = w.trace ++ calls ∧
      ∃ t, writtenTickets calls = [t] ∧
        t.Status = match updates.getString "status" with
          | some status => status
          | none => stored.Status := by
  have hst : ∀ w' : World σ,
      (applyPriority updates
        (applyStatus updates (applyDescription updates (applyTitle updates stored)) w').1).Status =
      match updates.getString "status" with
        | some status => status
        | none => stored.Status := by
    intro w'
    rw [applyPriority_Status, applyStatus_Status, applyDescription_Status, applyTitle_Status]
  simp only [ticketService.Update, repoFindByID, h, timeNow, repoUpdate, applyStatus_trace,
    applyStatus_db, notify_eq]
  split
  · simp only [List.append_assoc, List.singleton_append]
    refine ⟨_, rfl, ?_⟩
    simp only [List.cons_append, List.nil_append, writtenTickets]
    refine ⟨_, rfl, ?_⟩
    exact hst _
  · simp only [List.append_assoc, List.singleton_append]
    refine ⟨_, rfl, ?_⟩
    have hq : ∀ p, writtenTickets (notifyCalls s.hub "ticket:updated" p) = [] := by
      intro p; cases s.hub <;> rfl
    simp only [List.cons_append, List.nil_append, List.append_eq, writtenTickets, hq]
    refine ⟨_, rfl, ?_⟩
    exact hst _

end service

namespace service

open domain repository

variable {σ : Type}

/-- C15. `AssignTechnician` only assigns technicians.  When the ticket lookup fails it
returns the lookup error; when the ticket is found and the user lookup fails it returns
"technician not found"; when both are found and the user's role is neither TECHNICIAN
nor ADMIN it returns "assigned user is not a technician".  In all three cases it makes
no `Update` call on the ticket repository. -/
theorem assign_only_technicians (s : ticketService σ) (ticketID techID assignerID : UUID)
    (w : World σ) :
    (∀ err, (s.repo.FindByID ticketID w.db).1 = .error err →
      (s.AssignTechnician ticketID techID assignerID w).1 = some err ∧
      (newCalls w (s.AssignTechnician ticketID techID assignerID w).2).any
        Call.isTicketUpdate = false) ∧
    (∀ ticket err, (s.repo.FindByID ticketID w.db).1 = .ok ticket →
      (s.userRepo.FindByID techID (s.repo.FindByID ticketID w.db).2).1 = .error err →
      (s.AssignTechnician ticketID techID assignerID w).1 = some "technician not found" ∧
      (newCalls w (s.AssignTechnician ticketID techID assignerID w).2).any
        Call.isTicketUpdate = false) ∧
    (∀ ticket tech, (s.repo.FindByID ticketID w.db).1 = .ok ticket →
      (s.userRepo.FindByID techID (s.repo.FindByID ticketID w.db).2).1 = .ok tech →
      tech.Role ≠ RoleTechnician → tech.Role ≠ RoleAdmin →
      (s.AssignTechnician ticketID techID assignerID w).1 =
        some "assigned user is not a technician" ∧
      (newCalls w (s.AssignTechnician ticketID techID assignerID w).2).any
        Call.isTicketUpdate = false) := by
  refine ⟨?_, ?_, ?_⟩
  · intro err h
    rw [AssignTechnician_ticket_error s ticketID techID assignerID w err h]
    exact ⟨rfl, by rw [newCalls_append w _ _ rfl]; rfl⟩
  · intro ticket err h hu
    rw [AssignTechnician_user_error s ticketID techID assignerID w ticket err h hu]
    exact ⟨rfl, by rw [newCalls_append w _ _ rfl]; rfl⟩
  · intro ticket tech h hu h1 h2
    rw [AssignTechnician_not_technician s ticketID techID assignerID w ticket tech h hu
      ⟨h1, h2⟩]
    exact ⟨rfl, by rw [newCalls_append w _ _ rfl]; rfl⟩

/-- C15 on the in-memory service: no ticket 1 in an empty table; ticket 1 stored and no
user 5; ticket 1 stored and user 9 a plain user. -/
theorem assign_only_technicians_witness :
    ((memService.AssignTechnician 1 7 8 (memWorld [])).1 = some "record not found" ∧
      (newCalls (memWorld []) (memService.AssignTechnician 1 7 8 (memWorld [])).2).any
        Call.isTicketUpdate = false) ∧
    ((memService.AssignTechnician 1 5 8
          (memWorld [{ mkTicket "Leak" "Pipe leaks in room 2" 3 with ID := 1 }])).1 =
        some "technician not found" ∧
      (newCalls (memWorld [{ mkTicket "Leak" "Pipe leaks in room 2" 3 with ID := 1 }])
        (memService.AssignTechnician 1 5 8
          (memWorld [{ mkTicket "Leak" "Pipe leaks in room 2" 3 with ID := 1 }])).2).any
        Call.isTicketUpdate = false) ∧
    ((memService.AssignTechnician 1 9 8
          (memWorld [{ mkTicket "Leak" "Pipe leaks in room 2" 3 with ID := 1 }])).1 =
        some "assigned user is not a technician" ∧
      (newCalls (memWorld [{ mkTicket "Leak" "Pipe leaks in room 2" 3 with ID := 1 }])
        (memService.AssignTechnician 1 9 8
          (memWorld [{ mkTicket "Leak" "Pipe leaks in room 2" 3 with ID := 1 }])).2).any
        Call.isTicketUpdate = false) :=
  ⟨(assign_only_technicians memService 1 7 8 (memWorld [])).1 "record not found" rfl,
    (assign_only_technicians memService 1 5 8
      (memWorld [{ mkTicket "Leak" "Pipe leaks in room 2" 3 with ID := 1 }])).2.1
      _ "record not found" rfl rfl,
    (assign_only_technicians memService 1 9 8
      (memWorld [{ mkTicket "Leak" "Pipe leaks in room 2" 3 with ID := 1 }])).2.2
      _ (mkUser 9 RoleUser) rfl rfl (by decide) (by decide)⟩

/-- C16 as stated fails for a service constructed with a nil hub: assigning technician
7 to the stored ticket 1 succeeds and hands one ticket to `Update`, but no broadcast is
issued. -/
theorem assign_success_counterexample :
    (memServiceNoHub.AssignTechnician 1 7 8
        (memWorld [{ mkTicket "Leak" "Pipe leaks in room 2" 3 with ID := 1 }])).1 = none ∧
    (writtenTickets (newCalls
        (memWorld [{ mkTicket "Leak" "Pipe leaks in room 2" 3 with ID := 1 }])
        (memServiceNoHub.AssignTechnician 1 7 8
          (memWorld [{ mkTicket "Leak" "Pipe leaks in room 2" 3 with ID := 1 }])).2)).length
      = 1 ∧
    broadcastsOf (newCalls
        (memWorld [{ mkTicket "Leak" "Pipe leaks in room 2" 3 with ID := 1 }])
        (memServiceNoHub.AssignTechnician 1 7 8
          (memWorld [{ mkTicket "Leak" "Pipe leaks in room 2" 3 with ID := 1 }])).2) = [] := by
  decide

/-- C16, amended.  When `AssignTechnician` succeeds, the ticket and the user were
found, and the one ticket handed to the repository `Update` is the found ticket with
`AssignedToID` set to `techID`, `Status` set to IN_PROGRESS (whatever it was before) and
`UpdatedAt` set to the clock reading, every other field unchanged.  If the service has
a hub, exactly one broadcast is issued, "ticket:updated" carrying that ticket as the
repository left it; if the hub is nil, none is issued. -/
theorem assign_success (s : ticketService σ) (ticketID techID assignerID : UUID)
    (w : World σ) (hok : (s.AssignTechnician ticketID techID assignerID w).1 = none) :
    ∃ stored tech, (s.repo.FindByID ticketID w.db).1 = .ok stored ∧
      (s.userRepo.FindByID techID (s.repo.FindByID ticketID w.db).2).1 = .ok tech ∧
      writtenTickets (newCalls w (s.AssignTechnician ticketID techID assignerID w).2) =
        [{ stored with
            AssignedToID := some techID, Status := StatusInProgress,
            UpdatedAt := w.clock w.tick }] ∧
      (writtenTickets (newCalls w (s.AssignTechnician ticketID techID assignerID w).2)).length
        = ((newCalls w (s.AssignTechnician ticketID techID assignerID w).2).filter
            Call.isTicketUpdate).length ∧
      (∀ hub, s.hub = some hub →
        broadcastsOf (newCalls w (s.AssignTechnician ticketID techID assignerID w).2) =
          [(hub, "ticket:updated", Payload.ticket
            (s.repo.Update
              { stored with
                AssignedToID := some techID, Status := StatusInProgress,
                UpdatedAt := w.clock w.tick }
              (s.userRepo.FindByID techID (s.repo.FindByID ticketID w.db).2).2).1.2)]) ∧
      (s.hub = none →
        broadcastsOf (newCalls w (s.AssignTechnician ticketID techID assignerID w).2) = []) := by
  cases h : (s.repo.FindByID ticketID w.db).1 with
  | error err =>
    rw [AssignTechnician_ticket_error s ticketID techID assignerID w err h] at hok
    cases hok
  | ok stored =>
    cases hu : (s.userRepo.FindByID techID (s.repo.FindByID ticketID w.db).2).1 with
    | error err =>
      rw [AssignTechnician_user_error s ticketID techID assignerID w stored err h hu] at hok
      cases hok
    | ok tech =>
      by_cases hrole : tech.Role ≠ RoleTechnician ∧ tech.Role ≠ RoleAdmin
      · rw [AssignTechnician_not_technician s ticketID techID assignerID w stored tech h hu
          hrole] at hok
        cases hok
      · have heq := AssignTechnician_assigned s ticketID techID assignerID w stored tech h hu
          hrole
        rw [heq] at hok
        simp only at hok
        rw [heq, newCalls_append w _ _ rfl, hok]
        refine ⟨stored, tech, rfl, rfl, ?_, ?_, ?_, ?_⟩
        · cases s.hub <;> rfl
        · cases s.hub <;> rfl
        · intro hub hh
          rw [hh]
          rfl
        · intro hh
          rw [hh]
          rfl

/-- C16, amended, on the in-memory service (hub at address 1): technician 7 is assigned
to the stored ticket 1, whose status was RESOLVED. -/
theorem assign_success_witness :
    ∃ stored tech,
      (memTicketRepo.FindByID 1
        [{ mkTicket "Leak" "Pipe leaks in room 2" 3 with ID := 1, Status := StatusResolved }]).1
        = .ok stored ∧
      (memUserRepo.FindByID 7 (memTicketRepo.FindByID 1
        [{ mkTicket "Leak" "Pipe leaks in room 2" 3 with
            ID := 1, Status := StatusResolved }]).2).1 = .ok tech ∧
      writtenTickets (newCalls
        (memWorld [{ mkTicket "Leak" "Pipe leaks in room 2" 3 with
            ID := 1, Status := StatusResolved }])
        (memService.AssignTechnician 1 7 8
          (memWorld [{ mkTicket "Leak" "Pipe leaks in room 2" 3 with
              ID := 1, Status := StatusResolved }])).2) =
        [{ stored with
            AssignedToID := some 7, Status := StatusInProgress, UpdatedAt := 100 }] ∧
      broadcastsOf (newCalls
        (memWorld [{ mkTicket "Leak" "Pipe leaks in room 2" 3 with
            ID := 1, Status := StatusResolved }])
        (memService.AssignTechnician 1 7 8
          (memWorld [{ mkTicket "Leak" "Pipe leaks in room 2" 3 with
              ID := 1, Status := StatusResolved }])).2) =
        [(⟨1⟩, "ticket:updated", Payload.ticket
          { stored with
            AssignedToID := some 7, Status := StatusInProgress, UpdatedAt := 100 })] := by
  obtain ⟨stored, tech, h1, h2, h3, _, h5, _⟩ :=
    assign_success memService 1 7 8
      (memWorld [{ mkTicket "Leak" "Pipe leaks in room 2" 3 with
          ID := 1, Status := StatusResolved }]) (by decide)
  exact ⟨stored, tech, h1, h2, h3, h5 ⟨1⟩ rfl⟩

end service

namespace service

open domain repository handler

variable {σ : Type}

theorem writtenTickets_notifyCalls (hub : Option HubPtr) (eventType : String)
    (payload : Payload) : writtenTickets (notifyCalls hub eventType payload) = [] := by
  cases hub <;> rfl

/-- The ticket `Create` hands to the repository has status OPEN. -/
theorem Create_written (s : ticketService σ) (ticket : Ticket) (w : World σ) :
    ∀ t ∈ writtenTickets (newCalls w (s.Create ticket w).2), t.Status = StatusOpen := by
  have key : ∃ calls, (s.Create ticket w).2.trace = w.trace ++ calls ∧
      ∃ t, writtenTickets calls = [t] ∧ t.Status = StatusOpen := by
    simp only [ticketService.Create, repoCreate, timeNow, notify_eq]
    split
    · refine ⟨_, rfl, ?_⟩
      simp only [writtenTickets]
      exact ⟨_, rfl, rfl⟩
    · simp only [List.append_assoc, List.singleton_append]
      refine ⟨_, rfl, ?_⟩
      simp only [writtenTickets, writtenTickets_notifyCalls]
      exact ⟨_, rfl, rfl⟩
  obtain ⟨calls, htrace, t0, hw, hs⟩ := key
  intro t ht
  rw [newCalls_append w _ _ htrace, hw] at ht
  rw [List.mem_singleton.mp ht]
  exact hs

/-- Every ticket `AssignTechnician` hands to the repository has status IN_PROGRESS. -/
theorem AssignTechnician_written (s : ticketService σ) (ticketID techID assignerID : UUID)
    (w : World σ) :
    ∀ t ∈ writtenTickets (newCalls w (s.AssignTechnician ticketID techID assignerID w).2),
      t.Status = StatusInProgress := by
  intro t ht
  cases h : (s.repo.FindByID ticketID w.db).1 with
  | error err =>
    rw [AssignTechnician_ticket_error s ticketID techID assignerID w err h,
      newCalls_append w _ _ rfl] at ht
    cases ht
  | ok stored =>
    cases hu : (s.userRepo.FindByID techID (s.repo.FindByID ticketID w.db).2).1 with
    | error err =>
      rw [AssignTechnician_user_error s ticketID techID assignerID w stored err h hu,
        newCalls_append w _ _ rfl] at ht
      cases ht
    | ok tech =>
      by_cases hrole : tech.Role ≠ RoleTechnician ∧ tech.Role ≠ RoleAdmin
      · rw [AssignTechnician_not_technician s ticketID techID assignerID w stored tech h hu
          hrole, newCalls_append w _ _ rfl] at ht
        cases ht
      · rw [AssignTechnician_assigned s ticketID techID assignerID w stored tech h hu hrole,
          newCalls_append w _ _ rfl] at ht
        have hq : ∀ (o : Option Err) (p : Payload),
            writtenTickets (match o with
              | none => notifyCalls s.hub "ticket:updated" p
              | some _ => []) = [] := by
          intro o p
          cases o
          · exact writtenTickets_notifyCalls _ _ _
          · rfl
        simp only [List.cons_append, List.nil_append, List.append_eq, writtenTickets, hq,
          List.mem_singleton] at ht
        rw [ht]

theorem getString_status_updatesOf (req : UpdateTicketRequest) :
    (TicketHandler.updatesOf req).getString "status" =
      if req.Status = "" then none else some req.Status := by
  simp only [TicketHandler.updatesOf, Updates.getString]
  by_cases h1 : req.Title = "" <;> by_cases h2 : req.Description = "" <;>
    by_cases h3 : req.Status = "" <;> by_cases h4 : req.Priority = "" <;>
    simp [h1, h2, h3, h4, List.lookup]

/-- C20 as stated fails for `Update`: the stored ticket 1 has the declared status OPEN,
the request body gives the status "BOGUS" (the request struct validates nothing), the
update succeeds and the ticket handed to the repository has status "BOGUS", which is
none of the five declared values. -/
theorem status_validity_counterexample :
    validStatus ({ mkTicket "Leak" "Pipe leaks in room 2" 3 with
        ID := 1, Status := StatusOpen } : Ticket).Status = true ∧
    ((memService.Update 1
        (TicketHandler.updatesOf
          { Title := "", Description := "", Status := "BOGUS", Priority := "" }) 3
        (memWorld [{ mkTicket "Leak" "Pipe leaks in room 2" 3 with
            ID := 1, Status := StatusOpen }])).1.toOption.map (fun t => t.Status)) =
      some "BOGUS" ∧
    (writtenTickets (newCalls
        (memWorld [{ mkTicket "Leak" "Pipe leaks in room 2" 3 with
            ID := 1, Status := StatusOpen }])
        (memService.Update 1
          (TicketHandler.updatesOf
            { Title := "", Description := "", Status := "BOGUS", Priority := "" }) 3
          (memWorld [{ mkTicket "Leak" "Pipe leaks in room 2" 3 with
              ID := 1, Status := StatusOpen }])).2)).map (fun t => t.Status) = ["BOGUS"] ∧
    validStatus "BOGUS" = false := by
  decide

/-- C20, amended.  Every ticket `Create` hands to the repository has status OPEN and
every ticket `AssignTechnician` hands to it has status IN_PROGRESS, both declared
values.  The ticket `Update` hands to it, for the updates the handler builds from a
request, has the request's status when that is not empty and the stored status
otherwise; so it has a declared status whenever the stored ticket has one and the
request's status is empty or one of the five declared values. -/
theorem status_validity (s : ticketService σ) (w : World σ) :
    (∀ ticket, ∀ t ∈ writtenTickets (newCalls w (s.Create ticket w).2),
      t.Status = StatusOpen ∧ validStatus t.Status = true) ∧
    (∀ ticketID techID assignerID,
      ∀ t ∈ writtenTickets (newCalls w (s.AssignTechnician ticketID techID assignerID w).2),
      t.Status = StatusInProgress ∧ validStatus t.Status = true) ∧
    (∀ id req editorID stored, (s.repo.FindByID id w.db).1 = .ok stored →
      ∀ t ∈ writtenTickets
          (newCalls w (s.Update id (TicketHandler.updatesOf req) editorID w).2),
      t.Status = (if req.Status = "" then stored.Status else req.Status) ∧
      (validStatus stored.Status = true →
        req.Status = "" ∨ validStatus req.Status = true → validStatus t.Status = true)) := by
  refine ⟨?_, ?_, ?_⟩
  · intro ticket t ht
    have := Create_written s ticket w t ht
    exact ⟨this, by rw [this]; rfl⟩
  · intro ticketID techID assignerID t ht
    have := AssignTechnician_written s ticketID techID assignerID w t ht
    exact ⟨this, by rw [this]; rfl⟩
  · intro id req editorID stored h t ht
    obtain ⟨calls, htrace, t1, hw, hs⟩ :=
      Update_written s id (TicketHandler.updatesOf req) editorID w stored h
    rw [newCalls_append w _ _ htrace, hw] at ht
    rw [List.mem_singleton.mp ht, hs, getString_status_updatesOf]
    by_cases hreq : req.Status = ""
    · simp only [hreq, if_true]
      exact ⟨trivial, fun hv _ => hv⟩
    · simp only [hreq, if_false]
      refine ⟨trivial, fun _ hv => ?_⟩
      rcases hv with hv | hv
      · exact hv.elim
      · exact hv

/-- C20, amended, on the in-memory service: the stored ticket 1 is OPEN and the request
asks for the declared status CLOSED; the ticket handed to the repository is CLOSED. -/
theorem status_validity_witness :
    (writtenTickets (newCalls
        (memWorld [{ mkTicket "Leak" "Pipe leaks in room 2" 3 with
            ID := 1, Status := StatusOpen }])
        (memService.Update 1
          (TicketHandler.updatesOf
            { Title := "", Description := "", Status := "CLOSED", Priority := "" }) 3
          (memWorld [{ mkTicket "Leak" "Pipe leaks in room 2" 3 with
              ID := 1, Status := StatusOpen }])).2)).all
      (fun t => validStatus t.Status) = true :=
  List.all_eq_true.mpr fun t ht =>
    ((status_validity memService
      (memWorld [{ mkTicket "Leak" "Pipe leaks in room 2" 3 with
          ID := 1, Status := StatusOpen }])).2.2 1
      { Title := "", Description := "", Status := "CLOSED", Priority := "" } 3
      { mkTicket "Leak" "Pipe leaks in room 2" 3 with ID := 1, Status := StatusOpen }
      rfl t ht).2 (by decide) (Or.inr (by decide))

end service

namespace middleware

open domain service gin

theorem range_eq (role : UserRole) (next : Context → Context) (c : Context)
    (roles : List UserRole) :
    RequireRole.range role next c roles =
      if role ∈ roles then next c
      else c.AbortWithStatusJSON http.StatusForbidden [("error", "Insufficient permissions")] := by
  induction roles with
  | nil => simp [RequireRole.range]
  | cons r rest ih =>
    by_cases h : role = r
    · simp [RequireRole.range, h]
    · simp [RequireRole.range, h, ih]

theorem reached_abort (c : Context) (code : Nat) (obj : List (String × String)) :
    ((c.AbortWithStatusJSON code obj).reached == c.reached ++ ["next"]) = false := by
  simp [Context.AbortWithStatusJSON, Context.Abort, Context.JSON]

/-- `RequireRole` on a context without a "userRole" value. -/
theorem RequireRole_absent (roles : List UserRole) (next : Context → Context) (c : Context)
    (h : c.Get "userRole" = none) :
    RequireRole roles next c =
        c.AbortWithStatusJSON 401 [("error", "Unauthorized")] ∧
      admits (RequireRole roles) c = false := by
  refine ⟨by simp [RequireRole, h, http.StatusUnauthorized], ?_⟩
  simp only [admits, RequireRole, h]
  exact reached_abort c _ _

/-- `RequireRole` on a context whose role, a string, is one of the roles. -/
theorem RequireRole_member (roles : List UserRole) (next : Context → Context) (c : Context)
    (role : UserRole) (h : c.Get "userRole" = some (.string role)) (hmem : role ∈ roles) :
    RequireRole roles next c = next c ∧ admits (RequireRole roles) c = true := by
  refine ⟨by simp [RequireRole, h, range_eq, hmem], ?_⟩
  simp [admits, RequireRole, h, range_eq, hmem]

/-- `RequireRole` on a context whose role, a string, is none of the roles. -/
theorem RequireRole_other (roles : List UserRole) (next : Context → Context) (c : Context)
    (role : UserRole) (h : c.Get "userRole" = some (.string role)) (hmem : role ∉ roles) :
    RequireRole roles next c =
        c.AbortWithStatusJSON 403 [("error", "Insufficient permissions")] ∧
      admits (RequireRole roles) c = false := by
  refine ⟨by simp [RequireRole, h, range_eq, hmem, http.StatusForbidden], ?_⟩
  simp only [admits, RequireRole, h, range_eq, hmem, if_false]
  exact reached_abort c _ _

/-- C11. `RequireRole(roles...)`: when the context carries no "userRole" value the
request is aborted with 401 and the next handler does not run; when the role, a
string, is one of `roles`, the next handler runs and `RequireRole` aborts nothing (its
result is what the rest of the chain gives); when the role is a string that is not one
of `roles`, in particular when `roles` is empty, the request is aborted with 403 and
the next handler does not run. -/
theorem require_role (roles : List UserRole) (next : Context → Context) (c : Context) :
    (c.Get "userRole" = none →
      RequireRole roles next c =
        c.AbortWithStatusJSON 401 [("error", "Unauthorized")] ∧
      (RequireRole roles next c).IsAborted = true ∧
      (RequireRole roles next c).status = some 401 ∧
      admits (RequireRole roles) c = false) ∧
    (∀ role, c.Get "userRole" = some (.string role) → role ∈ roles →
      RequireRole roles next c = next c ∧ admits (RequireRole roles) c = true) ∧
    (∀ role, c.Get "userRole" = some (.string role) → role ∉ roles →
      RequireRole roles next c =
        c.AbortWithStatusJSON 403 [("error", "Insufficient permissions")] ∧
      (RequireRole roles next c).IsAborted = true ∧
      (RequireRole roles next c).status = some 403 ∧
      admits (RequireRole roles) c = false) ∧
    (∀ role, c.Get "userRole" = some (.string role) →
      RequireRole [] next c =
        c.AbortWithStatusJSON 403 [("error", "Insufficient permissions")]) := by
  refine ⟨?_, ?_, ?_, ?_⟩
  · intro h
    obtain ⟨heq, hadm⟩ := RequireRole_absent roles next c h
    rw [heq]
    exact ⟨rfl, rfl, rfl, hadm⟩
  · intro role h hmem
    exact RequireRole_member roles next c role h hmem
  · intro role h hmem
    obtain ⟨heq, hadm⟩ := RequireRole_other roles next c role h hmem
    rw [heq]
    exact ⟨rfl, rfl, rfl, hadm⟩
  · intro role h
    exact (RequireRole_other [] next c role h (List.not_mem_nil role)).1

/-- C11 on three requests: no "userRole" in the context; role TECHNICIAN where
TECHNICIAN and ADMIN are required; role USER where only ADMIN is required. -/
theorem require_role_witness :
    ((RequireRole [RoleAdmin] id (Context.new [])).status = some 401 ∧
      admits (RequireRole [RoleAdmin]) (Context.new []) = false) ∧
    admits (RequireRole [RoleTechnician, RoleAdmin])
      (Context.new [("userRole", .string "TECHNICIAN")]) = true ∧
    ((RequireRole [RoleAdmin] id (Context.new [("userRole", .string "USER")])).status =
        some 403 ∧
      admits (RequireRole [RoleAdmin]) (Context.new [("userRole", .string "USER")]) = false) :=
  ⟨⟨((require_role [RoleAdmin] id (Context.new [])).1 rfl).2.2.1,
      ((require_role [RoleAdmin] id (Context.new [])).1 rfl).2.2.2⟩,
    ((require_role [RoleTechnician, RoleAdmin] id
      (Context.new [("userRole", .string "TECHNICIAN")])).2.1 "TECHNICIAN" rfl (by decide)).2,
    ⟨((require_role [RoleAdmin] id (Context.new [("userRole", .string "USER")])).2.2.1
        "USER" rfl (by decide)).2.2.1,
      ((require_role [RoleAdmin] id (Context.new [("userRole", .string "USER")])).2.2.1
        "USER" rfl (by decide)).2.2.2⟩⟩

theorem admits_RequireRole (roles : List UserRole) (c : Context) :
    admits (RequireRole roles) c = true ↔
      ∃ role, c.Get "userRole" = some (.string role) ∧ role ∈ roles := by
  cases h : c.Get "userRole" with
  | none =>
    have := (RequireRole_absent roles id c h).2
    simp [this]
  | some v =>
    cases v with
    | string role =>
      by_cases hmem : role ∈ roles
      · have := (RequireRole_member roles id c role h hmem).2
        simp [this, hmem]
      · have := (RequireRole_other roles id c role h hmem).2
        simp [this, hmem]
    | nil => simp [admits, RequireRole, h, Context.panic]
    | bool b => simp [admits, RequireRole, h, Context.panic]
    | number n => simp [admits, RequireRole, h, Context.panic]

/-- C12. `RequireAdmin` lets a request through to the next handler exactly when its
"userRole" is the string "ADMIN", `RequireTechnician` exactly when it is "TECHNICIAN" or
"ADMIN".  For any role string that `RequireAdmin` (resp. `RequireTechnician`) does not
admit, "USER" among them, the request is aborted with 403. -/
theorem require_admin_technician (c : Context) :
    (admits RequireAdmin c = true ↔ c.Get "userRole" = some (.string "ADMIN")) ∧
    (admits RequireTechnician c = true ↔
      (c.Get "userRole" = some (.string "TECHNICIAN") ∨
        c.Get "userRole" = some (.string "ADMIN"))) ∧
    (∀ role next, c.Get "userRole" = some (.string role) → role ≠ "ADMIN" →
      (RequireAdmin next c).IsAborted = true ∧ (RequireAdmin next c).status = some 403) ∧
    (∀ role next, c.Get "userRole" = some (.string role) →
      role ≠ "TECHNICIAN" → role ≠ "ADMIN" →
      (RequireTechnician next c).IsAborted = true ∧
        (RequireTechnician next c).status = some 403) ∧
    (∀ next, c.Get "userRole" = some (.string "USER") →
      (RequireAdmin next c).status = some 403 ∧
        (RequireTechnician next c).status = some 403) := by
  have hadmin : ∀ role next, c.Get "userRole" = some (.string role) → role ≠ "ADMIN" →
      (RequireAdmin next c).IsAborted = true ∧ (RequireAdmin next c).status = some 403 := by
    intro role next h hne
    have hmem : role ∉ [RoleAdmin] := by simpa [RoleAdmin] using hne
    rw [RequireAdmin, (RequireRole_other [RoleAdmin] next c role h hmem).1]
    exact ⟨rfl, rfl⟩
  have htech : ∀ role next, c.Get "userRole" = some (.string role) →
      role ≠ "TECHNICIAN" → role ≠ "ADMIN" →
      (RequireTechnician next c).IsAborted = true ∧
        (RequireTechnician next c).status = some 403 := by
    intro role next h hne1 hne2
    have hmem : role ∉ [RoleTechnician, RoleAdmin] := by
      simp [RoleAdmin, RoleTechnician, hne1, hne2]
    rw [RequireTechnician, (RequireRole_other [RoleTechnician, RoleAdmin] next c role h hmem).1]
    exact ⟨rfl, rfl⟩
  refine ⟨?_, ?_, hadmin, htech, ?_⟩
  · rw [RequireAdmin, admits_RequireRole]
    constructor
    · rintro ⟨role, h, hmem⟩
      rw [h, List.mem_singleton.mp hmem]
      rfl
    · intro h
      exact ⟨"ADMIN", h, by simp [RoleAdmin]⟩
  · rw [RequireTechnician, admits_RequireRole]
    constructor
    · rintro ⟨role, h, hmem⟩
      rw [h]
      simp only [List.mem_cons, List.mem_singleton, List.not_mem_nil, or_false] at hmem
      rcases hmem with rfl | rfl
      · exact .inl rfl
      · exact .inr rfl
    · rintro (h | h)
      · exact ⟨"TECHNICIAN", h, by simp [RoleTechnician]⟩
      · exact ⟨"ADMIN", h, by simp [RoleAdmin]⟩
  · intro next h
    exact ⟨(hadmin "USER" next h (by decide)).2, (htech "USER" next h (by decide) (by decide)).2⟩

/-- C12 on requests with role USER and with the undeclared role "GUEST": both
middlewares abort with 403. -/
theorem require_admin_technician_witness :
    ((RequireAdmin id (Context.new [("userRole", .string "USER")])).status = some 403 ∧
      (RequireTechnician id (Context.new [("userRole", .string "USER")])).status = some 403) ∧
    ((RequireAdmin id (Context.new [("userRole", .string "GUEST")])).IsAborted = true ∧
      (RequireAdmin id (Context.new [("userRole", .string "GUEST")])).status = some 403) ∧
    ((RequireTechnician id (Context.new [("userRole", .string "GUEST")])).IsAborted = true ∧
      (RequireTechnician id (Context.new [("userRole", .string "GUEST")])).status = some 403) :=
  ⟨(require_admin_technician (Context.new [("userRole", .string "USER")])).2.2.2.2 id rfl,
    (require_admin_technician (Context.new [("userRole", .string "GUEST")])).2.2.1
      "GUEST" id rfl (by decide),
    (require_admin_technician (Context.new [("userRole", .string "GUEST")])).2.2.2.1
      "GUEST" id rfl (by decide) (by decide)⟩

end middleware

namespace main

open domain service gin middleware

theorem Next_stopped (hs : List HandlerFunc) (i : Nat) (c : Context)
    (h : (c.aborted || c.panicked) = true) : Next hs i c = c := by
  induction hs generalizing i with
  | nil => rfl
  | cons f rest ih => simp [Next, h, ih]

/-- A chain that starts with `RequireAdmin` or `RequireTechnician` reaches no endpoint
for a request whose role is USER. -/
theorem serve_forbidden (ext : Handler → HandlerFunc) (h : Handler) (rest : List Handler)
    (c : Context) (hh : h = .RequireAdmin ∨ h = .RequireTechnician)
    (hrole : c.Get "userRole" = some (.string "USER")) :
    (serve ext (h :: rest) c).reached = c.reached := by
  by_cases hs : (c.aborted || c.panicked) = true
  · simp only [serve]
    rw [Next_stopped _ _ _ (by simpa using hs)]
  · have hget : Context.Get { c with index := 0 + 1 } "userRole" = some (.string "USER") :=
      hrole
    have hstop : ∀ (next : Context → Context) (hs' : List HandlerFunc),
        ((h.func ext) next { c with index := 0 + 1 }).reached = c.reached ∧
        Next hs' (0 + 1) ((h.func ext) next { c with index := 0 + 1 }) =
          (h.func ext) next { c with index := 0 + 1 } := by
      intro next hs'
      rcases hh with rfl | rfl
      · have := (RequireRole_other [RoleAdmin] next _ "USER" hget (by decide)).1
        simp only [Handler.func, RequireAdmin, this]
        exact ⟨rfl, Next_stopped _ _ _ rfl⟩
      · have := (RequireRole_other [RoleTechnician, RoleAdmin] next _ "USER" hget
          (by decide)).1
        simp only [Handler.func, RequireTechnician, this]
        exact ⟨rfl, Next_stopped _ _ _ rfl⟩
    simp only [Bool.not_eq_true] at hs
    simp only [serve, List.map_cons, Next, hs, Nat.lt_irrefl, decide_False, Bool.or_false,
      Bool.false_eq_true, if_false]
    have hst := hstop (Next (List.map (Handler.func ext) rest) (0 + 1))
      (List.map (Handler.func ext) rest)
    exact (congrArg Context.reached hst.2).trans hst.1

theorem gated_chain : ∀ route ∈ routes, gated route = true →
    (afterAuth route.Handlers).head? = some .RequireAdmin ∨
      (afterAuth route.Handlers).head? = some .RequireTechnician := by
  decide

/-- C13. In the route table of `main`: every route under /api/v1/tickets and under
/api/v1/users has `AuthMiddleware` ahead of its endpoint; every route under
/api/v1/users has `RequireAdmin` ahead of its endpoint, right after `AuthMiddleware`;
POST /api/v1/tickets/:id/assign is in the table, ends in `ticketHandler.Assign` and has
`RequireTechnician` ahead of it, right after `AuthMiddleware`.  So on every route that
ends in a method of `userHandler` or in `ticketHandler.Assign`, a request that
`AuthMiddleware` hands on with role USER reaches no endpoint. -/
theorem protected_routes :
    (∀ route ∈ routes,
      (under "/api/v1/tickets" route || under "/api/v1/users" route) = true →
      ahead .AuthMiddleware route.Handlers = true) ∧
    (∀ route ∈ routes, under "/api/v1/users" route = true →
      ahead .RequireAdmin route.Handlers = true ∧
      (afterAuth route.Handlers).head? = some .RequireAdmin) ∧
    (∀ route ∈ routes, route.Method = "POST" → route.Path = "/api/v1/tickets/:id/assign" →
      route.Handlers.getLast? = some (.endpoint "ticketHandler.Assign") ∧
      ahead .RequireTechnician route.Handlers = true ∧
      (afterAuth route.Handlers).head? = some .RequireTechnician) ∧
    routes.any (fun r => r.Method == "POST" && r.Path == "/api/v1/tickets/:id/assign")
      = true ∧
    (∀ route ∈ routes, gated route = true →
      ∀ (ext : Handler → HandlerFunc) (c : Context),
        c.Get "userRole" = some (.string RoleUser) →
        reachedAfterAuth ext route c = c.reached) := by
  refine ⟨by decide, by decide, by decide, by decide, ?_⟩
  intro route hr hg ext c hrole
  have hhead := gated_chain route hr hg
  unfold reachedAfterAuth
  cases hchain : afterAuth route.Handlers with
  | nil => rw [hchain] at hhead; simp at hhead
  | cons h rest =>
    rw [hchain] at hhead
    simp only [List.head?_cons, Option.some.injEq] at hhead
    exact serve_forbidden ext h rest c hhead hrole

/-- C13 on GET /api/v1/users, a route of the table: a request that comes past
`AuthMiddleware` with role USER reaches no endpoint. -/
theorem protected_routes_witness :
    usersGetAll ∈ routes ∧ gated usersGetAll = true ∧
    reachedAfterAuth (fun _ => passOn) usersGetAll
        (Context.new [("userRole", .string "USER")]) =
      (Context.new [("userRole", .string "USER")]).reached :=
  ⟨by decide, by decide,
    protected_routes.2.2.2.2 usersGetAll (by decide) (by decide) (fun _ => passOn)
      (Context.new [("userRole", .string "USER")]) rfl⟩

/-- C14. GET /ws is in the route table of `main`, registered on the root router: its
chain is the `Logger`, `Recovery` and `CORSMiddleware` of the root followed by the
closure that calls `websocket.ServeWs`, with no `AuthMiddleware` and no role middleware
in it.  When those three only hand the request on, a request reaches
`websocket.ServeWs` whatever its context holds, credentials or none.  The routes under
/api/v1/tickets and /api/v1/users, unlike it, have `AuthMiddleware` ahead of their
endpoint. -/
theorem ws_route_open :
    wsRoute ∈ routes ∧
    (∀ route ∈ routes, route.Path = "/ws" → route = wsRoute) ∧
    (Handler.AuthMiddleware ∉ wsRoute.Handlers ∧ Handler.RequireAdmin ∉ wsRoute.Handlers ∧
      Handler.RequireTechnician ∉ wsRoute.Handlers) ∧
    (∀ ext : Handler → HandlerFunc, ext .Logger = passOn → ext .Recovery = passOn →
      ext .CORSMiddleware = passOn →
      ∀ keys, (serve ext wsRoute.Handlers (Context.new keys)).reached =
        ["websocket.ServeWs"]) ∧
    (∀ route ∈ routes,
      (under "/api/v1/tickets" route || under "/api/v1/users" route) = true →
      ahead .AuthMiddleware route.Handlers = true) := by
  refine ⟨by decide, by decide, by decide, ?_, by decide⟩
  intro ext hl hr hc keys
  simp [serve, wsRoute, Next, Handler.func, hl, hr, hc, passOn, Context.new]

/-- C14 on a request whose context holds nothing, the three root middlewares only
calling `c.Next()`: it reaches `websocket.ServeWs`. -/
theorem ws_route_open_witness :
    (serve (fun _ => passOn) wsRoute.Handlers (Context.new [])).reached =
      ["websocket.ServeWs"] :=
  ws_route_open.2.2.2.1 (fun _ => passOn) rfl rfl rfl []

end main

namespace handler

open domain repository service

/-- C18 fails on the code.  With `limit=0`, and with a `limit` that is no number (both
parse to 0), `TicketHandler.GetAll` and `UserHandler.GetAll` panic on the division by
`limit` after the query has succeeded with the page size 10 the repository (resp. the
user service) applied.  With `limit=-5` (resp. `-2`) they answer with the limit of the
query and a `totalPages` of 0 for three rows, not with the page size 10 that was
applied. -/
theorem getAll_unnormalised_limit :
    ((TicketHandler.GetAll pagedService [("limit", "0")] threeTickets).1.panicked = true ∧
      (TicketHandler.GetAll pagedService [("limit", "abc")] threeTickets).1.panicked = true ∧
      (ticketRepository.pagination (limitFilter 0)).2 = 10) ∧
    ((UserHandler.GetAll ⟨memUserRepo⟩ [("limit", "0")] []).1.panicked = true ∧
      (UserHandler.GetAll ⟨memUserRepo⟩ [("limit", "abc")] []).1.panicked = true ∧
      userService.appliedLimit 0 = 10) ∧
    ((TicketHandler.GetAll pagedService [("limit", "-5")] threeTickets).1.meta =
        some (-5, 0) ∧
      (ticketRepository.pagination (limitFilter (-5))).2 = 10 ∧
      (UserHandler.GetAll ⟨memUserRepo⟩ [("limit", "-2")] []).1.meta = some (-2, 0) ∧
      userService.appliedLimit (-2) = 10) := by
  decide

end handler

namespace handler

open domain repository service

variable {σ : Type}

theorem lookup_filter_self (disk : List (String × String)) (p : String) :
    (disk.filter (fun f => f.1 != p)).lookup p = none := by
  induction disk with
  | nil => rfl
  | cons f rest ih =>
    obtain ⟨q, content⟩ := f
    by_cases hq : q = p
    · have hb : (q != p) = false := by simp [hq]
      rw [List.filter_cons]
      simp only [hb, Bool.false_eq_true, if_false]
      exact ih
    · have hb : (q != p) = true := by simp [hq]
      have hpq : (p == q) = false := by simpa using fun h => hq h.symm
      rw [List.filter_cons]
      simp only [hb, if_true, List.lookup, hpq]
      exact ih

theorem lookup_filter_ne (disk : List (String × String)) (p q : String) (hqp : q ≠ p) :
    (disk.filter (fun f => f.1 != p)).lookup q = disk.lookup q := by
  induction disk with
  | nil => rfl
  | cons f rest ih =>
    obtain ⟨r, content⟩ := f
    by_cases hr : r = p
    · have hb : (r != p) = false := by simp [hr]
      have hqr : (q == r) = false := by rw [hr]; simpa using hqp
      rw [List.filter_cons]
      simp only [hb, Bool.false_eq_true, if_false, List.lookup, hqr]
      exact ih
    · have hb : (r != p) = true := by simp [hr]
      rw [List.filter_cons]
      simp only [hb, if_true, List.lookup]
      cases hqr : (q == r)
      · exact ih
      · rfl

/-- What `Upload` does once the identifier parses, the form has a file and the file was
written: by the result of the insert and, when it failed, by the result of the removal. -/
theorem Upload_eq (h : AttachmentHandler σ) (req : UploadRequest) (w : UploadWorld σ)
    (ticketID : UUID) (header : FileHeader) (file : String)
    (hid : uuid.Parse req.id = some ticketID) (hfile : req.file = some (header, file))
    (hcreate : w.createErr = none) (hcopy : w.copyErr = none) :
    h.Upload req w =
      match (h.attachmentRepo.Create (Upload.inserted header ticketID w) w.db).1.1 with
      | some _ =>
        (.error http.StatusInternalServerError "Failed to save attachment record",
          { w with
            db := (h.attachmentRepo.Create (Upload.inserted header ticketID w) w.db).2,
            tick := w.tick + 2, drawn := w.drawn + 1,
            disk :=
              match w.removeErr with
              | some _ =>
                (filepath.Join h.uploadDir (Upload.storedName header w), file) ::
                  (((filepath.Join h.uploadDir (Upload.storedName header w), "") ::
                    w.disk.filter (fun f => f.1 != filepath.Join h.uploadDir
                      (Upload.storedName header w))).filter
                    (fun f => f.1 != filepath.Join h.uploadDir (Upload.storedName header w)))
              | none =>
                (((filepath.Join h.uploadDir (Upload.storedName header w), file) ::
                  (((filepath.Join h.uploadDir (Upload.storedName header w), "") ::
                    w.disk.filter (fun f => f.1 != filepath.Join h.uploadDir
                      (Upload.storedName header w))).filter
                    (fun f => f.1 != filepath.Join h.uploadDir (Upload.storedName header w)))
                  ).filter (fun f => f.1 != filepath.Join h.uploadDir
                    (Upload.storedName header w))) })
      | none =>
        (.created http.StatusCreated
            (h.attachmentRepo.Create (Upload.inserted header ticketID w) w.db).1.2,
          { w with
            db := (h.attachmentRepo.Create (Upload.inserted header ticketID w) w.db).2,
            tick := w.tick + 2, drawn := w.drawn + 1,
            disk := (filepath.Join h.uploadDir (Upload.storedName header w), file) ::
              (((filepath.Join h.uploadDir (Upload.storedName header w), "") ::
                w.disk.filter (fun f => f.1 != filepath.Join h.uploadDir
                  (Upload.storedName header w))).filter
                (fun f => f.1 != filepath.Join h.uploadDir (Upload.storedName header w))) })
    := by
  cases hrem : w.removeErr <;>
    simp only [AttachmentHandler.Upload, hid, hfile, uuidNew, uploadNow, osCreate, ioCopy,
      osRemove, hcreate, hcopy, hrem, Upload.inserted, Upload.storedName]

/-- C17 fails on the code.  The database is down and the operating system refuses to
remove the file, which `Upload` still holds open when it calls `os.Remove`; the result
of the call is dropped.  The response is 500 and no record is stored, as with a removal
that succeeds, but the file that `Upload` wrote, which was not there before, is still
in the upload directory with the uploaded content; where the removal succeeds the file
is gone. -/
theorem upload_leaves_file :
    (AttachmentHandler.Upload (NewAttachmentHandler downAttachmentRepo) uploadReport
        stuckUploadWorld).1 = .error 500 "Failed to save attachment record" ∧
      (AttachmentHandler.Upload (NewAttachmentHandler downAttachmentRepo) uploadReport
        stuckUploadWorld).2.db = [] ∧
      stuckUploadWorld.disk.lookup "./uploads/500_100.pdf" = none ∧
      (AttachmentHandler.Upload (NewAttachmentHandler downAttachmentRepo) uploadReport
        stuckUploadWorld).2.disk.lookup "./uploads/500_100.pdf" = some "%PDF-1.4." ∧
      (AttachmentHandler.Upload (NewAttachmentHandler downAttachmentRepo) uploadReport
        uploadWorld).2.disk.lookup "./uploads/500_100.pdf" = none := by
  decide

/-- The outcome of `Upload` for every attachment repository and every answer of the
operating system to `os.Remove`.  Once the ticket identifier parses, the form has a file
and the file was written to the upload directory: when `attachmentRepo.Create` returns an error the
response is 500, the database is as the failed insert left it (the handler makes no
other repository call), every other file is as before, and the file `Upload` wrote is
gone when `os.Remove` succeeds and is still there, with the uploaded content, when
`os.Remove` fails; when the insert succeeds the response is 201 with the record, the
record handed to the repository has the URL "/uploads/" followed by the stored file name
and the parsed `:id` as `TicketID`, and the stored file holds the uploaded content. -/
theorem Upload_outcome (h : AttachmentHandler σ) (req : UploadRequest) (w : UploadWorld σ)
    (ticketID : UUID) (header : FileHeader) (file : String)
    (hid : uuid.Parse req.id = some ticketID) (hfile : req.file = some (header, file))
    (hcreate : w.createErr = none) (hcopy : w.copyErr = none) :
    (∀ err,
      (h.attachmentRepo.Create (Upload.inserted header ticketID w) w.db).1.1 = some err →
      (h.Upload req w).1 = .error 500 "Failed to save attachment record" ∧
      (h.Upload req w).2.disk.lookup (filepath.Join h.uploadDir (Upload.storedName header w))
        = (match w.removeErr with
            | none => none
            | some _ => some file) ∧
      (∀ p, p ≠ filepath.Join h.uploadDir (Upload.storedName header w) →
        (h.Upload req w).2.disk.lookup p = w.disk.lookup p) ∧
      (h.Upload req w).2.db =
        (h.attachmentRepo.Create (Upload.inserted header ticketID w) w.db).2) ∧
    ((h.attachmentRepo.Create (Upload.inserted header ticketID w) w.db).1.1 = none →
      (h.Upload req w).1 = .created 201
        (h.attachmentRepo.Create (Upload.inserted header ticketID w) w.db).1.2 ∧
      (Upload.inserted header ticketID w).URL = "/uploads/" ++ Upload.storedName header w ∧
      (Upload.inserted header ticketID w).TicketID = ticketID ∧
      (h.Upload req w).2.disk.lookup (filepath.Join h.uploadDir (Upload.storedName header w))
        = some file ∧
      (h.Upload req w).2.db =
        (h.attachmentRepo.Create (Upload.inserted header ticketID w) w.db).2) := by
  have heq := Upload_eq h req w ticketID header file hid hfile hcreate hcopy
  constructor
  · intro err herr
    rw [heq]
    simp only [herr]
    refine ⟨rfl, ?_, ?_, trivial⟩
    · cases w.removeErr with
      | none => exact lookup_filter_self _ _
      | some e => simp [List.lookup]
    · intro p hp
      have hb : (p == filepath.Join h.uploadDir (Upload.storedName header w)) = false := by
        simpa using hp
      cases w.removeErr with
      | none =>
        simp only
        rw [lookup_filter_ne _ _ _ hp]
        simp only [List.lookup, hb]
        rw [lookup_filter_ne _ _ _ hp]
        simp only [List.lookup, hb]
        exact lookup_filter_ne _ _ _ hp
      | some e =>
        simp only [List.lookup, hb]
        rw [lookup_filter_ne _ _ _ hp]
        simp only [List.lookup, hb]
        exact lookup_filter_ne _ _ _ hp
  · intro hok
    rw [heq]
    simp only [hok]
    refine ⟨rfl, rfl, rfl, ?_, trivial⟩
    simp [List.lookup]

/-- The outcome of the upload of `report.pdf` for ticket 12: with the database down
and a removal that succeeds the response is 500 and the file written as
"./uploads/500_100.pdf" is gone; with the in-memory table the response is 201 and the
file is stored. -/
theorem Upload_outcome_example :
    ((AttachmentHandler.Upload (NewAttachmentHandler downAttachmentRepo) uploadReport
        uploadWorld).1 = .error 500 "Failed to save attachment record" ∧
      (AttachmentHandler.Upload (NewAttachmentHandler downAttachmentRepo) uploadReport
        uploadWorld).2.disk.lookup "./uploads/500_100.pdf" = none) ∧
    ((Upload.inserted { Filename := "report.pdf", ContentType := "application/pdf", Size := 9 }
        12 uploadWorld).URL = "/uploads/500_100.pdf" ∧
      (AttachmentHandler.Upload (NewAttachmentHandler memAttachmentRepo) uploadReport
        uploadWorld).2.disk.lookup "./uploads/500_100.pdf" = some "%PDF-1.4.") :=
  ⟨⟨((Upload_outcome (NewAttachmentHandler downAttachmentRepo) uploadReport uploadWorld 12
        { Filename := "report.pdf", ContentType := "application/pdf", Size := 9 } "%PDF-1.4."
        (by decide) rfl rfl rfl).1 "connection refused" rfl).1,
      ((Upload_outcome (NewAttachmentHandler downAttachmentRepo) uploadReport uploadWorld 12
        { Filename := "report.pdf", ContentType := "application/pdf", Size := 9 } "%PDF-1.4."
        (by decide) rfl rfl rfl).1 "connection refused" rfl).2.1⟩,
    ((Upload_outcome (NewAttachmentHandler memAttachmentRepo) uploadReport uploadWorld 12
        { Filename := "report.pdf", ContentType := "application/pdf", Size := 9 } "%PDF-1.4."
        (by decide) rfl rfl rfl).2 rfl).2.1,
    ((Upload_outcome (NewAttachmentHandler memAttachmentRepo) uploadReport uploadWorld 12
        { Filename := "report.pdf", ContentType := "application/pdf", Size := 9 } "%PDF-1.4."
        (by decide) rfl rfl rfl).2 rfl).2.2.2.1⟩

end handler

/-! ## Token refresh -/

namespace service

open domain repository

/-- The claims object of an access token decodes into `RegisteredClaims`: `sub`, `exp`
and `iat` are kept, `email` and `role` are ignored. -/
theorem decode_access_claims (sub email role : String) (exp iat : Int) :
    jwt.decodeRegisteredClaims
        [("sub", .string sub), ("email", .string email), ("role", .string role),
         ("exp", .number exp), ("iat", .number iat)] =
      some { Issuer := "", Subject := sub, Audience := [], ExpiresAt := some exp,
             NotBefore := none, IssuedAt := some iat, ID := "" } := by
  simp [jwt.decodeRegisteredClaims, jwt.stringClaim, jwt.dateClaim, List.lookup]

/-- The claims object of a refresh token decodes into `RegisteredClaims`. -/
theorem decode_refresh_claims (sub : String) (exp iat : Int) :
    jwt.decodeRegisteredClaims
        [("sub", .string sub), ("exp", .number exp), ("iat", .number iat)] =
      some { Issuer := "", Subject := sub, Audience := [], ExpiresAt := some exp,
             NotBefore := none, IssuedAt := some iat, ID := "" } := by
  simp [jwt.decodeRegisteredClaims, jwt.stringClaim, jwt.dateClaim, List.lookup]

/-- What `RefreshToken` returns for a token that parses, whose subject is the id of a
user the repository finds. -/
theorem RefreshToken_parsed {σ : Type} (s : authService σ) (token : jwt.TokenString)
    (w : World σ) (claims : jwt.RegisteredClaims) (userID : UUID) (user : User)
    (hparse : jwt.ParseWithClaims token s.cfg.JWTSecret (w.clock w.tick) = some claims)
    (hsub : uuid.Parse claims.Subject = some userID)
    (hfind : (s.userRepo.FindByID userID w.db).1 = .ok user) :
    (s.RefreshToken token w).1 =
      .ok (jwt.SignedString
        [("sub", .string (uuid.UUID.String user.ID)), ("email", .string user.Email),
         ("role", .string user.Role),
         ("exp", .number (w.clock (w.tick + 1) + s.cfg.JWTExpireMinutes * 60)),
         ("iat", .number (w.clock (w.tick + 2)))] s.cfg.JWTSecret) := by
  simp only [authService.RefreshToken, timeNow, hparse, hsub]
  split
  · next e he => exact absurd (he.symm.trans hfind) (by simp)
  · next u hu =>
    obtain rfl : u = user := by simpa using hu.symm.trans hfind
    rfl

/-- The error "invalid refresh token" is returned exactly when parsing fails. -/
theorem RefreshToken_invalid_iff {σ : Type} (s : authService σ) (token : jwt.TokenString)
    (w : World σ) :
    (s.RefreshToken token w).1 = .error "invalid refresh token" ↔
      jwt.ParseWithClaims token s.cfg.JWTSecret (w.clock w.tick) = none := by
  cases hparse : jwt.ParseWithClaims token s.cfg.JWTSecret (w.clock w.tick) with
  | none => simp [authService.RefreshToken, timeNow, hparse]
  | some claims =>
    simp only [authService.RefreshToken, timeNow, hparse]
    cases hsub : uuid.Parse claims.Subject with
    | none => simp
    | some userID =>
      cases hf : s.userRepo.FindByID userID w.db with
      | mk found db =>
        cases found with
        | error e => simp [hf, ErrUserNotFound]
        | ok user => simp [hf, authService.generateAccessToken, timeNow]

end service

namespace service

open domain repository

/-- C19, evaluated: the access token that `generateAccessToken` mints for the
technician 7 (secret "s3cret", 15 minutes, clock at 100), presented to `RefreshToken`
two ticks later, is not rejected with "invalid refresh token": the call returns a new
access token for that user. -/
theorem refresh_token_only_refresh_counterexample :
    (memAuthService.generateAccessToken (mkUser 7 RoleTechnician) (memWorld [])).1 =
        .ok (jwt.SignedString
          [("sub", .string "7"), ("email", .string ""), ("role", .string RoleTechnician),
           ("exp", .number 1000), ("iat", .number 101)] "s3cret") ∧
      (memAuthService.RefreshToken
          (jwt.SignedString
            [("sub", .string "7"), ("email", .string ""), ("role", .string RoleTechnician),
             ("exp", .number 1000), ("iat", .number 101)] "s3cret")
          (memAuthService.generateAccessToken (mkUser 7 RoleTechnician) (memWorld [])).2).1 =
        .ok (jwt.SignedString
          [("sub", .string "7"), ("email", .string ""), ("role", .string RoleTechnician),
           ("exp", .number 1003), ("iat", .number 104)] "s3cret") := by
  constructor <;> rfl

/-- C19, amended: `RefreshToken` does not tell the two kinds of token apart.  For a user
whose id text parses back to an id the repository finds, a token minted by
`generateAccessToken` and presented before its `exp`, and likewise a token minted by
`generateRefreshToken` and presented before its `exp`, is answered with a new access
token for the user found; and for any token at all, the error "invalid refresh token"
is returned exactly when `jwt.ParseWithClaims` with the secret fails. -/
theorem refresh_token_acceptance {σ : Type} (s : authService σ) (minted user : User)
    (w0 w : World σ) (userID : UUID)
    (hsub : uuid.Parse (uuid.UUID.String minted.ID) = some userID)
    (hfind : (s.userRepo.FindByID userID w.db).1 = .ok user) :
    (∀ token, (s.generateAccessToken minted w0).1 = .ok token →
        w.clock w.tick < w0.clock w0.tick + s.cfg.JWTExpireMinutes * 60 →
        (s.RefreshToken token w).1 =
          .ok (jwt.SignedString
            [("sub", .string (uuid.UUID.String user.ID)), ("email", .string user.Email),
             ("role", .string user.Role),
             ("exp", .number (w.clock (w.tick + 1) + s.cfg.JWTExpireMinutes * 60)),
             ("iat", .number (w.clock (w.tick + 2)))] s.cfg.JWTSecret)) ∧
      (∀ token, (s.generateRefreshToken minted w0).1 = .ok token →
        w.clock w.tick < w0.clock w0.tick + s.cfg.JWTRefreshDays * 86400 →
        (s.RefreshToken token w).1 =
          .ok (jwt.SignedString
            [("sub", .string (uuid.UUID.String user.ID)), ("email", .string user.Email),
             ("role", .string user.Role),
             ("exp", .number (w.clock (w.tick + 1) + s.cfg.JWTExpireMinutes * 60)),
             ("iat", .number (w.clock (w.tick + 2)))] s.cfg.JWTSecret)) ∧
      (∀ token, (s.RefreshToken token w).1 = .error "invalid refresh token" ↔
        jwt.ParseWithClaims token s.cfg.JWTSecret (w.clock w.tick) = none) := by
  refine ⟨?_, ?_, fun token => RefreshToken_invalid_iff s token w⟩
  · intro token hmint hexp
    have htoken : token = jwt.SignedString
        [("sub", .string (uuid.UUID.String minted.ID)), ("email", .string minted.Email),
         ("role", .string minted.Role),
         ("exp", .number (w0.clock w0.tick + s.cfg.JWTExpireMinutes * 60)),
         ("iat", .number (w0.clock (w0.tick + 1)))] s.cfg.JWTSecret := by
      simpa [authService.generateAccessToken, timeNow] using hmint.symm
    subst htoken
    refine RefreshToken_parsed s _ w
      { Issuer := "", Subject := uuid.UUID.String minted.ID, Audience := [],
        ExpiresAt := some (w0.clock w0.tick + s.cfg.JWTExpireMinutes * 60), NotBefore := none,
        IssuedAt := some (w0.clock (w0.tick + 1)), ID := "" } userID user ?_ hsub hfind
    simp [jwt.SignedString, jwt.ParseWithClaims, decode_access_claims, jwt.verifies,
      jwt.validAt, hexp]
  · intro token hmint hexp
    have htoken : token = jwt.SignedString
        [("sub", .string (uuid.UUID.String minted.ID)),
         ("exp", .number (w0.clock w0.tick + s.cfg.JWTRefreshDays * 86400)),
         ("iat", .number (w0.clock (w0.tick + 1)))] s.cfg.JWTSecret := by
      simpa [authService.generateRefreshToken, timeNow] using hmint.symm
    subst htoken
    refine RefreshToken_parsed s _ w
      { Issuer := "", Subject := uuid.UUID.String minted.ID, Audience := [],
        ExpiresAt := some (w0.clock w0.tick + s.cfg.JWTRefreshDays * 86400), NotBefore := none,
        IssuedAt := some (w0.clock (w0.tick + 1)), ID := "" } userID user ?_ hsub hfind
    simp [jwt.SignedString, jwt.ParseWithClaims, decode_refresh_claims, jwt.verifies,
      jwt.validAt, hexp]

/-- The amended C19 at the technician 7: the access token minted at the clock 100 with
`exp` 1000 is presented at the clock 102 and answered with a new access token. -/
theorem refresh_token_acceptance_witness :
    uuid.Parse (uuid.UUID.String (mkUser 7 RoleTechnician).ID) = some 7 ∧
      (memAuthService.userRepo.FindByID 7 ([] : List Ticket)).1 =
        .ok (mkUser 7 RoleTechnician) ∧
      (memAuthService.RefreshToken
          (jwt.SignedString
            [("sub", .string "7"), ("email", .string ""), ("role", .string RoleTechnician),
             ("exp", .number 1000), ("iat", .number 101)] "s3cret")
          { db := [], clock := fun n => 100 + n, tick := 2, trace := [] }).1 =
        .ok (jwt.SignedString
          [("sub", .string "7"), ("email", .string ""), ("role", .string RoleTechnician),
           ("exp", .number 1003), ("iat", .number 104)] "s3cret") :=
  ⟨rfl, rfl,
    (refresh_token_acceptance memAuthService (mkUser 7 RoleTechnician)
      (mkUser 7 RoleTechnician) (memWorld [])
      { db := [], clock := fun n => 100 + n, tick := 2, trace := [] } 7 rfl rfl).1 _ rfl
      (by decide)⟩

end service

/-! ## What Update changes -/

namespace service

open domain repository

variable {σ : Type}

/-- The ticket that the four blocks of `Update` and the refresh of `UpdatedAt` make of
the stored ticket, field by field. -/
theorem Update_fields (updates : Updates) (stored : Ticket) (w : World σ) :
    let t : Ticket :=
      { applyPriority updates
          (applyStatus updates (applyDescription updates (applyTitle updates stored)) w).1 with
        UpdatedAt :=
          (applyStatus updates (applyDescription updates (applyTitle updates stored)) w).2.clock
            (applyStatus updates (applyDescription updates (applyTitle updates stored)) w).2.tick }
    (t.Title = (updates.getString "title").getD stored.Title ∧
      t.Description = (updates.getString "description").getD stored.Description ∧
      t.Status = (updates.getString "status").getD stored.Status ∧
      t.Priority = (updates.getString "priority").getD stored.Priority) ∧
    (t.ResolvedAt =
        (if updates.getString "status" = some StatusResolved then some (w.clock w.tick)
         else stored.ResolvedAt) ∧
      t.UpdatedAt =
        (if updates.getString "status" = some StatusResolved then w.clock (w.tick + 1)
         else w.clock w.tick)) ∧
    (t.ID = stored.ID ∧ t.Category = stored.Category ∧ t.Location = stored.Location ∧
      t.CreatedByID = stored.CreatedByID ∧ t.AssignedToID = stored.AssignedToID ∧
      t.DueDate = stored.DueDate ∧ t.CreatedAt = stored.CreatedAt) ∧
    (t.CreatedBy = stored.CreatedBy ∧ t.AssignedTo = stored.AssignedTo ∧
      t.Comments = stored.Comments ∧ t.Attachments = stored.Attachments ∧
      t.Logs = stored.Logs) := by
  cases ht : updates.getString "title" <;> cases hd : updates.getString "description" <;>
    cases hp : updates.getString "priority" <;> cases hs : updates.getString "status" <;>
    simp only [applyTitle, applyDescription, applyPriority, applyStatus, timeNow, ht, hd, hp, hs,
      Option.getD] <;>
    split_ifs <;> simp_all

/-- C21: when the lookup of `Update` finds the ticket `stored`, `Update` hands exactly
one ticket to the repository, and that ticket differs from `stored` only as the updates
map says: Title, Description, Status and Priority are the string under their key when
there is one and the stored value otherwise; ResolvedAt is the current time when the
map sets the status to "RESOLVED" and the stored value otherwise; UpdatedAt is the
time read next; ID, Category, Location, CreatedByID, AssignedToID, DueDate, CreatedAt
and the loaded relations are those of `stored`. -/
theorem update_frame (s : ticketService σ) (id : UUID) (updates : Updates)
    (editorID : UUID) (w : World σ) (stored : Ticket)
    (h : (s.repo.FindByID id w.db).1 = .ok stored) :
    ∃ calls, (s.Update id updates editorID w).2.trace = w.trace ++ calls ∧
      ∃ t, writtenTickets calls = [t] ∧
        (t.Title = (updates.getString "title").getD stored.Title ∧
          t.Description = (updates.getString "description").getD stored.Description ∧
          t.Status = (updates.getString "status").getD stored.Status ∧
          t.Priority = (updates.getString "priority").getD stored.Priority) ∧
        (t.ResolvedAt =
            (if updates.getString "status" = some StatusResolved then some (w.clock w.tick)
             else stored.ResolvedAt) ∧
          t.UpdatedAt =
            (if updates.getString "status" = some StatusResolved then w.clock (w.tick + 1)
             else w.clock w.tick)) ∧
        (t.ID = stored.ID ∧ t.Category = stored.Category ∧ t.Location = stored.Location ∧
          t.CreatedByID = stored.CreatedByID ∧ t.AssignedToID = stored.AssignedToID ∧
          t.DueDate = stored.DueDate ∧ t.CreatedAt = stored.CreatedAt) ∧
        (t.CreatedBy = stored.CreatedBy ∧ t.AssignedTo = stored.AssignedTo ∧
          t.Comments = stored.Comments ∧ t.Attachments = stored.Attachments ∧
          t.Logs = stored.Logs) := by
  have hq : ∀ p, writtenTickets (notifyCalls s.hub "ticket:updated" p) = [] := by
    intro p; cases s.hub <;> rfl
  simp only [ticketService.Update, repoFindByID, h, timeNow, repoUpdate, applyStatus_trace,
    applyStatus_db, notify_eq]
  split
  · simp only [List.append_assoc, List.singleton_append]
    refine ⟨_, rfl, ?_⟩
    simp only [List.cons_append, List.nil_append, writtenTickets]
    refine ⟨_, rfl, ?_⟩
    exact Update_fields updates stored _
  · simp only [List.append_assoc, List.singleton_append]
    refine ⟨_, rfl, ?_⟩
    simp only [List.cons_append, List.nil_append, List.append_eq, writtenTickets, hq]
    refine ⟨_, rfl, ?_⟩
    exact Update_fields updates stored _

/-- C21 on the in-memory service: the ticket 1, resolved at 50, is moved back to
IN_PROGRESS by a map that also carries a title that is no string; the ticket written
keeps its title and its ResolvedAt, and only Status and UpdatedAt change. -/
theorem update_frame_witness :
    (memService.repo.FindByID 1 (memWorld [resolvedLeak]).db).1 = .ok resolvedLeak ∧
      (∃ calls,
        (memService.Update 1 [("status", .string "IN_PROGRESS"), ("title", .number 5)] 3
            (memWorld [resolvedLeak])).2.trace = (memWorld [resolvedLeak]).trace ++ calls ∧
          ∃ t, writtenTickets calls = [t] ∧
            t.Status = "IN_PROGRESS" ∧ t.Title = "Leak" ∧ t.ResolvedAt = some 50 ∧
            t.UpdatedAt = 100 ∧ t.ID = 1) ∧
      writtenTickets (newCalls (memWorld [resolvedLeak])
          (memService.Update 1 [("status", .string "IN_PROGRESS"), ("title", .number 5)] 3
            (memWorld [resolvedLeak])).2) =
        [{ resolvedLeak with Status := "IN_PROGRESS", UpdatedAt := 100 }] := by
  obtain ⟨calls, htrace, t, hw, ⟨ht, _, hs, _⟩, ⟨hr, hu⟩, ⟨hid, _⟩, _⟩ :=
    update_frame memService 1 [("status", .string "IN_PROGRESS"), ("title", .number 5)] 3
      (memWorld [resolvedLeak]) resolvedLeak rfl
  exact ⟨rfl, ⟨calls, htrace, t, hw, hs, ht, hr, hu, hid⟩, rfl⟩

end service

/-! ## The page count of the list handlers -/

namespace golang

/-- A value in the range of `int` is its own wrap-around. -/
theorem wrapInt64_of_range (x : Int) (h1 : -2 ^ 63 ≤ x) (h2 : x < 2 ^ 63) :
    wrapInt64 x = x := by
  unfold wrapInt64
  norm_num at h1 h2 ⊢
  omega

/-- Subtracting one after a wrapped sum is the wrap of the exact difference. -/
theorem wrapInt64_sub_one (x : Int) : wrapInt64 (wrapInt64 x - 1) = wrapInt64 (x - 1) := by
  unfold wrapInt64
  norm_num
  omega

/-- The expression `(int(total) + limit - 1) / limit` when the sum does not leave the
range of `int`: the division does not panic and gives the exact quotient. -/
theorem intDiv_pages (total limit : Int) (ht : 0 ≤ total) (hl : 1 ≤ limit)
    (hb : total + limit - 1 < 2 ^ 63) :
    intDiv (wrapInt64 (wrapInt64 (total + limit) - 1)) limit =
      some ((total + limit - 1) / limit) := by
  have hq0 : 0 ≤ (total + limit - 1) / limit := Int.ediv_nonneg (by omega) (by omega)
  have hq1 : (total + limit - 1) / limit ≤ total + limit - 1 :=
    Int.ediv_le_self _ (by omega)
  rw [wrapInt64_sub_one, wrapInt64_of_range _ (by norm_num; omega) hb]
  unfold intDiv
  rw [if_neg (by omega), Int.tdiv_eq_ediv (by omega) (by omega),
    wrapInt64_of_range _ (by norm_num; omega) (by omega)]

/-- The quotient `(total + limit - 1) / limit` is the ceiling of `total / limit`. -/
theorem pages_ceiling (total limit : Int) (ht : 0 ≤ total) (hl : 1 ≤ limit) :
    (total = 0 → (total + limit - 1) / limit = 0) ∧
      (0 < total → ((total + limit - 1) / limit - 1) * limit < total ∧
        total ≤ (total + limit - 1) / limit * limit) := by
  have hdiv := Int.ediv_add_emod (total + limit - 1) limit
  have hr0 := Int.emod_nonneg (total + limit - 1) (show limit ≠ 0 by omega)
  have hr1 := Int.emod_lt_of_pos (total + limit - 1) (show 0 < limit by omega)
  constructor
  · intro h0
    subst h0
    exact Int.ediv_eq_zero_of_lt (by omega) (by omega)
  · intro _
    constructor <;> nlinarith

end golang

namespace handler

open domain repository service

variable {σ : Type}

/-- C25, evaluated: with `limit=9223372036854775807` and three rows the sum
`int(total) + limit` leaves the range of `int` and both handlers report a `totalPages`
of -1, where the ceiling of 3 / limit is 1. -/
theorem total_pages_ceiling_counterexample :
    (TicketHandler.GetAll pagedService [("limit", "9223372036854775807")] threeTickets).1.meta =
        some (9223372036854775807, -1) ∧
      (UserHandler.GetAll ⟨memUserRepo⟩ [("limit", "9223372036854775807")] []).1.meta =
        some (9223372036854775807, -1) := by
  decide

/-- C25, amended: for a parsed `limit` of at least 1, a query that succeeds with a
`total` of at least 0, and `total + limit - 1` within the range of `int`, both
`TicketHandler.GetAll` and `UserHandler.GetAll` answer 200 with a `totalPages` that is
the ceiling of `total / limit`: 0 when `total` is 0, and otherwise
`(totalPages - 1) * limit < total ≤ totalPages * limit`. -/
theorem total_pages_ceiling (ts : ticketService σ) (us : userService σ) (q : QueryValues)
    (w : World σ) (db : σ) (hl : 1 ≤ (golang.Atoi (DefaultQuery q "limit" "10")).1) :
    (∀ tickets total,
        (ts.GetAll
          { Status := Query q "status", Priority := Query q "priority",
            Category := Query q "category", AssignedToID := none, CreatedByID := none,
            Search := Query q "search", Page := (golang.Atoi (DefaultQuery q "page" "1")).1,
            Limit := (golang.Atoi (DefaultQuery q "limit" "10")).1 } w).1 =
          .ok (tickets, total) →
        0 ≤ total →
        total + (golang.Atoi (DefaultQuery q "limit" "10")).1 - 1 < 2 ^ 63 →
        ∃ totalPages,
          (TicketHandler.GetAll ts q w).1 =
            .ok http.StatusOK tickets total (golang.Atoi (DefaultQuery q "page" "1")).1
              (golang.Atoi (DefaultQuery q "limit" "10")).1 totalPages ∧
          (total = 0 → totalPages = 0) ∧
          (0 < total →
            (totalPages - 1) * (golang.Atoi (DefaultQuery q "limit" "10")).1 < total ∧
            total ≤ totalPages * (golang.Atoi (DefaultQuery q "limit" "10")).1)) ∧
      (∀ users total,
        (us.GetAll (golang.Atoi (DefaultQuery q "page" "1")).1
          (golang.Atoi (DefaultQuery q "limit" "10")).1 db).1 = .ok (users, total) →
        0 ≤ total →
        total + (golang.Atoi (DefaultQuery q "limit" "10")).1 - 1 < 2 ^ 63 →
        ∃ totalPages,
          (UserHandler.GetAll us q db).1 =
            .ok http.StatusOK users total (golang.Atoi (DefaultQuery q "page" "1")).1
              (golang.Atoi (DefaultQuery q "limit" "10")).1 totalPages ∧
          (total = 0 → totalPages = 0) ∧
          (0 < total →
            (totalPages - 1) * (golang.Atoi (DefaultQuery q "limit" "10")).1 < total ∧
            total ≤ totalPages * (golang.Atoi (DefaultQuery q "limit" "10")).1)) := by
  constructor
  · intro tickets total hres ht hb
    refine ⟨_, ?_, golang.pages_ceiling total _ ht hl⟩
    simp only [TicketHandler.GetAll, hres, golang.intDiv_pages total _ ht hl hb]
  · intro users total hres ht hb
    refine ⟨_, ?_, golang.pages_ceiling total _ ht hl⟩
    simp only [UserHandler.GetAll, hres, golang.intDiv_pages total _ ht hl hb]

/-- The amended C25 on the in-memory services: three tickets and `limit=2` give two
pages. -/
theorem total_pages_ceiling_witness :
    1 ≤ (golang.Atoi (DefaultQuery [("limit", "2")] "limit" "10")).1 ∧
      ∃ totalPages,
        (TicketHandler.GetAll pagedService [("limit", "2")] threeTickets).1 =
          .ok http.StatusOK (threeTickets.db.take 2) 3 1 2 totalPages ∧
        (totalPages - 1) * 2 < 3 ∧ 3 ≤ totalPages * 2 := by
  obtain ⟨totalPages, h1, _, h3⟩ :=
    (total_pages_ceiling pagedService ⟨memUserRepo⟩ [("limit", "2")] threeTickets []
      (by decide)).1 (threeTickets.db.take 2) 3 rfl (by decide) (by decide)
  exact ⟨by decide, totalPages, h1, h3 (by decide)⟩

end handler

/-! ## The password of a user is not encoded -/

namespace domain

open json

theorem marshalUser_withPassword (password : User → String) (u : User) :
    (u.withPassword password).MarshalJSON = u.MarshalJSON := rfl

theorem omitemptyPointer_withPassword (key : String) (password : User → String)
    (o : Option User) :
    omitemptyPointer key User.MarshalJSON (o.map (User.withPassword password)) =
      omitemptyPointer key User.MarshalJSON o := by
  cases o <;> rfl

theorem omitemptySlice_map {α : Type} (key : String) (encode : α → Value) (f : α → α)
    (h : ∀ a, encode (f a) = encode a) (items : List α) :
    omitemptySlice key encode (items.map f) = omitemptySlice key encode items := by
  have hmap : (items.map f).map encode = items.map encode := by
    rw [List.map_map]
    exact List.map_congr_left (fun a _ => h a)
  have hempty : (items.map f).isEmpty = items.isEmpty := by cases items <;> rfl
  unfold omitemptySlice
  rw [hmap, hempty]

theorem marshalComment_withPassword (password : User → String) (c : Comment) :
    Comment.MarshalJSON { c with User := c.User.map (User.withPassword password) } =
      c.MarshalJSON := by
  simp only [Comment.MarshalJSON, omitemptyPointer_withPassword]

theorem marshalLog_withPassword (password : User → String) (l : TicketLog) :
    TicketLog.MarshalJSON { l with User := l.User.map (User.withPassword password) } =
      l.MarshalJSON := by
  simp only [TicketLog.MarshalJSON, omitemptyPointer_withPassword]

theorem marshalTicket_withPasswords (password : User → String) (t : Ticket) :
    (t.withPasswords password).MarshalJSON = t.MarshalJSON := by
  simp only [Ticket.MarshalJSON, Ticket.withPasswords, omitemptyPointer_withPassword,
    omitemptySlice_map "comments" Comment.MarshalJSON _
      (marshalComment_withPassword password),
    omitemptySlice_map "logs" TicketLog.MarshalJSON _
      (marshalLog_withPassword password)]

end domain

namespace handler

open domain repository service

variable {σ : Type}

/-- C23: the encoding of a `User` does not depend on its `Password`: a user and the same
user with any other password encode to the same JSON, and so do two lists of such
users; a `Ticket` and the same ticket in which every loaded user (`CreatedBy`,
`AssignedTo`, the users of its comments and log entries) has another password encode to
the same JSON, and so do the broadcast payloads made of them; the 201 of
`AuthHandler.Register` and the 200 of `AuthHandler.Login` carry the encoding of the
user with the password blanked. -/
theorem password_not_exposed :
    (∀ (u : User) (password : String),
        User.MarshalJSON { u with Password := password } = u.MarshalJSON) ∧
      (∀ (users : List User) (password : User → String),
        (users.map (User.withPassword password)).map User.MarshalJSON =
          users.map User.MarshalJSON) ∧
      (∀ (t : Ticket) (password : User → String),
        (t.withPasswords password).MarshalJSON = t.MarshalJSON ∧
          Payload.MarshalJSON (.ticket (t.withPasswords password)) =
            Payload.MarshalJSON (.ticket t)) ∧
      (∀ (s : authService σ) (crypt : bcrypt.Package) (req : RegisterRequest) (w : World σ)
          (u : User),
        (s.Register crypt req.Name req.Email req.Password w).1 = .ok u →
        (AuthHandler.Register s crypt (.ok req) w).1 =
          .registered http.StatusCreated "User registered successfully"
            (User.MarshalJSON { u with Password := "" })) ∧
      (∀ (s : authService σ) (crypt : bcrypt.Package) (req : LoginRequest) (w : World σ)
          (u : User) (accessToken refreshToken : jwt.TokenString),
        (s.Login crypt req.Email req.Password w).1 = .ok (u, accessToken, refreshToken) →
        (AuthHandler.Login s crypt (.ok req) w).1 =
          .loggedIn http.StatusOK (User.MarshalJSON { u with Password := "" }) accessToken
            refreshToken) := by
  refine ⟨fun _ _ => rfl, ?_, ?_, ?_, ?_⟩
  · intro users password
    rw [List.map_map]
    exact List.map_congr_left (fun u _ => marshalUser_withPassword password u)
  · intro t password
    exact ⟨marshalTicket_withPasswords password t, marshalTicket_withPasswords password t⟩
  · intro s crypt req w u h
    simp only [AuthHandler.Register, h]
    rfl
  · intro s crypt req w u accessToken refreshToken h
    simp only [AuthHandler.Login, h]
    rfl

/-- C23 on the account of Ann: logging in with her password answers 200 with her
record encoded, in which the stored hash "$2a$10$1terces" does not occur. -/
theorem password_not_exposed_witness :
    (annService.Login memBcrypt "ann@example.com" "secret1" (annWorld [ann])).1 =
        .ok (ann,
          jwt.SignedString
            [("sub", .string "1"), ("email", .string "ann@example.com"),
             ("role", .string RoleTechnician), ("exp", .number 1000), ("iat", .number 101)]
            "s3cret",
          jwt.SignedString
            [("sub", .string "1"), ("exp", .number 604902), ("iat", .number 103)] "s3cret") ∧
      (AuthHandler.Login annService memBcrypt
          (.ok { Email := "ann@example.com", Password := "secret1" }) (annWorld [ann])).1 =
        .loggedIn 200
          (.object
            [("id", .string "1"), ("email", .string "ann@example.com"), ("name", .string "Ann"),
             ("role", .string "TECHNICIAN"), ("status", .string "active"),
             ("createdAt", .string "0"), ("updatedAt", .string "0")])
          (jwt.SignedString
            [("sub", .string "1"), ("email", .string "ann@example.com"),
             ("role", .string RoleTechnician), ("exp", .number 1000), ("iat", .number 101)]
            "s3cret")
          (jwt.SignedString
            [("sub", .string "1"), ("exp", .number 604902), ("iat", .number 103)] "s3cret") :=
  ⟨rfl,
    password_not_exposed.2.2.2.2 annService memBcrypt
      { Email := "ann@example.com", Password := "secret1" } (annWorld [ann]) ann _ _ rfl⟩

end handler

/-! ## Login and Register -/

namespace service

open domain repository

variable {σ : Type}

/-- `Login` for an email the repository does not find. -/
theorem Login_unknown (s : authService σ) (crypt : bcrypt.Package) (email password : String)
    (w : World σ) (err : Err) (h : (s.userRepo.FindByEmail email w.db).1 = .error err) :
    (s.Login crypt email password w).1 = .error ErrInvalidCredentials := by
  simp only [authService.Login]
  split
  · rfl
  · next user hu => exact absurd (hu.symm.trans h) (by simp)

/-- `Login` for a user the repository finds, by what the comparison of the password with
the stored hash gives. -/
theorem Login_known (s : authService σ) (crypt : bcrypt.Package) (email password : String)
    (w : World σ) (user : User) (h : (s.userRepo.FindByEmail email w.db).1 = .ok user) :
    (s.Login crypt email password w).1 =
      match crypt.CompareHashAndPassword user.Password password with
      | some _ => .error ErrInvalidCredentials
      | none =>
        .ok (user,
          jwt.SignedString
            [("sub", .string (uuid.UUID.String user.ID)), ("email", .string user.Email),
             ("role", .string user.Role),
             ("exp", .number (w.clock w.tick + s.cfg.JWTExpireMinutes * 60)),
             ("iat", .number (w.clock (w.tick + 1)))] s.cfg.JWTSecret,
          jwt.SignedString
            [("sub", .string (uuid.UUID.String user.ID)),
             ("exp", .number (w.clock (w.tick + 2) + s.cfg.JWTRefreshDays * 86400)),
             ("iat", .number (w.clock (w.tick + 3)))] s.cfg.JWTSecret) := by
  simp only [authService.Login]
  split
  · next e he => exact absurd (he.symm.trans h) (by simp)
  · next u hu =>
    obtain rfl : u = user := by simpa using hu.symm.trans h
    cases crypt.CompareHashAndPassword u.Password password <;> rfl

/-- C22: `Login` answers an email the repository does not find and a found email with a
password that does not match the stored hash with the same result, the error
`ErrInvalidCredentials` with no user and no tokens, and `AuthHandler.Login` answers both
with the same response, 401 "Invalid credentials"; and whenever `Login` returns tokens,
the repository found the user and the comparison of the password with the stored hash
returned nil, and conversely. -/
theorem login_uniform (s : authService σ) (crypt : bcrypt.Package)
    (unknownEmail knownEmail password1 password2 : String) (w1 w2 : World σ)
    (err mismatch : Err) (user : User)
    (hunknown : (s.userRepo.FindByEmail unknownEmail w1.db).1 = .error err)
    (hknown : (s.userRepo.FindByEmail knownEmail w2.db).1 = .ok user)
    (hwrong : crypt.CompareHashAndPassword user.Password password2 = some mismatch) :
    ((s.Login crypt unknownEmail password1 w1).1 = .error ErrInvalidCredentials ∧
      (s.Login crypt knownEmail password2 w2).1 = .error ErrInvalidCredentials ∧
      (handler.AuthHandler.Login s crypt
          (.ok { Email := unknownEmail, Password := password1 }) w1).1 =
        .error http.StatusUnauthorized "Invalid credentials" ∧
      (handler.AuthHandler.Login s crypt
          (.ok { Email := knownEmail, Password := password2 }) w2).1 =
        .error http.StatusUnauthorized "Invalid credentials") ∧
    (∀ email password (w : World σ) result,
      (s.Login crypt email password w).1 = .ok result →
      (s.userRepo.FindByEmail email w.db).1 = .ok result.1 ∧
        crypt.CompareHashAndPassword result.1.Password password = none) ∧
    (∀ email password (w : World σ) found,
      (s.userRepo.FindByEmail email w.db).1 = .ok found →
      crypt.CompareHashAndPassword found.Password password = none →
      ∃ accessToken refreshToken,
        (s.Login crypt email password w).1 = .ok (found, accessToken, refreshToken)) := by
  have h1 := Login_unknown s crypt unknownEmail password1 w1 err hunknown
  have h2 := Login_known s crypt knownEmail password2 w2 user hknown
  simp only [hwrong] at h2
  refine ⟨⟨h1, h2, ?_, ?_⟩, ?_, ?_⟩
  · simp only [handler.AuthHandler.Login, h1]
  · simp only [handler.AuthHandler.Login, h2]
  · intro email password w result hres
    cases hfind : (s.userRepo.FindByEmail email w.db).1 with
    | error e =>
      rw [Login_unknown s crypt email password w e hfind] at hres
      exact absurd hres (by simp)
    | ok found =>
      rw [Login_known s crypt email password w found hfind] at hres
      cases hcmp : crypt.CompareHashAndPassword found.Password password with
      | some e =>
        simp only [hcmp] at hres
        exact absurd hres (by simp)
      | none =>
        simp only [hcmp, Except.ok.injEq] at hres
        subst hres
        exact ⟨rfl, hcmp⟩
  · intro email password w found hfind hcmp
    rw [Login_known s crypt email password w found hfind]
    simp only [hcmp]
    exact ⟨_, _, rfl⟩

/-- C22 on the account of Ann: the unknown email `bob@example.com` and Ann's email with
the wrong password "letmein" get the same result. -/
theorem login_uniform_witness :
    (annService.userRepo.FindByEmail "bob@example.com" (annWorld [ann]).db).1 =
        .error "record not found" ∧
      (annService.userRepo.FindByEmail "ann@example.com" (annWorld [ann]).db).1 = .ok ann ∧
      memBcrypt.CompareHashAndPassword ann.Password "letmein" =
        some bcrypt.ErrMismatchedHashAndPassword ∧
      (annService.Login memBcrypt "bob@example.com" "letmein" (annWorld [ann])).1 =
        .error ErrInvalidCredentials ∧
      (annService.Login memBcrypt "ann@example.com" "letmein" (annWorld [ann])).1 =
        .error ErrInvalidCredentials :=
  ⟨rfl, rfl, by decide,
    (login_uniform annService memBcrypt "bob@example.com" "ann@example.com" "letmein"
      "letmein" (annWorld [ann]) (annWorld [ann]) "record not found"
      bcrypt.ErrMismatchedHashAndPassword ann rfl rfl (by decide)).1.1,
    (login_uniform annService memBcrypt "bob@example.com" "ann@example.com" "letmein"
      "letmein" (annWorld [ann]) (annWorld [ann]) "record not found"
      bcrypt.ErrMismatchedHashAndPassword ann rfl rfl (by decide)).1.2.1⟩

end service

namespace service

open domain repository

variable {σ : Type}

/-- C24, evaluated.  First, the table holds Ann's account but the lookup fails on the
connection: `Register` drops the error of the lookup and goes on to a `Create` for her
email; the result is the error of that `Create`, not `ErrUserExists`, and the handler
answers 500.  Second, the table holds no user with the email `bob@example.com` and the
password has 73 bytes: `GenerateFromPassword` refuses it and `Register` returns that
error after the one lookup, with no `Create`; the handler answers 500. -/
theorem register_creates_counterexample :
    (([ann].any (fun u => u.Email == "ann@example.com")) = true ∧
      ((flakyService.recorded).Register memBcrypt "Eve" "ann@example.com" "hunter22"
          (annWorld [ann]).recording).2.db.2 =
        [.FindByEmail "ann@example.com",
         .Create { ID := 0, Email := "ann@example.com", Password := "$2a$10$22retnuh",
                   Name := "Eve", Role := "USER", Phone := "", Department := "",
                   Avatar := "", Status := "active", CreatedAt := 0, UpdatedAt := 0 }] ∧
      ((flakyService.recorded).Register memBcrypt "Eve" "ann@example.com" "hunter22"
          (annWorld [ann]).recording).1 =
        .error "duplicate key value violates unique constraint" ∧
      (handler.AuthHandler.Register flakyService memBcrypt
          (.ok { Name := "Eve", Email := "ann@example.com", Password := "hunter22" })
          (annWorld [ann])).1 = .error 500 "Failed to register user") ∧
    (([ann].any (fun u => u.Email == "bob@example.com")) = false ∧
      ((annService.recorded).Register memBcrypt "Bob" "bob@example.com"
          "0123456789012345678901234567890123456789012345678901234567890123456789012"
          (annWorld [ann]).recording).1 = .error bcrypt.ErrPasswordTooLong ∧
      ((annService.recorded).Register memBcrypt "Bob" "bob@example.com"
          "0123456789012345678901234567890123456789012345678901234567890123456789012"
          (annWorld [ann]).recording).2.db.2 = [.FindByEmail "bob@example.com"] ∧
      (handler.AuthHandler.Register annService memBcrypt
          (.ok { Name := "Bob", Email := "bob@example.com", Password :=
            "0123456789012345678901234567890123456789012345678901234567890123456789012" })
          (annWorld [ann])).1 = .error 500 "Failed to register user") :=
  ⟨⟨by decide, by decide, rfl, rfl⟩, ⟨by decide, rfl, by decide, rfl⟩⟩

/-- C24, amended: the calls `Register` makes on the user repository and its result.
When the lookup by email returns a user: that lookup only, and `ErrUserExists`.  When
the lookup returns an error, whatever the error (it is dropped), and
`GenerateFromPassword` fails: that lookup only, and the error of the hashing.  When the
lookup returns an error and the hashing gives `hashedPassword`: the lookup and then one
`Create` of the user with the given name and email, the role USER, the status active,
`hashedPassword` as its password and every other field zero; the result is the error
of that `Create`, or the user as `Create` left it.  Every user handed to `Create` has
the given name and email, the role USER, the status active and the hash as password,
which is not the plaintext password when the hash of a password differs from the
password. -/
theorem register_creates (s : authService σ) (crypt : bcrypt.Package)
    (name email password : String) (w : World σ) :
    ((s.recorded).Register crypt name email password w.recording).2.db.2 =
        (match (s.userRepo.FindByEmail email w.db).1,
            crypt.GenerateFromPassword password bcrypt.DefaultCost with
          | .ok _, _ => [.FindByEmail email]
          | .error _, .error _ => [.FindByEmail email]
          | .error _, .ok hashedPassword =>
            [.FindByEmail email,
             .Create { ID := 0, Email := email, Password := hashedPassword, Name := name,
                       Role := RoleUser, Phone := "", Department := "", Avatar := "",
                       Status := StatusActive, CreatedAt := 0, UpdatedAt := 0 }]) ∧
      (s.Register crypt name email password w).1 =
        (match (s.userRepo.FindByEmail email w.db).1,
            crypt.GenerateFromPassword password bcrypt.DefaultCost with
          | .ok _, _ => .error ErrUserExists
          | .error _, .error err => .error err
          | .error _, .ok hashedPassword =>
            match (s.userRepo.Create
                { ID := 0, Email := email, Password := hashedPassword, Name := name,
                  Role := RoleUser, Phone := "", Department := "", Avatar := "",
                  Status := StatusActive, CreatedAt := 0, UpdatedAt := 0 }
                (s.userRepo.FindByEmail email w.db).2).1 with
            | (some err, _) => .error err
            | (none, user) => .ok user) ∧
      ((s.recorded).Register crypt name email password w.recording).1 =
        (s.Register crypt name email password w).1 ∧
      (∀ user,
        UserCall.Create user ∈
          ((s.recorded).Register crypt name email password w.recording).2.db.2 →
        user.Name = name ∧ user.Email = email ∧ user.Role = RoleUser ∧
          user.Status = StatusActive ∧
          crypt.GenerateFromPassword password bcrypt.DefaultCost = .ok user.Password ∧
          ((∀ hashedPassword,
              crypt.GenerateFromPassword password bcrypt.DefaultCost = .ok hashedPassword →
              hashedPassword ≠ password) →
            user.Password ≠ password)) := by
  simp only [authService.Register, authService.recorded, recorded, World.recording]
  cases hfind : (s.userRepo.FindByEmail email w.db).1 with
  | ok existing => exact ⟨rfl, rfl, rfl, by simp⟩
  | error e =>
    cases hhash : crypt.GenerateFromPassword password bcrypt.DefaultCost with
    | error err => exact ⟨rfl, rfl, rfl, by simp⟩
    | ok hashedPassword =>
      simp only [List.nil_append, List.cons_append]
      cases hcreate : (s.userRepo.Create
          { ID := 0, Email := email, Password := hashedPassword, Name := name,
            Role := RoleUser, Phone := "", Department := "", Avatar := "",
            Status := StatusActive, CreatedAt := 0, UpdatedAt := 0 }
          (s.userRepo.FindByEmail email w.db).2).1 with
      | mk cerr user =>
        have hmem : ∀ u : User,
            UserCall.Create u ∈ [UserCall.FindByEmail email,
              .Create { ID := 0, Email := email, Password := hashedPassword, Name := name,
                        Role := RoleUser, Phone := "", Department := "", Avatar := "",
                        Status := StatusActive, CreatedAt := 0, UpdatedAt := 0 }] →
            u.Name = name ∧ u.Email = email ∧ u.Role = RoleUser ∧
              u.Status = StatusActive ∧
              (Except.ok hashedPassword : Except Err String) = .ok u.Password ∧
              ((∀ h, (Except.ok hashedPassword : Except Err String) = .ok h → h ≠ password) →
                u.Password ≠ password) := by
          intro u hu
          simp only [List.mem_cons, reduceCtorEq, UserCall.Create.injEq, List.mem_singleton,
            List.not_mem_nil, or_false, false_or] at hu
          subst hu
          exact ⟨rfl, rfl, rfl, rfl, rfl, fun h => h _ rfl⟩
        cases cerr with
        | none =>
          simp only [hcreate]
          exact ⟨trivial, trivial, trivial, hmem⟩
        | some cerr =>
          simp only [hcreate]
          exact ⟨trivial, trivial, trivial, hmem⟩

/-- The amended C24 on the table of Ann: registering Bob with the password "hunter22"
makes the lookup and one `Create` of a USER whose password is the hash, not the
plaintext. -/
theorem register_creates_witness :
    ((annService.recorded).Register memBcrypt "Bob" "bob@example.com" "hunter22"
        (annWorld [ann]).recording).2.db.2 =
      [.FindByEmail "bob@example.com",
       .Create { ID := 0, Email := "bob@example.com", Password := "$2a$10$22retnuh",
                 Name := "Bob", Role := "USER", Phone := "", Department := "", Avatar := "",
                 Status := "active", CreatedAt := 0, UpdatedAt := 0 }] ∧
      ({ ID := 0, Email := "bob@example.com", Password := "$2a$10$22retnuh",
         Name := "Bob", Role := "USER", Phone := "", Department := "", Avatar := "",
         Status := "active", CreatedAt := 0, UpdatedAt := 0 } : User).Password ≠ "hunter22" :=
  ⟨(register_creates annService memBcrypt "Bob" "bob@example.com" "hunter22"
      (annWorld [ann])).1,
    ((register_creates annService memBcrypt "Bob" "bob@example.com" "hunter22"
      (annWorld [ann])).2.2.2 _ (by decide)).2.2.2.2.2
      (fun hashedPassword hh => by
        have hval : hashedPassword = "$2a$10$22retnuh" := by
          have hgen : memBcrypt.GenerateFromPassword "hunter22" bcrypt.DefaultCost =
              .ok "$2a$10$22retnuh" := rfl
          rw [hgen] at hh
          exact (Except.ok.inj hh).symm
        rw [hval]
        decide)⟩

end service
